import Mathlib

/-!
Shallow embedding of the Panora unified-API integration platform
(sync services, per-object CRUD services, Zendesk ticket mapper, auth
service) together with proofs about the embedded operations.

Conventions used throughout:
* JavaScript `Date` values are modelled as natural numbers (milliseconds).
* JavaScript `null`/`undefined` for a field of type `T` is modelled as
  `Option T` with `none`.
* JavaScript truthiness is modelled explicitly (`jsTruthyStr`, ...):
  `undefined`, `null`, `''`, `0` and `false` are falsy, arrays and objects
  are always truthy.
* `uuidv4()` is modelled as a deterministic injective supply of fresh
  identifiers driven by a counter threaded through the database state.
* Thrown JavaScript errors are modelled with `Except JsErr`.
-/

/-- Errors thrown by the embedded code. -/
inductive JsErr where
  | referenceError (msg : String)
  | typeError (msg : String)
  | badRequestException (msg : String)
deriving DecidableEq

/-- Truthiness of a JS string-or-nullish value: `undefined`, `null` and the
empty string are falsy. -/
def jsTruthyStr : Option String → Bool
  | none => false
  | some s => !(s == "")

/-- Truthiness of a JS number-or-nullish value: `undefined`, `null` and `0`
are falsy. -/
def jsTruthyNat : Option Nat → Bool
  | none => false
  | some n => !(n == 0)

/-- Template-literal rendering of a string-or-nullish value
(`${undefined}` prints as "undefined"). -/
def jsShowOptStr : Option String → String
  | none => "undefined"
  | some s => s

/-- Model of `String.prototype.toLowerCase` (ASCII). -/
def toLowerStr (s : String) : String := String.mk (s.data.map Char.toLower)

/-- Model of `String.prototype.toUpperCase` (ASCII). -/
def toUpperStr (s : String) : String := String.mk (s.data.map Char.toUpper)

/-- Insert-or-overwrite for a JS object used as a string-keyed map,
preserving first-insertion order (the behaviour of `obj[k] = v` and of
`Map.prototype.set`). -/
def setAssoc (l : List (String × String)) (k v : String) : List (String × String) :=
  if l.any (fun p => p.1 == k) then
    l.map (fun p => if p.1 == k then (k, v) else p)
  else
    l ++ [(k, v)]

/-- UTF-8 encoding of a single character, as byte values. -/
def utf8EncodeChar (c : Char) : List Nat :=
  let n := c.toNat
  if n < 128 then [n]
  else if n < 2048 then [192 + n / 64, 128 + n % 64]
  else if n < 65536 then [224 + n / 4096, 128 + n / 64 % 64, 128 + n % 64]
  else [240 + n / 262144, 128 + n / 4096 % 64, 128 + n / 64 % 64, 128 + n % 64]

/-- The base64 alphabet. -/
def base64Alphabet : List Char :=
  "ABCDEFGHIJKLMNOPQRSTUVWXYZabcdefghijklmnopqrstuvwxyz0123456789+/".data

/-- Character of the base64 alphabet at a given index. -/
def b64c (n : Nat) : Char := base64Alphabet.getD n '?'

/-- Base64 encoding of a byte list, three bytes at a time, with padding. -/
def base64Chunks : List Nat → String
  | [] => ""
  | [a] => String.mk [b64c (a / 4), b64c (a % 4 * 16)] ++ "=="
  | [a, b] => String.mk [b64c (a / 4), b64c (a % 4 * 16 + b / 16), b64c (b % 16 * 4)] ++ "="
  | a :: b :: c :: rest =>
      String.mk [b64c (a / 4), b64c (a % 4 * 16 + b / 16), b64c (b % 16 * 4 + c / 64),
        b64c (c % 64)] ++ base64Chunks rest

/-- Model of `Buffer.from(s).toString('base64')`. -/
def bufferBase64 (s : String) : String := base64Chunks (s.data.flatMap utf8EncodeChar)

/-- Deterministic injective stand-in for `uuidv4()`: the `n`-th identifier
drawn from the fresh-id supply. -/
def uuidv4 (n : Nat) : String := "uuid-" ++ String.mk (List.replicate n 'x')

/-- Custom field mapping record (`{slug, remote_id}`) as returned by
`fieldMappingService.getCustomFieldMappings`. -/
structure CFMapping where
  slug : String
  remote_id : String
deriving DecidableEq

/-! ### C2: per-unified-object CRUD service stubs

`ActionService` (marketingautomation) and `InterviewService.updateInterview`
(ats) are declared with CRUD signatures but their bodies are empty stubs:
every one of them is `return;`, i.e. resolves to `undefined` without touching
the database.  The embedding is polymorphic in the database and payload
types because the stubs never inspect them. -/

/-- Embedding of `ActionService.addAction`: the source body is `return;`. -/
def ActionService.addAction (δ α β : Type) (db : δ) (unifiedActionData : α)
    (connectionId integrationId linkedUserId : String) (remote_data : Option Bool) :
    δ × Option β :=
  (db, none)

/-- Embedding of `ActionService.getAction`: the source body is `return;`. -/
def ActionService.getAction (δ β : Type) (db : δ) (id_actioning_action : String)
    (remote_data : Option Bool) : δ × Option β :=
  (db, none)

/-- Embedding of `ActionService.getActions`: the source body is `return;`. -/
def ActionService.getActions (δ β : Type) (db : δ)
    (connection_id integrationId linkedUserId : String) (limit : Nat)
    (remote_data : Option Bool) (cursor : Option String) : δ × Option (List β) :=
  (db, none)

/-- Embedding of `InterviewService.updateInterview`: the source body is an
empty `try {} catch {}` followed by `return;`. -/
def InterviewService.updateInterview (δ α β : Type) (db : δ) (id : String)
    (updateInterviewData : α) : δ × Option β :=
  (db, none)

/-! ### C6: AuthService.resetPassword -/

/-- Row of the `users` table as used by `AuthService`. -/
structure AuthUserRow where
  id_user : String
  email : String
  password_hash : String
  first_name : String
  last_name : String
  reset_token : Option String
  reset_token_expiry : Option Nat
deriving DecidableEq

/-- Prisma `where` clause of `resetPassword`: `reset_token` equals the token
and `reset_token_expiry` is strictly greater than `new Date()` (a `gt`
comparison against a SQL NULL is not satisfied). -/
def resetTokenMatches (now : Nat) (token : String) (u : AuthUserRow) : Bool :=
  u.reset_token == some token &&
    (match u.reset_token_expiry with
     | some e => now < e
     | none => false)

/-- Embedding of `AuthService.resetPassword`.  `bcryptHash` abstracts
`bcrypt.hash(newPassword, 10)`.  Returns the users table after the call,
together with the message or thrown error. -/
def AuthService.resetPassword (bcryptHash : String → String) (now : Nat)
    (users : List AuthUserRow) (token : String) (newPassword : String) :
    List AuthUserRow × Except JsErr String :=
  match users.find? (resetTokenMatches now token) with
  | none => (users, .error (.badRequestException "Invalid or expired reset token"))
  | some user =>
      (users.map (fun u =>
        if u.id_user == user.id_user then
          { u with
            password_hash := bcryptHash newPassword
            reset_token := none
            reset_token_expiry := none }
        else u),
       .ok "Password reset successful")

/-! ### C8, C9: ZendeskTicketMapper -/

/-- The `comment` part of a `UnifiedTicketInput`. -/
structure UnifiedTicketComment where
  body : Option String
  html_body : Option String
  is_private : Option Bool
deriving DecidableEq

/-- The fields of `UnifiedTicketInput` read by `ZendeskTicketMapper.desunify`. -/
structure UnifiedTicketInput where
  name : String
  description : String
  comment : UnifiedTicketComment
  attachments : Option (List String)
  assigned_to : Option (List String)
  due_date : Option Nat
  priority : Option String
  status : Option String
  tags : Option (List String)
  type : Option String
  field_mappings : Option (List (String × String))
deriving DecidableEq

/-- Zendesk ticket comment payload. -/
structure ZendeskComment where
  body : Option String
  public : Bool
  uploads : List String
  html_body : Option String
deriving DecidableEq

/-- A Zendesk custom field (`{id, value}`). -/
structure CustomFieldKV where
  id : String
  value : String
deriving DecidableEq

/-- Zendesk ticket creation payload produced by `desunify`. -/
structure ZendeskTicketInput where
  description : String
  subject : String
  comment : ZendeskComment
  assignee_email : Option String
  due_at : Option String
  priority : Option String
  status : Option String
  tags : Option (List String)
  type : Option String
  custom_fields : Option (List CustomFieldKV)
deriving DecidableEq

/-- External helpers used by `desunify`: `utils.getAssigneeMetadataFromUuid`
and `Date.prototype.toISOString`. -/
structure ZdDesunifyEnv where
  getAssigneeMetadataFromUuid : String → String
  dateToISOString : Nat → String

/-- Initial `result` object built by `desunify` (the `const result = {...}`
statement, including `public: !source.comment.is_private || true`). -/
def zdDesunifyBase (source : UnifiedTicketInput) : ZendeskTicketInput :=
  { description := source.description
    subject := source.name
    comment :=
      { body := if jsTruthyStr source.comment.body then source.comment.body else none
        public := !(source.comment.is_private == some true) || true
        uploads := source.attachments.getD []
        html_body := none }
    assignee_email := none
    due_at := none
    priority := none
    status := none
    tags := none
    type := none
    custom_fields := none }

/-- The `if (source.comment.html_body)` statement of `desunify`. -/
def zdDesunifyHtml (source : UnifiedTicketInput) (result : ZendeskTicketInput) :
    ZendeskTicketInput :=
  if jsTruthyStr source.comment.html_body then
    { result with comment := { result.comment with html_body := source.comment.html_body } }
  else result

/-- The `if (source.assigned_to && source.assigned_to.length > 0)` statement
of `desunify`. -/
def zdDesunifyAssignee (env : ZdDesunifyEnv) (source : UnifiedTicketInput)
    (result : ZendeskTicketInput) : ZendeskTicketInput :=
  match source.assigned_to with
  | some (u :: _) =>
      { result with assignee_email := some (env.getAssigneeMetadataFromUuid u) }
  | _ => result

/-- The `if (source.due_date)` statement of `desunify`. -/
def zdDesunifyDue (env : ZdDesunifyEnv) (source : UnifiedTicketInput)
    (result : ZendeskTicketInput) : ZendeskTicketInput :=
  match source.due_date with
  | some d => { result with due_at := some (env.dateToISOString d) }
  | none => result

/-- The `if (source.priority)` statement of `desunify`
(`'MEDIUM'` maps to `'normal'`, otherwise `toLowerCase`). -/
def zdDesunifyPriority (source : UnifiedTicketInput) (result : ZendeskTicketInput) :
    ZendeskTicketInput :=
  if jsTruthyStr source.priority then
    { result with
      priority := some (if source.priority.getD "" == "MEDIUM" then "normal"
        else toLowerStr (source.priority.getD "")) }
  else result

/-- The `if (source.status)` statement of `desunify`. -/
def zdDesunifyStatus (source : UnifiedTicketInput) (result : ZendeskTicketInput) :
    ZendeskTicketInput :=
  if jsTruthyStr source.status then
    { result with status := some (toLowerStr (source.status.getD "")) }
  else result

/-- The `if (source.tags)` statement of `desunify` (an array is truthy even
when empty). -/
def zdDesunifyTags (source : UnifiedTicketInput) (result : ZendeskTicketInput) :
    ZendeskTicketInput :=
  match source.tags with
  | some ts => { result with tags := some ts }
  | none => result

/-- The `if (source.type)` statement of `desunify`. -/
def zdDesunifyType (source : UnifiedTicketInput) (result : ZendeskTicketInput) :
    ZendeskTicketInput :=
  if jsTruthyStr source.type then
    { result with type := some (toLowerStr (source.type.getD "")) }
  else result

/-- The `if (customFieldMappings && source.field_mappings)` statement of
`desunify`. -/
def zdDesunifyCustomFields (source : UnifiedTicketInput)
    (customFieldMappings : Option (List CFMapping)) (result : ZendeskTicketInput) :
    ZendeskTicketInput :=
  match customFieldMappings, source.field_mappings with
  | some cfms, some fms =>
      { result with
        custom_fields := some (fms.foldl (fun res kv =>
          match cfms.find? (fun m => m.slug == kv.1) with
          | some m => res ++ [⟨m.remote_id, kv.2⟩]
          | none => res) []) }
  | _, _ => result

/-- Embedding of `ZendeskTicketMapper.desunify`: the initial object literal
followed by the source's sequence of conditional mutations. -/
def ZendeskTicketMapper.desunify (env : ZdDesunifyEnv) (source : UnifiedTicketInput)
    (customFieldMappings : Option (List CFMapping)) : ZendeskTicketInput :=
  zdDesunifyCustomFields source customFieldMappings
    (zdDesunifyType source
      (zdDesunifyTags source
        (zdDesunifyStatus source
          (zdDesunifyPriority source
            (zdDesunifyDue env source
              (zdDesunifyAssignee env source
                (zdDesunifyHtml source (zdDesunifyBase source))))))))

/-- The fields of a Zendesk ticket read by `mapSingleTicketToUnified`. -/
structure ZendeskTicketOutput where
  id : Nat
  subject : String
  description : Option String
  status : Option String
  priority : Option String
  due_at : Option String
  updated_at : String
  assignee_id : Option Nat
  type : Option String
  tags : Option (List String)
  custom_fields : List CustomFieldKV
deriving DecidableEq

/-- The `opts` object of `mapSingleTicketToUnified`; each branch of the
source reassigns the whole object, so all other fields revert to absent. -/
structure TicketOpts where
  assigned_to : Option (List String)
  type : Option String
  tags : Option (List String)
deriving DecidableEq

/-- Unified ticket produced by `mapSingleTicketToUnified`. -/
structure UnifiedTicketOutput where
  remote_id : String
  name : String
  status : String
  description : Option String
  due_date : Option Nat
  parent_ticket : Option String
  completed_at : Nat
  priority : Option String
  field_mappings : List (String × String)
  assigned_to : Option (List String)
  type : Option String
  tags : Option (List String)
deriving DecidableEq

/-- External helpers used by `mapSingleTicketToUnified`:
`utils.getUserUuidFromRemoteId`, the tag sub-unification
(`coreUnificationService.unify` for `TicketingObject.tag`) and `new Date(s)`. -/
structure ZdUnifyEnv where
  getUserUuidFromRemoteId : String → String → Option String
  unifyTags : List String → List String
  parseDate : String → Nat

/-- Embedding of `ZendeskTicketMapper.mapSingleTicketToUnified`. -/
def ZendeskTicketMapper.mapSingleTicketToUnified (env : ZdUnifyEnv)
    (ticket : ZendeskTicketOutput) (connectionId : String)
    (customFieldMappings : Option (List CFMapping)) : UnifiedTicketOutput :=
  let field_mappings : List (String × String) :=
    match customFieldMappings with
    | some cfms =>
        cfms.foldl (fun fm mapping =>
          match ticket.custom_fields.find? (fun f => f.id == mapping.remote_id) with
          | some customField => setAssoc fm mapping.slug customField.value
          | none => fm) []
    | none => []
  let opts0 : TicketOpts := ⟨none, none, none⟩
  let opts1 :=
    if jsTruthyNat ticket.assignee_id then
      let user_id := env.getUserUuidFromRemoteId (toString (ticket.assignee_id.getD 0))
        connectionId
      if jsTruthyStr user_id then
        ({ assigned_to := some [user_id.getD ""], type := none, tags := none } : TicketOpts)
      else opts0
    else opts0
  let opts2 :=
    if jsTruthyStr ticket.type then
      ({ assigned_to := none
         type := some (if ticket.type.getD "" == "incident" then "PROBLEM"
           else toUpperStr (ticket.type.getD ""))
         tags := none } : TicketOpts)
    else opts1
  let opts3 :=
    match ticket.tags with
    | some ts =>
        ({ assigned_to := none, type := none, tags := some (env.unifyTags ts) } : TicketOpts)
    | none => opts2
  { remote_id := toString ticket.id
    name := ticket.subject
    status := if ticket.status == some "new" || ticket.status == some "open"
      then "OPEN" else "CLOSED"
    description := ticket.description
    due_date := if jsTruthyStr ticket.due_at then some (env.parseDate (ticket.due_at.getD ""))
      else none
    parent_ticket := none
    completed_at := env.parseDate ticket.updated_at
    priority := ticket.priority
    field_mappings := field_mappings
    assigned_to := opts3.assigned_to
    type := opts3.type
    tags := opts3.tags }

/-! ### C3, C4: InterviewService.getInterviews -/

/-- Row of the `events` table. -/
structure EventRow where
  id_event : String
  status : String
  type : String
  method : String
  url : String
  provider : String
  direction : String
  timestamp : Nat
  id_linked_user : String
deriving DecidableEq

/-- Row of the `ats_interviews` table. -/
structure AtsInterviewRow where
  id_ats_interview : String
  id_connection : String
  created_at : Nat
  modified_at : Nat
  status : Option String
  id_ats_application : Option String
  id_ats_job_interview_stage : Option String
  organized_by : Option String
  interviewers : Option String
  location : Option String
  start_at : Option Nat
  end_at : Option Nat
  remote_created_at : Option Nat
  remote_updated_at : Option Nat
  remote_id : Option String
deriving DecidableEq

/-- A row of the `value` table joined with its `attribute`
(`ressource_owner_id` of the owning entity, attribute slug, stored data). -/
structure AtsValueJoined where
  ressource_owner_id : String
  slug : String
  data : String
deriving DecidableEq

/-- Row of the `remote_data` table as read by `getInterviews`. -/
structure AtsRemoteDataRow where
  ressource_owner_id : String
  data : String
deriving DecidableEq

/-- Database state visible to `InterviewService.getInterviews`. -/
structure AtsDb where
  ats_interviews : List AtsInterviewRow
  values : List AtsValueJoined
  remote_data : List AtsRemoteDataRow
  events : List EventRow
  nextUuid : Nat
deriving DecidableEq

/-- Model of JS `String(x)` on a Date-or-null column. -/
def jsStringOfDate : Option Nat → String
  | none => "null"
  | some n => "Date(" ++ toString n ++ ")"

/-- Unified interview object returned by the interview service. -/
structure UnifiedInterviewOutput where
  id : String
  status : Option String
  application_id : Option String
  job_interview_stage_id : Option String
  organized_by : Option String
  interviewers : Option String
  location : Option String
  start_at : String
  end_at : String
  remote_created_at : String
  remote_updated_at : String
  field_mappings : List (String × String)
  remote_id : Option String
  created_at : Nat
  modified_at : Nat
  remote_data : Option String
deriving DecidableEq

/-- Field mappings of one interview: the `value` rows owned by it, folded
through a `Map` keyed by attribute slug (insertion order, last value wins). -/
def interviewFieldMappings (db : AtsDb) (rowId : String) : List (String × String) :=
  (db.values.filter (fun v => v.ressource_owner_id == rowId)).foldl
    (fun m v => setAssoc m v.slug v.data) []

/-- Transformation of an `ats_interviews` row to `UnifiedInterviewOutput`
performed inline by `getInterview`/`getInterviews`. -/
def interviewToUnified (db : AtsDb) (iv : AtsInterviewRow) : UnifiedInterviewOutput :=
  { id := iv.id_ats_interview
    status := iv.status
    application_id := iv.id_ats_application
    job_interview_stage_id := iv.id_ats_job_interview_stage
    organized_by := iv.organized_by
    interviewers := iv.interviewers
    location := iv.location
    start_at := jsStringOfDate iv.start_at
    end_at := jsStringOfDate iv.end_at
    remote_created_at := jsStringOfDate iv.remote_created_at
    remote_updated_at := jsStringOfDate iv.remote_updated_at
    field_mappings := interviewFieldMappings db iv.id_ats_interview
    remote_id := iv.remote_id
    created_at := iv.created_at
    modified_at := iv.modified_at
    remote_data := none }

/-- The `orderBy: { created_at: 'asc' }` ordering. -/
def createdLE (a b : AtsInterviewRow) : Prop := a.created_at ≤ b.created_at

instance : DecidableRel createdLE := fun a b => Nat.decLe a.created_at b.created_at

instance : IsTotal AtsInterviewRow createdLE := ⟨fun a b => Nat.le_total _ _⟩

instance : IsTrans AtsInterviewRow createdLE := ⟨fun _ _ _ => Nat.le_trans⟩

/-- The connection's interviews ordered by `created_at` ascending
(`findMany` with `where` and `orderBy`). -/
def interviewsOrdered (db : AtsDb) (connection_id : String) : List AtsInterviewRow :=
  (db.ats_interviews.filter (fun r => r.id_connection == connection_id)).insertionSort
    createdLE

/-- The ordered result set from the Prisma cursor position onward (the
cursor row itself included), or the whole result set when the cursor is
absent or falsy (`cursor ? {id_ats_interview: cursor} : undefined` — the
empty string is falsy, so it passes no cursor). -/
def interviewsFrom (db : AtsDb) (connection_id : String) (cursor : Option String) :
    List AtsInterviewRow :=
  if jsTruthyStr cursor then
    (interviewsOrdered db connection_id).dropWhile
      (fun r => !(r.id_ats_interview == cursor.getD ""))
  else interviewsOrdered db connection_id

/-- The rows fetched by `findMany` (`take: limit + 1`). -/
def interviewsFetched (db : AtsDb) (connection_id : String) (cursor : Option String)
    (limit : Nat) : List AtsInterviewRow :=
  (interviewsFrom db connection_id cursor).take (limit + 1)

/-- Whether `interviews.length === limit + 1`, i.e. whether a further page
exists. -/
def interviewsHasMore (db : AtsDb) (connection_id : String) (cursor : Option String)
    (limit : Nat) : Bool :=
  (interviewsFetched db connection_id cursor limit).length == limit + 1

/-- The `next_cursor` value: base64 of the id of the last fetched row (the
first row of the next page) when a further page exists. -/
def interviewsNextCursor (db : AtsDb) (connection_id : String) (cursor : Option String)
    (limit : Nat) : Option String :=
  if interviewsHasMore db connection_id cursor limit then
    some (bufferBase64
      (((interviewsFetched db connection_id cursor limit).getLast?.map
        (fun r => r.id_ats_interview)).getD ""))
  else none

/-- The rows actually returned (`interviews.pop()` drops the extra row when
a further page exists). -/
def interviewsPage (db : AtsDb) (connection_id : String) (cursor : Option String)
    (limit : Nat) : List AtsInterviewRow :=
  if interviewsHasMore db connection_id cursor limit then
    (interviewsFetched db connection_id cursor limit).dropLast
  else interviewsFetched db connection_id cursor limit

/-- The `remote_data` enrichment loop: for each interview, `findFirst` the
remote data row and `JSON.parse(resp.data)`; a missing row makes
`resp.data` a null dereference (TypeError). -/
def attachRemoteData (db : AtsDb) : List UnifiedInterviewOutput →
    Except JsErr (List UnifiedInterviewOutput)
  | [] => .ok []
  | iv :: rest =>
      match db.remote_data.find? (fun r => r.ressource_owner_id == iv.id) with
      | none => .error (.typeError "Cannot read properties of null (reading data)")
      | some r =>
          match attachRemoteData db rest with
          | .error e => .error e
          | .ok rs => .ok ({ iv with remote_data := some r.data } :: rs)

/-- Result shape of `getInterviews`. -/
structure InterviewPage where
  data : List UnifiedInterviewOutput
  prev_cursor : Option String
  next_cursor : Option String
deriving DecidableEq

/-- Embedding of `InterviewService.getInterviews`.  Returns the database
after the call (a pull event is appended on success) and the page or the
thrown error.  The `if (cursor)` guards use JS truthiness: an absent or
empty-string cursor skips the existence check and yields a null
`prev_cursor`. -/
def InterviewService.getInterviews (t : Nat) (db : AtsDb)
    (connection_id integrationId linkedUserId : String) (limit : Nat)
    (remote_data : Bool) (cursor : Option String) :
    AtsDb × Except JsErr InterviewPage :=
  if jsTruthyStr cursor && (db.ats_interviews.find? (fun r =>
      r.id_connection == connection_id &&
      r.id_ats_interview == cursor.getD "")).isNone then
    (db, .error (.referenceError "The provided cursor does not exist!"))
  else
    match (if remote_data then
        attachRemoteData db
          ((interviewsPage db connection_id cursor limit).map (interviewToUnified db))
      else
        .ok ((interviewsPage db connection_id cursor limit).map (interviewToUnified db))) with
    | .error e => (db, .error e)
    | .ok res =>
        ({ db with
            events := db.events ++
              [{ id_event := uuidv4 db.nextUuid
                 status := "success"
                 type := "ats.interview.pull"
                 method := "GET"
                 url := "/ats/interviews"
                 provider := integrationId
                 direction := "0"
                 timestamp := t
                 id_linked_user := linkedUserId }]
            nextUuid := db.nextUuid + 1 },
         .ok { data := res
               prev_cursor := if jsTruthyStr cursor then
                   some (bufferBase64 (cursor.getD "")) else none
               next_cursor := interviewsNextCursor db connection_id cursor limit })

/-- Concrete interview row fixture (id "a"). -/
def atsRowA : AtsInterviewRow :=
  { id_ats_interview := "a", id_connection := "c", created_at := 0, modified_at := 0
    status := none, id_ats_application := none, id_ats_job_interview_stage := none
    organized_by := none, interviewers := none, location := none
    start_at := none, end_at := none, remote_created_at := none
    remote_updated_at := none, remote_id := some "r1" }

/-- Concrete interview row fixture (id "b"). -/
def atsRowB : AtsInterviewRow :=
  { id_ats_interview := "b", id_connection := "c", created_at := 1, modified_at := 1
    status := none, id_ats_application := none, id_ats_job_interview_stage := none
    organized_by := none, interviewers := none, location := none
    start_at := none, end_at := none, remote_created_at := none
    remote_updated_at := none, remote_id := some "r2" }

/-- Concrete database fixture with two interviews of connection "c". -/
def atsDb3 : AtsDb :=
  { ats_interviews := [atsRowA, atsRowB], values := [], remote_data := []
    events := [], nextUuid := 0 }

/-- The pull event created by the first fixture call to `getInterviews`. -/
def atsEvent1 : EventRow :=
  { id_event := uuidv4 0, status := "success", type := "ats.interview.pull"
    method := "GET", url := "/ats/interviews", provider := "i", direction := "0"
    timestamp := 5, id_linked_user := "l" }

/-- The database after the first fixture call to `getInterviews`. -/
def atsDb3after : AtsDb := { atsDb3 with events := [atsEvent1], nextUuid := 1 }

/-- The page returned by the first fixture call to `getInterviews`
(limit 1, no cursor): one interview and a base64 next cursor. -/
def atsPage1 : InterviewPage :=
  { data := [interviewToUnified atsDb3 atsRowA]
    prev_cursor := none
    next_cursor := some "Yg==" }

/-! ### C1, C5, C7, C10: filestorage group sync and ats attachment sync -/

/-- Unified group object (`UnifiedGroupOutput`) as consumed by
`saveGroupsInDb`. -/
structure UnifiedGroupOutput where
  remote_id : Option String
  name : Option String
  users : Option (List String)
  remote_was_deleted : Option Bool
  field_mappings : List (String × String)
deriving DecidableEq

/-- Row of the `fs_groups` table. -/
structure FsGroupRow where
  id_fs_group : String
  created_at : Nat
  modified_at : Nat
  remote_id : String
  id_connection : String
  name : Option String
  users : Option (List String)
  remote_was_deleted : Bool
deriving DecidableEq

/-- Row of the `attribute` table. -/
structure AttributeRow where
  id_attribute : String
  slug : String
  source : String
  id_consumer : String
deriving DecidableEq

/-- Row of the `entity` table. -/
structure EntityRow where
  id_entity : String
  ressource_owner_id : String
deriving DecidableEq

/-- Row of the `value` table. -/
structure ValueRow where
  id_value : String
  data : String
  id_attribute : String
  id_entity : String
deriving DecidableEq

/-- Row of the `remote_data` table. -/
structure RemoteDataRow where
  id_remote_data : String
  ressource_owner_id : String
  format : String
  data : String
  created_at : Nat
deriving DecidableEq

/-- Row of the `connections` table. -/
structure ConnectionRow where
  id_connection : String
  id_linked_user : String
  provider_slug : String
  vertical : String
deriving DecidableEq

/-- Row of the `users` table as read by the sync fan-out. -/
structure FsUserRow where
  id_user : String
deriving DecidableEq

/-- Row of the `projects` table. -/
structure ProjectRow where
  id_project : String
  id_user : String
deriving DecidableEq

/-- Row of the `linked_users` table. -/
structure LinkedUserRow where
  id_linked_user : String
  id_project : String
deriving DecidableEq

/-- A recorded `webhook.handleWebhook` emission. -/
structure WebhookCall where
  payload : List FsGroupRow
  eventType : String
  projectId : String
  eventId : String
deriving DecidableEq

/-- Database state visible to the filestorage group `SyncService`. -/
structure FsState where
  users : List FsUserRow
  projects : List ProjectRow
  linked_users : List LinkedUserRow
  connections : List ConnectionRow
  fs_groups : List FsGroupRow
  attributes : List AttributeRow
  entities : List EntityRow
  values : List ValueRow
  remote_data : List RemoteDataRow
  events : List EventRow
  webhooks : List WebhookCall
  nextUuid : Nat
deriving DecidableEq

/-- The conditional `data` object built by `saveGroupsInDb` for an existing
row: `modified_at` always; `name`, `users`, `remote_was_deleted` only when
truthy. -/
def applyGroupUpdate (t : Nat) (g : UnifiedGroupOutput) (r : FsGroupRow) : FsGroupRow :=
  { r with
    modified_at := t
    name := if jsTruthyStr g.name then g.name else r.name
    users := if g.users.isSome then g.users else r.users
    remote_was_deleted := if g.remote_was_deleted == some true then true
      else r.remote_was_deleted }

/-- The row created by `saveGroupsInDb` for a missing key (database defaults
for the omitted columns). -/
def createGroupRow (t : Nat) (uid connection_id : String) (g : UnifiedGroupOutput) :
    FsGroupRow :=
  { id_fs_group := uid
    created_at := t
    modified_at := t
    remote_id := g.remote_id.getD ""
    id_connection := connection_id
    name := if jsTruthyStr g.name then g.name else none
    users := if g.users.isSome then g.users else none
    remote_was_deleted := if g.remote_was_deleted == some true then true else false }

/-- One iteration of the field-mapping loop of `saveGroupsInDb`: create a
`value` row when a matching `attribute` exists (`value || 'null'`). -/
def processOneFieldMapping (linkedUserId originSource entityId : String)
    (s : FsState) (kv : String × String) : FsState :=
  match s.attributes.find? (fun a =>
      a.slug == kv.1 && a.source == originSource && a.id_consumer == linkedUserId) with
  | some attr =>
      { s with
        values := s.values ++
          [⟨uuidv4 s.nextUuid, (if kv.2 == "" then "null" else kv.2),
            attr.id_attribute, entityId⟩]
        nextUuid := s.nextUuid + 1 }
  | none => s

/-- The field-mapping block of `saveGroupsInDb`: when the group has field
mappings, create an `entity` owned by the row, then loop over the entries. -/
def processGroupFieldMappings (linkedUserId originSource ownerId : String)
    (fm : List (String × String)) (st : FsState) : FsState :=
  if fm.length > 0 then
    let entityId := uuidv4 st.nextUuid
    let st1 := { st with
      entities := st.entities ++ [⟨entityId, ownerId⟩]
      nextUuid := st.nextUuid + 1 }
    fm.foldl (processOneFieldMapping linkedUserId originSource entityId) st1
  else st

/-- The `remote_data.upsert` call keyed by `ressource_owner_id`. -/
def upsertRemoteData (t : Nat) (ownerId dataStr : String) (st : FsState) : FsState :=
  if (st.remote_data.find? (fun r => r.ressource_owner_id == ownerId)).isSome then
    { st with remote_data := st.remote_data.map (fun r =>
        if r.ressource_owner_id == ownerId then { r with data := dataStr, created_at := t }
        else r) }
  else
    { st with
      remote_data := st.remote_data ++ [⟨uuidv4 st.nextUuid, ownerId, "json", dataStr, t⟩]
      nextUuid := st.nextUuid + 1 }

/-- One iteration of the `saveGroupsInDb` loop (after the `remote_id` check
passed): `findFirst` by `(remote_id, id_connection)`, update by primary id
or create a fresh row, then process field mappings and upsert remote data.
Returns the state and the row appended to `groups_results`. -/
def saveGroupStep (σ : Type) (stringify : σ → String) (t : Nat)
    (connection_id linkedUserId originSource : String) (st : FsState)
    (g : UnifiedGroupOutput) (rd : Option σ) : FsState × FsGroupRow :=
  match st.fs_groups.find? (fun r =>
      r.remote_id == g.remote_id.getD "" && r.id_connection == connection_id) with
  | some existingGroup =>
      let res := applyGroupUpdate t g existingGroup
      let st1 := { st with fs_groups := st.fs_groups.map (fun r =>
        if r.id_fs_group == existingGroup.id_fs_group then applyGroupUpdate t g r else r) }
      let st2 := processGroupFieldMappings linkedUserId originSource res.id_fs_group
        g.field_mappings st1
      (upsertRemoteData t res.id_fs_group (rd.elim "undefined" stringify) st2, res)
  | none =>
      let uid := uuidv4 st.nextUuid
      let newGroup := createGroupRow t uid connection_id g
      let st1 := { st with
        fs_groups := st.fs_groups ++ [newGroup]
        nextUuid := st.nextUuid + 1 }
      let st2 := processGroupFieldMappings linkedUserId originSource uid
        g.field_mappings st1
      (upsertRemoteData t uid (rd.elim "undefined" stringify) st2, newGroup)

/-- The `saveGroupsInDb` loop over `groups` (position `i` realised by
consuming both lists in step); a falsy `remote_id` throws `ReferenceError`,
keeping everything persisted so far. -/
def saveGroupsGo (σ : Type) (stringify : σ → String) (t : Nat)
    (connection_id linkedUserId originSource : String) :
    FsState → List UnifiedGroupOutput → List σ → List FsGroupRow →
    FsState × Except JsErr (List FsGroupRow)
  | st, [], _, acc => (st, .ok acc)
  | st, g :: gs, rds, acc =>
      if jsTruthyStr g.remote_id then
        let r := saveGroupStep σ stringify t connection_id linkedUserId
          originSource st g rds.head?
        saveGroupsGo σ stringify t connection_id linkedUserId originSource r.1 gs
          rds.tail (acc ++ [r.2])
      else
        (st, .error (.referenceError
          ("Origin id not there, found " ++ jsShowOptStr g.remote_id)))

/-- Embedding of `SyncService.saveGroupsInDb` (filestorage).  `σ` is the
provider-native group payload type and `stringify` models
`JSON.stringify`. -/
def SyncService.saveGroupsInDb (σ : Type) (stringify : σ → String) (t : Nat)
    (st : FsState) (connection_id linkedUserId : String)
    (groups : List UnifiedGroupOutput) (originSource : String)
    (remote_data : List σ) : FsState × Except JsErr (List FsGroupRow) :=
  saveGroupsGo σ stringify t connection_id linkedUserId originSource st groups
    remote_data []

/-- Unified attachment object (`UnifiedAttachmentOutput`) as consumed by
`saveToDb`. -/
structure UnifiedAttachmentOutput where
  remote_id : Option String
  file_url : Option String
  file_name : Option String
  file_type : Option String
  remote_created_at : Option Nat
  remote_modified_at : Option Nat
  field_mappings : List (String × String)
deriving DecidableEq

/-- Row of the `ats_candidate_attachments` table (`id_ats_candidate_attachment`
is the primary key filled by the database default, `id_ats_attachment` is the
application-generated id set on create). -/
structure AtsAttachmentRow where
  id_ats_candidate_attachment : String
  id_ats_attachment : String
  created_at : Nat
  modified_at : Nat
  remote_id : String
  id_connection : String
  file_url : Option String
  file_name : Option String
  file_type : Option String
  remote_created_at : Option Nat
  remote_modified_at : Option Nat
  candidate_id : Option String
deriving DecidableEq

/-- State touched by `saveToDb` (ats attachments): the attachments table, an
abstract side state `ω` owned by the external `ingestService`, and the
fresh-id counter. -/
structure AtsSaveState (ω : Type) where
  ats_candidate_attachments : List AtsAttachmentRow
  side : ω
  nextUuid : Nat

/-- External `ingestService` operations used by `saveToDb`
(`processFieldMappings(field_mappings, id, source, linkedUserId)` and
`processRemoteData(id, remote_data[i])`); they only act on the side state
`ω`, never on the attachments table. -/
structure IngestEnv (ω ρ : Type) where
  processFieldMappings : ω → List (String × String) → String → String → String → ω
  processRemoteData : ω → String → Option ρ → ω

/-- The `baseData` update of `updateOrCreateAttachment` (all fields written,
`?? null` mapping absent to null). -/
def applyAttachmentUpdate (t : Nat) (candidate_id : Option String)
    (a : UnifiedAttachmentOutput) (r : AtsAttachmentRow) : AtsAttachmentRow :=
  { r with
    file_url := a.file_url
    file_name := a.file_name
    file_type := a.file_type
    remote_created_at := a.remote_created_at
    remote_modified_at := a.remote_modified_at
    candidate_id := candidate_id
    modified_at := t }

/-- The row created by `updateOrCreateAttachment` for a missing key. -/
def createAttachmentRow (t : Nat) (pk aid connection_id : String)
    (candidate_id : Option String) (a : UnifiedAttachmentOutput) : AtsAttachmentRow :=
  { id_ats_candidate_attachment := pk
    id_ats_attachment := aid
    created_at := t
    modified_at := t
    remote_id := a.remote_id.getD ""
    id_connection := connection_id
    file_url := a.file_url
    file_name := a.file_name
    file_type := a.file_type
    remote_created_at := a.remote_created_at
    remote_modified_at := a.remote_modified_at
    candidate_id := candidate_id }

/-- One iteration of the `saveToDb` loop (after the `remote_id` check):
`updateOrCreateAttachment`, then `processFieldMappings` and
`processRemoteData` on the side state. -/
def saveAttachmentStep (ω ρ : Type) (env : IngestEnv ω ρ) (t : Nat)
    (connection_id linkedUserId originSource : String) (candidate_id : Option String)
    (st : AtsSaveState ω) (a : UnifiedAttachmentOutput) (rd : Option ρ) :
    AtsSaveState ω × AtsAttachmentRow :=
  match st.ats_candidate_attachments.find? (fun r =>
      r.remote_id == a.remote_id.getD "" && r.id_connection == connection_id) with
  | some existingAttachment =>
      let res := applyAttachmentUpdate t candidate_id a existingAttachment
      let st1 := { st with ats_candidate_attachments :=
        st.ats_candidate_attachments.map (fun (r : AtsAttachmentRow) =>
          if r.id_ats_candidate_attachment ==
              existingAttachment.id_ats_candidate_attachment
          then applyAttachmentUpdate t candidate_id a r else r) }
      let st2 := { st1 with side := (env.processFieldMappings st1.side a.field_mappings
        res.id_ats_attachment originSource linkedUserId) }
      ({ st2 with side := env.processRemoteData st2.side res.id_ats_attachment rd }, res)
  | none =>
      let newRow := createAttachmentRow t (uuidv4 st.nextUuid) (uuidv4 (st.nextUuid + 1))
        connection_id candidate_id a
      let st1 := { st with
        ats_candidate_attachments := st.ats_candidate_attachments ++ [newRow]
        nextUuid := st.nextUuid + 2 }
      let st2 := { st1 with side := (env.processFieldMappings st1.side a.field_mappings
        newRow.id_ats_attachment originSource linkedUserId) }
      ({ st2 with side := env.processRemoteData st2.side newRow.id_ats_attachment rd },
       newRow)

/-- The `saveToDb` loop over `attachments`. -/
def saveToDbGo (ω ρ : Type) (env : IngestEnv ω ρ) (t : Nat)
    (connection_id linkedUserId originSource : String) (candidate_id : Option String) :
    AtsSaveState ω → List UnifiedAttachmentOutput → List ρ → List AtsAttachmentRow →
    AtsSaveState ω × Except JsErr (List AtsAttachmentRow)
  | st, [], _, acc => (st, .ok acc)
  | st, a :: as2, rds, acc =>
      if jsTruthyStr a.remote_id then
        let r := saveAttachmentStep ω ρ env t connection_id linkedUserId originSource
          candidate_id st a rds.head?
        saveToDbGo ω ρ env t connection_id linkedUserId originSource candidate_id r.1
          as2 rds.tail (acc ++ [r.2])
      else
        (st, .error (.referenceError
          ("Origin id not there, found " ++ jsShowOptStr a.remote_id)))

/-- Embedding of `SyncService.saveToDb` (ats attachments). -/
def SyncService.saveToDb (ω ρ : Type) (env : IngestEnv ω ρ) (t : Nat)
    (st : AtsSaveState ω) (connection_id linkedUserId : String)
    (attachments : List UnifiedAttachmentOutput) (originSource : String)
    (remote_data : List ρ) (candidate_id : Option String) :
    AtsSaveState ω × Except JsErr (List AtsAttachmentRow) :=
  saveToDbGo ω ρ env t connection_id linkedUserId originSource candidate_id st
    attachments remote_data []

/-- Abstract view of a save loop acting on one table, used to prove the
upsert/idempotence properties once for both `saveGroupsInDb` and
`saveToDb`: key of a unified object, key and primary id of a row, the
Prisma `findFirst` predicate, the update applied to an existing row and the
row(s) created for a missing key from the fresh-id counter. -/
structure UpsertOps (G R : Type) where
  keyG : G → String × String
  keyR : R → String × String
  isKey : G → R → Bool
  idR : R → String
  upd : G → R → R
  create : Nat → G → R

/-- The save loop's effect on its table, one unified object at a time:
`findFirst` by key, then update by primary id, or append a freshly created
row (`n` being the fresh-id counter, with the created id new to the
table). -/
inductive SaveRun {G R : Type} (o : UpsertOps G R) :
    List R → List G → List R → Prop where
  | nil (fs) : SaveRun o fs [] fs
  | update (fs g gs fs2 ex) :
      fs.find? (o.isKey g) = some ex →
      SaveRun o (fs.map (fun r => if o.idR r == o.idR ex then o.upd g r else r)) gs fs2 →
      SaveRun o fs (g :: gs) fs2
  | create (fs g gs fs2 n) :
      fs.find? (o.isKey g) = none →
      (∀ r ∈ fs, o.idR r ≠ o.idR (o.create n g)) →
      SaveRun o (fs ++ [o.create n g]) gs fs2 →
      SaveRun o fs (g :: gs) fs2

/-- Laws connecting the abstract operations. -/
structure UpsertLaws {G R : Type} (o : UpsertOps G R) : Prop where
  isKey_iff : ∀ g r, o.isKey g r = true ↔ o.keyR r = o.keyG g
  key_upd : ∀ g r, o.keyR (o.upd g r) = o.keyR r
  id_upd : ∀ g r, o.idR (o.upd g r) = o.idR r
  key_create : ∀ n g, o.keyR (o.create n g) = o.keyG g

/-- Well-formedness of the table: primary ids pairwise distinct and at most
one row per key. -/
def UpsertWf {G R : Type} (o : UpsertOps G R) (fs : List R) : Prop :=
  (fs.map o.idR).Nodup ∧ (fs.map o.keyR).Nodup

/-- Sequential application of the updates of a list of unified objects. -/
def chainUpd {G R : Type} (o : UpsertOps G R) (hs : List G) (r : R) : R :=
  hs.foldl (fun x g => o.upd g x) r

/-- The objects of `gs` whose key is `k`, in order. -/
def histKey {G R : Type} (o : UpsertOps G R) (gs : List G) (k : String × String) :
    List G :=
  gs.filter (fun g => o.keyG g == k)

/-- The abstract operations realised by `saveGroupsInDb` on `fs_groups`. -/
def groupOps (t : Nat) (connection_id : String) :
    UpsertOps UnifiedGroupOutput FsGroupRow :=
  { keyG := fun g => (g.remote_id.getD "", connection_id)
    keyR := fun r => (r.remote_id, r.id_connection)
    isKey := fun g r => r.remote_id == g.remote_id.getD "" &&
      r.id_connection == connection_id
    idR := fun r => r.id_fs_group
    upd := applyGroupUpdate t
    create := fun n g => createGroupRow t (uuidv4 n) connection_id g }

/-- The abstract operations realised by `saveToDb` on
`ats_candidate_attachments`. -/
def attachmentOps (t : Nat) (connection_id : String) (candidate_id : Option String) :
    UpsertOps UnifiedAttachmentOutput AtsAttachmentRow :=
  { keyG := fun a => (a.remote_id.getD "", connection_id)
    keyR := fun r => (r.remote_id, r.id_connection)
    isKey := fun a r => r.remote_id == a.remote_id.getD "" &&
      r.id_connection == connection_id
    idR := fun r => r.id_ats_candidate_attachment
    upd := applyAttachmentUpdate t candidate_id
    create := fun n a => createAttachmentRow t (uuidv4 n) (uuidv4 (n + 1))
      connection_id candidate_id a }

/-- Counter-freshness of a table with respect to a fresh-id counter: no row
id collides with any identifier the supply can still produce. -/
def CounterFresh {G R : Type} (o : UpsertOps G R) (fs : List R) (n : Nat) : Prop :=
  ∀ r ∈ fs, ∀ m, n ≤ m → o.idR r ≠ uuidv4 m

/-- Response wrapper of a provider adapter call (`ApiResponse`). -/
structure ApiResp (σ : Type) where
  data : List σ

/-- A provider group adapter (`IGroupService`) resolved by the service
registry. -/
structure GroupService (σ : Type) where
  syncGroups : String → List String → ApiResp σ

/-- External collaborators of the filestorage group `SyncService`:
field-mapping lookup, service registry, core unification and
`JSON.stringify`. -/
structure FsSyncEnv (σ : Type) where
  getCustomFieldMappings : String → String → String → List CFMapping
  getService : String → Option (GroupService σ)
  unify : List σ → List CFMapping → List UnifiedGroupOutput
  stringify : σ → String

/-- Embedding of `SyncService.syncGroupsForLinkedUser` (filestorage): look
up the connection (returning silently when absent), fetch and unify the
provider's groups, save them, create a `filestorage.group.pulled` success
event and hand the saved rows to the webhook service. -/
def SyncService.syncGroupsForLinkedUser (σ : Type) (env : FsSyncEnv σ) (t : Nat)
    (st : FsState) (integrationId linkedUserId id_project : String) :
    FsState × Except JsErr Unit :=
  match st.connections.find? (fun c => c.id_linked_user == linkedUserId &&
      c.provider_slug == integrationId && c.vertical == "filestorage") with
  | none => (st, .ok ())
  | some connection =>
      let customFieldMappings := env.getCustomFieldMappings integrationId linkedUserId
        "filestorage.group"
      match env.getService integrationId with
      | none =>
          (st, .error (.typeError
            "Cannot read properties of undefined (reading syncGroups)"))
      | some service =>
          let sourceObject := (service.syncGroups linkedUserId
            (customFieldMappings.map (fun m => m.remote_id))).data
          let unifiedObject := env.unify sourceObject customFieldMappings
          match SyncService.saveGroupsInDb σ env.stringify t st
              connection.id_connection linkedUserId unifiedObject integrationId
              sourceObject with
          | (st1, .error e) => (st1, .error e)
          | (st1, .ok groups_data) =>
              ({ st1 with
                  events := st1.events ++
                    [{ id_event := uuidv4 st1.nextUuid
                       status := "success"
                       type := "filestorage.group.pulled"
                       method := "PULL"
                       url := "/pull"
                       provider := integrationId
                       direction := "0"
                       timestamp := t
                       id_linked_user := linkedUserId }]
                  webhooks := st1.webhooks ++
                    [{ payload := groups_data
                       eventType := "filestorage.group.pulled"
                       projectId := id_project
                       eventId := uuidv4 st1.nextUuid }]
                  nextUuid := st1.nextUuid + 1 },
               .ok ())

/-- An invocation site of the per-linked-user sync inside the fan-out:
(provider, linked user id, project id of the enclosing iteration). -/
abbrev SyncCall : Type := String × String × String

/-- The provider loop of one linked user's callback in the sync fan-out:
invoke the per-linked-user sync for each provider in order; a thrown error
rejects the unawaited promise, aborting this linked user's remaining
providers but not the outer loops.  Every invocation is recorded. -/
def fanoutProviders (τ : Type)
    (leaf : τ → String → String → String → τ × Except JsErr Unit) :
    List String → String → String → τ → τ × List SyncCall
  | [], _, _, st => (st, [])
  | p :: ps, lu, pj, st =>
      match leaf st p lu pj with
      | (st1, .ok _) =>
          let r := fanoutProviders τ leaf ps lu pj st1
          (r.1, (p, lu, pj) :: r.2)
      | (st1, .error _) => (st1, [(p, lu, pj)])

/-- The linked-user loop of the sync fan-out. -/
def fanoutLinkedUsers (τ : Type)
    (leaf : τ → String → String → String → τ × Except JsErr Unit)
    (providers : List String) :
    List LinkedUserRow → String → τ → τ × List SyncCall
  | [], _, st => (st, [])
  | l :: ls, pj, st =>
      let r1 := fanoutProviders τ leaf providers l.id_linked_user pj st
      let r2 := fanoutLinkedUsers τ leaf providers ls pj r1.1
      (r2.1, r1.2 ++ r2.2)

/-- The project loop of the sync fan-out (linked users re-read from the
current state). -/
def fanoutProjects (τ : Type)
    (leaf : τ → String → String → String → τ × Except JsErr Unit)
    (providers : List String) (linkedOf : τ → String → List LinkedUserRow) :
    List ProjectRow → τ → τ × List SyncCall
  | [], st => (st, [])
  | p :: ps, st =>
      let r1 := fanoutLinkedUsers τ leaf providers (linkedOf st p.id_project)
        p.id_project st
      let r2 := fanoutProjects τ leaf providers linkedOf ps r1.1
      (r2.1, r1.2 ++ r2.2)

/-- The user loop of the sync fan-out (projects re-read from the current
state). -/
def fanoutUsers (τ : Type)
    (leaf : τ → String → String → String → τ × Except JsErr Unit)
    (providers : List String) (linkedOf : τ → String → List LinkedUserRow)
    (projectsOf : τ → String → List ProjectRow) :
    List FsUserRow → τ → τ × List SyncCall
  | [], st => (st, [])
  | u :: us, st =>
      let r1 := fanoutProjects τ leaf providers linkedOf
        (projectsOf st u.id_user) st
      let r2 := fanoutUsers τ leaf providers linkedOf projectsOf us r1.1
      (r2.1, r1.2 ++ r2.2)

/-- Embedding of `SyncService.syncGroups` (filestorage): fan out over all
users (or the single `findUnique` user), their projects, linked users and
`FILESTORAGE_PROVIDERS`, returning the state, the recorded invocations of
`syncGroupsForLinkedUser` and the outcome (a missing user makes the loop
dereference null). -/
def SyncService.syncGroups (σ : Type) (env : FsSyncEnv σ) (t : Nat)
    (providers : List String) (st : FsState) (user_id : Option String) :
    FsState × List SyncCall × Except JsErr Unit :=
  match user_id with
  | some uid =>
      match st.users.find? (fun u => u.id_user == uid) with
      | none =>
          (st, [], .error (.typeError "Cannot read properties of null (reading id_user)"))
      | some u =>
          let r := fanoutUsers FsState
            (fun s p l pj => SyncService.syncGroupsForLinkedUser σ env t s p l pj)
            providers
            (fun s pj => s.linked_users.filter (fun l => l.id_project == pj))
            (fun s uid2 => s.projects.filter (fun p => p.id_user == uid2))
            [u] st
          (r.1, r.2, .ok ())
  | none =>
      let r := fanoutUsers FsState
        (fun s p l pj => SyncService.syncGroupsForLinkedUser σ env t s p l pj)
        providers
        (fun s pj => s.linked_users.filter (fun l => l.id_project == pj))
        (fun s uid2 => s.projects.filter (fun p => p.id_user == uid2))
        st.users st
      (r.1, r.2, .ok ())

/-- State of the ats attachment `SyncService`: the fan-out tables plus the
`saveToDb` state. -/
structure AtsSyncState (ω : Type) where
  users : List FsUserRow
  projects : List ProjectRow
  linked_users : List LinkedUserRow
  save : AtsSaveState ω

/-- External collaborators of the ats attachment `SyncService`: the service
registry and `ingestService.syncForLinkedUser` (which only acts on the save
state). -/
structure AtsSyncEnv (ω υ : Type) where
  getService : String → Option υ
  ingestSync : υ → String → String → AtsSaveState ω → AtsSaveState ω × Except JsErr Unit

/-- Embedding of `SyncService.syncAttachmentsForLinkedUser` (ats): resolve
the provider adapter (returning silently when none is registered) and
delegate to `ingestService.syncForLinkedUser`. -/
def SyncService.syncAttachmentsForLinkedUser (ω υ : Type) (env : AtsSyncEnv ω υ)
    (st : AtsSyncState ω) (integrationId linkedUserId : String) :
    AtsSyncState ω × Except JsErr Unit :=
  match env.getService integrationId with
  | none => (st, .ok ())
  | some service =>
      let r := env.ingestSync service integrationId linkedUserId st.save
      ({ st with save := r.1 }, r.2)

/-- Embedding of `SyncService.syncAttachments` (ats): the same fan-out over
users, projects, linked users and `ATS_PROVIDERS`, calling
`syncAttachmentsForLinkedUser(provider, linkedUserId)` (the project id of
the enclosing iteration is not passed to the call, only recorded as the
invocation site). -/
def SyncService.syncAttachments (ω υ : Type) (env : AtsSyncEnv ω υ)
    (providers : List String) (st : AtsSyncState ω) (user_id : Option String) :
    AtsSyncState ω × List SyncCall × Except JsErr Unit :=
  match user_id with
  | some uid =>
      match st.users.find? (fun u => u.id_user == uid) with
      | none =>
          (st, [], .error (.typeError "Cannot read properties of null (reading id_user)"))
      | some u =>
          let r := fanoutUsers (AtsSyncState ω)
            (fun s p l _ => SyncService.syncAttachmentsForLinkedUser ω υ env s p l)
            providers
            (fun s pj => s.linked_users.filter (fun l => l.id_project == pj))
            (fun s uid2 => s.projects.filter (fun p => p.id_user == uid2))
            [u] st
          (r.1, r.2, .ok ())
  | none =>
      let r := fanoutUsers (AtsSyncState ω)
        (fun s p l _ => SyncService.syncAttachmentsForLinkedUser ω υ env s p l)
        providers
        (fun s pj => s.linked_users.filter (fun l => l.id_project == pj))
        (fun s uid2 => s.projects.filter (fun p => p.id_user == uid2))
        st.users st
      (r.1, r.2, .ok ())

/-- The expected invocation sites of a full fan-out over given tables: every
user, every project of the user, every linked user of the project, every
provider. -/
def canonicalSyncCalls (users : List FsUserRow) (projects : List ProjectRow)
    (linked : List LinkedUserRow) (providers : List String) : List SyncCall :=
  users.flatMap (fun u =>
    (projects.filter (fun p => p.id_user == u.id_user)).flatMap (fun p =>
      (linked.filter (fun l => l.id_project == p.id_project)).flatMap (fun l =>
        providers.map (fun pr => (pr, l.id_linked_user, p.id_project)))))

/-- Well-formedness of the filestorage state for the save loop: distinct
primary ids, at most one group row per `(remote_id, id_connection)` key, and
no row id colliding with a fresh identifier still to be drawn. -/
def GroupWf (st : FsState) : Prop :=
  (st.fs_groups.map (fun r => r.id_fs_group)).Nodup ∧
  (st.fs_groups.map (fun r => (r.remote_id, r.id_connection))).Nodup ∧
  ∀ r ∈ st.fs_groups, ∀ m, st.nextUuid ≤ m → r.id_fs_group ≠ uuidv4 m

/-- Well-formedness of the attachment save state, as for `GroupWf`. -/
def AttachmentWf (ω : Type) (st : AtsSaveState ω) : Prop :=
  (st.ats_candidate_attachments.map (fun r => r.id_ats_candidate_attachment)).Nodup ∧
  (st.ats_candidate_attachments.map (fun r => (r.remote_id, r.id_connection))).Nodup ∧
  ∀ r ∈ st.ats_candidate_attachments, ∀ m, st.nextUuid ≤ m →
    r.id_ats_candidate_attachment ≠ uuidv4 m

/-- Fixture: empty filestorage state. -/
def fsStateEmpty : FsState :=
  { users := [], projects := [], linked_users := [], connections := []
    fs_groups := [], attributes := [], entities := [], values := []
    remote_data := [], events := [], webhooks := [], nextUuid := 0 }

/-- Fixture: empty attachment save state. -/
def atsSaveEmpty : AtsSaveState Unit := { ats_candidate_attachments := [], side := (), nextUuid := 0 }

/-- Fixture: ingest environment that ignores its inputs. -/
def ingestEnvW : IngestEnv Unit String :=
  { processFieldMappings := fun w _ _ _ _ => w
    processRemoteData := fun w _ _ => w }

/-- Fixture: a unified group with a non-empty remote id. -/
def groupW : UnifiedGroupOutput :=
  { remote_id := some "g-1", name := some "Team", users := none
    remote_was_deleted := none, field_mappings := [] }

/-- Fixture: a unified attachment with a non-empty remote id. -/
def attachmentW : UnifiedAttachmentOutput :=
  { remote_id := some "a-1", file_url := some "u", file_name := some "f"
    file_type := none, remote_created_at := none, remote_modified_at := none
    field_mappings := [] }

/-- Fixture: a unified group with an empty remote id. -/
def groupBad : UnifiedGroupOutput :=
  { remote_id := some "", name := some "Bad", users := none
    remote_was_deleted := none, field_mappings := [] }

/-- Fixture: a unified attachment with an absent remote id. -/
def attachmentBad : UnifiedAttachmentOutput :=
  { remote_id := none, file_url := none, file_name := none, file_type := none
    remote_created_at := none, remote_modified_at := none, field_mappings := [] }

/-- Fixture: a group adapter returning one raw record. -/
def groupSvcW : GroupService String := { syncGroups := fun _ _ => { data := ["raw"] } }

/-- Fixture: a sync environment whose registry always resolves and whose
unification returns `[groupW]`. -/
def fsSyncEnvW : FsSyncEnv String :=
  { getCustomFieldMappings := fun _ _ _ => []
    getService := fun _ => some groupSvcW
    unify := fun _ _ => [groupW]
    stringify := fun s => s }

/-- Fixture: a filestorage connection for linked user `lu` and provider
`box`. -/
def fsConnW : ConnectionRow :=
  { id_connection := "c1", id_linked_user := "lu", provider_slug := "box"
    vertical := "filestorage" }

/-- Fixture: empty state holding the one connection `fsConnW`. -/
def fsStateConnW : FsState := { fsStateEmpty with connections := [fsConnW] }

/-- Fixture: one user row of the fan-out. -/
def fanUserW : FsUserRow := { id_user := "u1" }

/-- Fixture: one project row of the fan-out, owned by `fanUserW`. -/
def fanProjW : ProjectRow := { id_project := "p1", id_user := "u1" }

/-- Fixture: one linked user of `fanProjW`. -/
def fanLinkW : LinkedUserRow := { id_linked_user := "l1", id_project := "p1" }

/-- Fixture: filestorage state with one user, project and linked user. -/
def fsStateFanW : FsState :=
  { fsStateEmpty with
    users := [fanUserW]
    projects := [fanProjW]
    linked_users := [fanLinkW] }

/-- Fixture: a sync environment whose unification returns no groups, so
every per-linked-user sync succeeds. -/
def fsSyncEnvN : FsSyncEnv String :=
  { getCustomFieldMappings := fun _ _ _ => []
    getService := fun _ => some groupSvcW
    unify := fun _ _ => [], stringify := fun s => s }

/-- Fixture: an ats sync environment whose registry resolves no adapter, so
every per-linked-user sync returns silently. -/
def atsSyncEnvN : AtsSyncEnv Unit Unit :=
  { getService := fun _ => none
    ingestSync := fun _ _ _ sv => (sv, .ok ()) }

/-- Fixture: ats sync state with one user, project and linked user. -/
def atsSyncStateW : AtsSyncState Unit :=
  { users := [fanUserW]
    projects := [fanProjW]
    linked_users := [fanLinkW]
    save := atsSaveEmpty }

-- ===== THEOREMS =====

/-- Identifiers drawn from the fresh-id supply are pairwise distinct. -/
theorem uuidv4_injective : Function.Injective uuidv4 := by
  intro n m h
  simpa [uuidv4, String.ext_iff] using h

/-- C2: the claim states that every per-unified-object service implements
CRUD (addAction persists and returns the created action, getAction and
getActions return unified actions, updateInterview returns the updated
interview).  In the source all four are empty stubs: they return `undefined`
and leave the database untouched, whatever the input. -/
theorem actionService_and_updateInterview_are_stubs
    (δ α β : Type) (db : δ) (input : α) (cid iid lid : String) (rd : Option Bool)
    (limit : Nat) (cursor : Option String) (iv : String) :
    ActionService.addAction δ α β db input cid iid lid rd = (db, none) ∧
    ActionService.getAction δ β db iv rd = (db, none) ∧
    ActionService.getActions δ β db cid iid lid limit rd cursor = (db, none) ∧
    InterviewService.updateInterview δ α β db iv input = (db, none) := by
  exact ⟨rfl, rfl, rfl, rfl⟩

/-- C2 counterexample: at a concrete input, `addAction` returns `undefined`
(no created unified action) and persists nothing, contradicting the claim
that it persists the input and returns the created action. -/
theorem actionService_addAction_stub_counterexample :
    ActionService.addAction (List String) String String ["row"] "payload"
      "conn" "integ" "lu" none = (["row"], none) := by
  rfl

/-- C8: `desunify` always sets the produced ticket's `comment.public` field
to `true`, for every input — including when `is_private` is `true` — because
`!source.comment.is_private || true` is true for every input. -/
theorem zendesk_desunify_public_always_true (env : ZdDesunifyEnv)
    (source : UnifiedTicketInput) (cfm : Option (List CFMapping)) :
    (ZendeskTicketMapper.desunify env source cfm).comment.public = true := by
  have h1 : ∀ r : ZendeskTicketInput,
      (zdDesunifyHtml source r).comment.public = r.comment.public := by
    intro r; unfold zdDesunifyHtml; split <;> rfl
  have h2 : ∀ r : ZendeskTicketInput,
      (zdDesunifyAssignee env source r).comment.public = r.comment.public := by
    intro r; unfold zdDesunifyAssignee; split <;> rfl
  have h3 : ∀ r : ZendeskTicketInput,
      (zdDesunifyDue env source r).comment.public = r.comment.public := by
    intro r; unfold zdDesunifyDue; split <;> rfl
  have h4 : ∀ r : ZendeskTicketInput,
      (zdDesunifyPriority source r).comment.public = r.comment.public := by
    intro r; unfold zdDesunifyPriority; split <;> rfl
  have h5 : ∀ r : ZendeskTicketInput,
      (zdDesunifyStatus source r).comment.public = r.comment.public := by
    intro r; unfold zdDesunifyStatus; split <;> rfl
  have h6 : ∀ r : ZendeskTicketInput,
      (zdDesunifyTags source r).comment.public = r.comment.public := by
    intro r; unfold zdDesunifyTags; split <;> rfl
  have h7 : ∀ r : ZendeskTicketInput,
      (zdDesunifyType source r).comment.public = r.comment.public := by
    intro r; unfold zdDesunifyType; split <;> rfl
  have h8 : ∀ r : ZendeskTicketInput,
      (zdDesunifyCustomFields source cfm r).comment.public = r.comment.public := by
    intro r; unfold zdDesunifyCustomFields; split <;> rfl
  unfold ZendeskTicketMapper.desunify
  rw [h8, h7, h6, h5, h4, h3, h2, h1]
  exact Bool.or_true _

/-- C9: in `mapSingleTicketToUnified`, when the Zendesk ticket has tags the
unified ticket carries only the tags option: `assigned_to` (derived from
`assignee_id`) and `type` are absent from the output, because each branch
reassigns the whole `opts` object. -/
theorem zendesk_unify_tags_overwrite_opts (env : ZdUnifyEnv)
    (ticket : ZendeskTicketOutput) (connectionId : String)
    (cfm : Option (List CFMapping)) (ts : List String)
    (h : ticket.tags = some ts) :
    (ZendeskTicketMapper.mapSingleTicketToUnified env ticket connectionId cfm).tags
        = some (env.unifyTags ts) ∧
    (ZendeskTicketMapper.mapSingleTicketToUnified env ticket connectionId cfm).assigned_to
        = none ∧
    (ZendeskTicketMapper.mapSingleTicketToUnified env ticket connectionId cfm).type
        = none := by
  unfold ZendeskTicketMapper.mapSingleTicketToUnified
  simp [h]

/-- C9 witness: the theorem applied to a concrete ticket that has tags, an
assignee that resolves to a user uuid, and a type. -/
theorem zendesk_unify_tags_overwrite_opts_witness :
    (ZendeskTicketMapper.mapSingleTicketToUnified
        ⟨fun _ _ => some "user-uuid", fun ts => ts.map toUpperStr, fun _ => 7⟩
        ⟨5, "subj", some "desc", some "open", some "high", some "2020", "2021",
          some 9, some "incident", some ["t1", "t2"], []⟩
        "conn" none).tags = some ["T1", "T2"] ∧
    (ZendeskTicketMapper.mapSingleTicketToUnified
        ⟨fun _ _ => some "user-uuid", fun ts => ts.map toUpperStr, fun _ => 7⟩
        ⟨5, "subj", some "desc", some "open", some "high", some "2020", "2021",
          some 9, some "incident", some ["t1", "t2"], []⟩
        "conn" none).assigned_to = none := by
  have h := zendesk_unify_tags_overwrite_opts
    ⟨fun _ _ => some "user-uuid", fun ts => ts.map toUpperStr, fun _ => 7⟩
    ⟨5, "subj", some "desc", some "open", some "high", some "2020", "2021",
      some 9, some "incident", some ["t1", "t2"], []⟩
    "conn" none ["t1", "t2"] rfl
  exact ⟨by simpa using h.1, h.2.1⟩

/-- C6: `resetPassword(token, newPassword)` succeeds exactly when some user
has `reset_token = token` and a strictly-future `reset_token_expiry`; on
success it rewrites the found user's `password_hash` to the bcrypt hash of
the new password and clears both reset fields, leaving users with other ids
unchanged; otherwise it throws `BadRequestException` and leaves the table
unchanged. -/
theorem resetPassword_spec (bcryptHash : String → String) (now : Nat)
    (users : List AuthUserRow) (token newPassword : String) :
    ((AuthService.resetPassword bcryptHash now users token newPassword).2.isOk ↔
      ∃ u ∈ users, u.reset_token = some token ∧
        ∃ e, u.reset_token_expiry = some e ∧ now < e) ∧
    (∀ u, users.find? (resetTokenMatches now token) = some u →
      (AuthService.resetPassword bcryptHash now users token newPassword).1 =
        users.map (fun v =>
          if v.id_user == u.id_user then
            { v with
              password_hash := bcryptHash newPassword
              reset_token := none
              reset_token_expiry := none }
          else v)) ∧
    ((∀ u ∈ users, ¬ (u.reset_token = some token ∧
        ∃ e, u.reset_token_expiry = some e ∧ now < e)) →
      AuthService.resetPassword bcryptHash now users token newPassword =
        (users, .error (.badRequestException "Invalid or expired reset token"))) := by
  have hpred : ∀ u : AuthUserRow, resetTokenMatches now token u = true ↔
      (u.reset_token = some token ∧ ∃ e, u.reset_token_expiry = some e ∧ now < e) := by
    intro u
    unfold resetTokenMatches
    cases he : u.reset_token_expiry with
    | none => simp [he]
    | some e => simp [he]
  refine ⟨?_, ?_, ?_⟩
  · unfold AuthService.resetPassword
    cases hf : users.find? (resetTokenMatches now token) with
    | none =>
        simp only [List.find?_eq_none] at hf
        simp only [Except.isOk, Except.toBool]
        constructor
        · intro h; exact absurd h (by decide)
        · rintro ⟨u, hu, hcond⟩
          exact absurd ((hpred u).mpr hcond) (hf u hu)
    | some u =>
        simp only [Except.isOk, Except.toBool]
        constructor
        · intro _
          exact ⟨u, List.mem_of_find?_eq_some hf, (hpred u).mp (List.find?_some hf)⟩
        · intro _; trivial
  · intro u hu
    unfold AuthService.resetPassword
    rw [hu]
  · intro hnone
    have hf : users.find? (resetTokenMatches now token) = none := by
      rw [List.find?_eq_none]
      intro u hu hcond
      exact hnone u hu ((hpred u).mp hcond)
    unfold AuthService.resetPassword
    rw [hf]

/-- C6 witness: the theorem applied to a concrete table in which the second
user holds a valid, unexpired reset token. -/
theorem resetPassword_spec_witness :
    (AuthService.resetPassword (fun s => s ++ "#hashed") 100
        [⟨"u1", "a@x", "p1", "A", "B", none, none⟩,
         ⟨"u2", "b@x", "p2", "C", "D", some "tok", some 200⟩]
        "tok" "newpw").1 =
      [⟨"u1", "a@x", "p1", "A", "B", none, none⟩,
       ⟨"u2", "b@x", "newpw#hashed", "C", "D", none, none⟩] ∧
    (AuthService.resetPassword (fun s => s ++ "#hashed") 100
        [⟨"u1", "a@x", "p1", "A", "B", none, none⟩,
         ⟨"u2", "b@x", "p2", "C", "D", some "tok", some 200⟩]
        "tok" "newpw").2.isOk := by
  have h := resetPassword_spec (fun s => s ++ "#hashed") 100
    [⟨"u1", "a@x", "p1", "A", "B", none, none⟩,
     ⟨"u2", "b@x", "p2", "C", "D", some "tok", some 200⟩]
    "tok" "newpw"
  constructor
  · have h2 := h.2.1 ⟨"u2", "b@x", "p2", "C", "D", some "tok", some 200⟩ (by decide)
    rw [h2]; decide
  · exact h.1.mpr ⟨⟨"u2", "b@x", "p2", "C", "D", some "tok", some 200⟩,
      by decide, rfl, 200, rfl, by decide⟩

/-- Lemma: the ordered result set from the cursor position onward is sorted
by `created_at`. -/
theorem interviewsFrom_pairwise (db : AtsDb) (conn : String) (cursor : Option String) :
    (interviewsFrom db conn cursor).Pairwise createdLE := by
  have hs : (interviewsOrdered db conn).Pairwise createdLE :=
    List.sorted_insertionSort createdLE _
  unfold interviewsFrom
  split
  · exact List.Pairwise.sublist (List.dropWhile_sublist _) hs
  · exact hs

/-- Lemma: the returned page of rows is sorted by `created_at`. -/
theorem interviewsPage_pairwise (db : AtsDb) (conn : String) (cursor : Option String)
    (limit : Nat) : (interviewsPage db conn cursor limit).Pairwise createdLE := by
  have hf : (interviewsFetched db conn cursor limit).Pairwise createdLE := by
    unfold interviewsFetched
    exact List.Pairwise.sublist (List.take_sublist _ _)
      (interviewsFrom_pairwise db conn cursor)
  unfold interviewsPage
  split
  · exact List.Pairwise.sublist (List.dropLast_sublist _) hf
  · exact hf

/-- Lemma: every row of the returned page is an `ats_interviews` row of the
requested connection. -/
theorem interviewsPage_mem (db : AtsDb) (conn : String) (cursor : Option String)
    (limit : Nat) (r : AtsInterviewRow) (hr : r ∈ interviewsPage db conn cursor limit) :
    r ∈ db.ats_interviews ∧ r.id_connection = conn := by
  have h1 : r ∈ interviewsFetched db conn cursor limit := by
    unfold interviewsPage at hr
    rcases hr' : interviewsHasMore db conn cursor limit with _ | _
    · rw [hr'] at hr; simpa using hr
    · rw [hr'] at hr; simp only [if_true] at hr
      exact (List.dropLast_sublist _).subset hr
  have h2 : r ∈ interviewsFrom db conn cursor := by
    unfold interviewsFetched at h1
    exact (List.take_sublist _ _).subset h1
  have h3 : r ∈ interviewsOrdered db conn := by
    unfold interviewsFrom at h2
    split at h2
    · exact (List.dropWhile_sublist _).subset h2
    · exact h2
  have h4 : r ∈ db.ats_interviews.filter (fun x => x.id_connection == conn) := by
    unfold interviewsOrdered at h3
    exact (List.perm_insertionSort createdLE _).subset h3
  rw [List.mem_filter] at h4
  exact ⟨h4.1, by simpa using h4.2⟩

/-- Lemma: the returned page has at most `limit` rows. -/
theorem interviewsPage_length_le (db : AtsDb) (conn : String) (cursor : Option String)
    (limit : Nat) : (interviewsPage db conn cursor limit).length ≤ limit := by
  have htake : (interviewsFetched db conn cursor limit).length ≤ limit + 1 := by
    unfold interviewsFetched
    simpa using List.length_take_le _ _
  unfold interviewsPage interviewsHasMore
  by_cases h : (interviewsFetched db conn cursor limit).length = limit + 1
  · simp only [h, beq_self_eq_true, if_true, List.length_dropLast]
    omega
  · have hb : ((interviewsFetched db conn cursor limit).length == limit + 1) = false := by
      simpa using h
    rw [hb]
    simp only [Bool.false_eq_true, if_false]
    omega

/-- Lemma: `next_cursor` is non-null exactly when strictly more than `limit`
rows exist from the cursor position onward. -/
theorem interviewsNextCursor_isSome_iff (db : AtsDb) (conn : String)
    (cursor : Option String) (limit : Nat) :
    (interviewsNextCursor db conn cursor limit).isSome = true ↔
      limit < (interviewsFrom db conn cursor).length := by
  have hlen : (interviewsFetched db conn cursor limit).length =
      min (limit + 1) (interviewsFrom db conn cursor).length := by
    unfold interviewsFetched
    exact List.length_take _ _
  unfold interviewsNextCursor interviewsHasMore
  by_cases h : (interviewsFetched db conn cursor limit).length = limit + 1
  · simp only [h, beq_self_eq_true, if_true, Option.isSome_some, true_iff]
    omega
  · have hb : ((interviewsFetched db conn cursor limit).length == limit + 1) = false := by
      simpa using h
    rw [hb]
    simp only [Bool.false_eq_true, if_false, Option.isSome_none]
    constructor
    · intro hfalse; cases hfalse
    · intro hlt; omega

/-- Lemma: the remote-data enrichment, when it succeeds, preserves the
`created_at` and `id` sequences of the unified objects. -/
theorem attachRemoteData_maps (db : AtsDb) : ∀ l l2,
    attachRemoteData db l = .ok l2 →
    l2.map (fun x => x.created_at) = l.map (fun x => x.created_at) ∧
    l2.map (fun x => x.id) = l.map (fun x => x.id) := by
  intro l
  induction l with
  | nil =>
      intro l2 h
      simp only [attachRemoteData] at h
      cases h
      simp
  | cons iv rest ih =>
      intro l2 h
      simp only [attachRemoteData] at h
      cases hf : db.remote_data.find? (fun r => r.ressource_owner_id == iv.id) with
      | none => rw [hf] at h; cases h
      | some r =>
          rw [hf] at h
          cases hrec : attachRemoteData db rest with
          | error e => rw [hrec] at h; cases h
          | ok rs =>
              rw [hrec] at h
              cases h
              obtain ⟨h1, h2⟩ := ih rs hrec
              simp [List.map_cons, h1, h2]

/-- Lemma: the UTF-8 encoding of a character always produces at least one
byte. -/
theorem utf8EncodeChar_ne_nil (c : Char) : utf8EncodeChar c ≠ [] := by
  unfold utf8EncodeChar
  dsimp only
  split
  · simp
  · split
    · simp
    · split
      · simp
      · simp

/-- Lemma: base64 of a non-empty byte list is a non-empty string. -/
theorem base64Chunks_ne_empty : ∀ l : List Nat, l ≠ [] → base64Chunks l ≠ "" := by
  intro l hl heq
  have hd := congrArg String.data heq
  match l with
  | [] => exact hl rfl
  | [a] => simp [base64Chunks, String.data_append] at hd
  | [a, b] => simp [base64Chunks, String.data_append] at hd
  | a :: b :: c :: rest => simp [base64Chunks, String.data_append] at hd

/-- Lemma: `Buffer.from(s).toString('base64')` of a non-empty string is
non-empty. -/
theorem bufferBase64_ne_empty (s : String) (hs : s ≠ "") : bufferBase64 s ≠ "" := by
  apply base64Chunks_ne_empty
  cases hsd : s.data with
  | nil =>
      exfalso
      apply hs
      cases s
      simp at hsd
      rw [hsd]
  | cons c cs =>
      rw [List.flatMap_cons]
      intro h
      have hlen : (utf8EncodeChar c).length +
          (cs.flatMap utf8EncodeChar).length = 0 := by
        rw [← List.length_append, h]
        rfl
      have h2 : 0 < (utf8EncodeChar c).length :=
        List.length_pos.mpr (utf8EncodeChar_ne_nil c)
      omega

/-- Lemma: every fetched row is an `ats_interviews` row of the requested
connection. -/
theorem interviewsFetched_mem (db : AtsDb) (conn : String) (cursor : Option String)
    (limit : Nat) (r : AtsInterviewRow)
    (hr : r ∈ interviewsFetched db conn cursor limit) :
    r ∈ db.ats_interviews ∧ r.id_connection = conn := by
  have h2 : r ∈ interviewsFrom db conn cursor := by
    unfold interviewsFetched at hr
    exact (List.take_sublist _ _).subset hr
  have h3 : r ∈ interviewsOrdered db conn := by
    unfold interviewsFrom at h2
    split at h2
    · exact (List.dropWhile_sublist _).subset h2
    · exact h2
  have h4 : r ∈ db.ats_interviews.filter (fun x => x.id_connection == conn) := by
    unfold interviewsOrdered at h3
    exact (List.perm_insertionSort createdLE _).subset h3
  rw [List.mem_filter] at h4
  exact ⟨h4.1, by simpa using h4.2⟩

/-- Lemma: a call with a non-empty (truthy) cursor that matches no
interview of the connection throws `ReferenceError` and leaves the database
unchanged. -/
theorem getInterviews_cursor_missing (t : Nat) (db : AtsDb) (conn integ lu : String)
    (limit : Nat) (rd : Bool) (c : String) (hc : c ≠ "")
    (hmiss : ∀ r ∈ db.ats_interviews, ¬(r.id_connection = conn ∧ r.id_ats_interview = c)) :
    InterviewService.getInterviews t db conn integ lu limit rd (some c) =
      (db, .error (.referenceError "The provided cursor does not exist!")) := by
  have hfind : db.ats_interviews.find? (fun r =>
      r.id_connection == conn && r.id_ats_interview == (some c).getD "") = none := by
    rw [List.find?_eq_none]
    intro r hr hpred
    apply hmiss r hr
    simpa using hpred
  have htr : jsTruthyStr (some c) = true := by
    simp [jsTruthyStr, hc]
  unfold InterviewService.getInterviews
  rw [hfind, htr]
  rfl

/-- Inversion lemma: a successful `getInterviews` call returns the page
assembled from the (possibly remote-data-enriched) unified rows, the
base64-encoded previous cursor and `interviewsNextCursor`. -/
theorem getInterviews_ok_elim (t : Nat) (db : AtsDb) (conn integ lu : String)
    (limit : Nat) (rd : Bool) (cursor : Option String) (db2 : AtsDb)
    (page : InterviewPage)
    (h : InterviewService.getInterviews t db conn integ lu limit rd cursor =
      (db2, .ok page)) :
    ∃ res,
      (if rd then
          attachRemoteData db
            ((interviewsPage db conn cursor limit).map (interviewToUnified db))
        else
          Except.ok ((interviewsPage db conn cursor limit).map (interviewToUnified db)))
        = .ok res ∧
      page = { data := res
               prev_cursor := if jsTruthyStr cursor then
                   some (bufferBase64 (cursor.getD "")) else none
               next_cursor := interviewsNextCursor db conn cursor limit } := by
  unfold InterviewService.getInterviews at h
  by_cases hcond : (jsTruthyStr cursor && (db.ats_interviews.find? (fun r =>
      r.id_connection == conn && r.id_ats_interview == cursor.getD "")).isNone) = true
  · rw [if_pos hcond] at h
    exact absurd (congrArg Prod.snd h) (by simp)
  · rw [if_neg hcond] at h
    cases hrem : (if rd then
        attachRemoteData db
          ((interviewsPage db conn cursor limit).map (interviewToUnified db))
      else
        Except.ok ((interviewsPage db conn cursor limit).map (interviewToUnified db))) with
    | error e =>
        rw [hrem] at h
        exact absurd (congrArg Prod.snd h) (by simp)
    | ok res =>
        rw [hrem] at h
        refine ⟨res, rfl, ?_⟩
        have hsnd : Except.ok (ε := JsErr)
            ({ data := res
               prev_cursor := if jsTruthyStr cursor then
                   some (bufferBase64 (cursor.getD "")) else none
               next_cursor := interviewsNextCursor db conn cursor limit } : InterviewPage)
            = Except.ok page := congrArg Prod.snd h
        exact (Except.ok.inj hsnd).symm

/-- C4 counterexample: the `if (cursor)` guard is JS truthiness, so an
empty-string cursor — which matches no interview — skips the existence
check: on the two-interview fixture the call with cursor `""` returns the
first page instead of throwing `ReferenceError`, refuting the claim's error
clause. -/
theorem getInterviews_empty_cursor_counterexample :
    (∀ r ∈ atsDb3.ats_interviews,
      ¬(r.id_connection = "c" ∧ r.id_ats_interview = "")) ∧
    (InterviewService.getInterviews 5 atsDb3 "c" "i" "l" 1 false (some "")).2 =
      .ok atsPage1 ∧
    InterviewService.getInterviews 5 atsDb3 "c" "i" "l" 1 false (some "") =
      InterviewService.getInterviews 5 atsDb3 "c" "i" "l" 1 false none :=
  ⟨by decide, rfl, rfl⟩

/-- C4 corrected: for every connection and limit, a successful
`getInterviews` call returns at most `limit` interviews of that connection
ordered by `created_at` ascending, and its `next_cursor` is non-null
exactly when strictly more than `limit` matching interviews exist from the
cursor position onward; a non-empty cursor matching no interview of the
connection makes the call throw a `ReferenceError`, while an empty-string
cursor is falsy, skips the existence check and behaves exactly like an
absent cursor. -/
theorem getInterviews_pagination_spec (t : Nat) (db : AtsDb) (conn integ lu : String)
    (limit : Nat) (rd : Bool) (cursor : Option String) :
    (∀ db2 page,
      InterviewService.getInterviews t db conn integ lu limit rd cursor =
        (db2, .ok page) →
      page.data.length ≤ limit ∧
      page.data.Pairwise (fun a b => a.created_at ≤ b.created_at) ∧
      (∀ x ∈ page.data, ∃ r ∈ db.ats_interviews,
        r.id_connection = conn ∧ x.id = r.id_ats_interview) ∧
      (page.next_cursor.isSome = true ↔
        limit < (interviewsFrom db conn cursor).length)) ∧
    (∀ c, cursor = some c → c ≠ "" →
      (∀ r ∈ db.ats_interviews, ¬(r.id_connection = conn ∧ r.id_ats_interview = c)) →
      InterviewService.getInterviews t db conn integ lu limit rd cursor =
        (db, .error (.referenceError "The provided cursor does not exist!"))) ∧
    InterviewService.getInterviews t db conn integ lu limit rd (some "") =
      InterviewService.getInterviews t db conn integ lu limit rd none := by
  refine ⟨?_, ?_, rfl⟩
  · intro db2 page h
    obtain ⟨res, hrem, hpg⟩ :=
      getInterviews_ok_elim t db conn integ lu limit rd cursor db2 page h
    subst hpg
    have hmaps : res.map (fun x => x.created_at) =
          ((interviewsPage db conn cursor limit).map (interviewToUnified db)).map
            (fun x => x.created_at) ∧
        res.map (fun x => x.id) =
          ((interviewsPage db conn cursor limit).map (interviewToUnified db)).map
            (fun x => x.id) := by
      cases hrd : rd with
      | true =>
          rw [hrd, if_pos rfl] at hrem
          exact attachRemoteData_maps db _ res hrem
      | false =>
          rw [hrd] at hrem
          simp only [Bool.false_eq_true, if_false] at hrem
          rw [Except.ok.inj hrem]
          exact ⟨rfl, rfl⟩
    obtain ⟨hmc, hmi⟩ := hmaps
    refine ⟨?_, ?_, ?_, interviewsNextCursor_isSome_iff db conn cursor limit⟩
    · have h1 := congrArg List.length hmi
      simp only [List.length_map] at h1
      show res.length ≤ limit
      rw [h1]
      exact interviewsPage_length_le db conn cursor limit
    · have hrows := interviewsPage_pairwise db conn cursor limit
      have hu : ((((interviewsPage db conn cursor limit).map
          (interviewToUnified db)).map (fun x => x.created_at)).Pairwise (· ≤ ·)) := by
        rw [List.pairwise_map, List.pairwise_map]
        exact hrows
      rw [← hmc, List.pairwise_map] at hu
      exact hu
    · intro x hx
      have hxid : x.id ∈ res.map (fun y => y.id) := List.mem_map_of_mem _ hx
      rw [hmi] at hxid
      rw [List.mem_map] at hxid
      obtain ⟨y, hy, hyx⟩ := hxid
      rw [List.mem_map] at hy
      obtain ⟨r, hr, hry⟩ := hy
      obtain ⟨hrdb, hrconn⟩ := interviewsPage_mem db conn cursor limit r hr
      refine ⟨r, hrdb, hrconn, ?_⟩
      rw [← hyx, ← hry]
      rfl
  · intro c hc hcne hmiss
    subst hc
    exact getInterviews_cursor_missing t db conn integ lu limit rd c hcne hmiss

/-- C4 witness: the success conjunct applied to the concrete two-interview
database (limit 1, no cursor) and the error clause applied to the unmatched
non-empty cursor `"zz"`. -/
theorem getInterviews_pagination_spec_witness :
    (atsPage1.data.length ≤ 1 ∧
      (atsPage1.next_cursor.isSome = true ↔
        1 < (interviewsFrom atsDb3 "c" none).length)) ∧
    InterviewService.getInterviews 5 atsDb3 "c" "i" "l" 1 false (some "zz") =
      (atsDb3, .error (.referenceError "The provided cursor does not exist!")) := by
  constructor
  · have h := (getInterviews_pagination_spec 5 atsDb3 "c" "i" "l" 1 false none).1
      atsDb3after atsPage1 (by rfl)
    exact ⟨h.1, h.2.2.2⟩
  · exact (getInterviews_pagination_spec 5 atsDb3 "c" "i" "l" 1 false
      (some "zz")).2.1 "zz" rfl (by decide) (by decide)

/-- C3 counterexample: on a two-interview connection with limit 1, the first
call returns `next_cursor = "Yg=="` (base64 of the id "b"); passing that
cursor to a second call with the same connection fails the cursor-existence
check and throws `ReferenceError`, so the round-trip claim is false. -/
theorem cursor_roundtrip_counterexample :
    Except.map InterviewPage.next_cursor
        (InterviewService.getInterviews 5 atsDb3 "c" "i" "l" 1 false none).2 =
      .ok (some "Yg==") ∧
    (InterviewService.getInterviews 5 atsDb3 "c" "i" "l" 1 false none).1 = atsDb3after ∧
    (InterviewService.getInterviews 5 atsDb3after "c" "i" "l" 1 false (some "Yg==")).2 =
      .error (.referenceError "The provided cursor does not exist!") :=
  ⟨rfl, rfl, rfl⟩

/-- C3 corrected: a non-null `next_cursor` is the base64 encoding of the id
of the first record after the returned page; when every stored interview id
is non-empty (as all program-created ids are), that cursor is non-empty, so
passing it unchanged as the cursor of a subsequent call runs the
cursor-existence check and throws a `ReferenceError` whenever no interview
of the connection has the base64 string itself as its id. -/
theorem cursor_roundtrip_amended (t : Nat) (db : AtsDb) (conn integ lu : String)
    (limit : Nat) (rd : Bool) (cursor : Option String) (db2 : AtsDb)
    (page : InterviewPage) (nc : String) (t2 : Nat) (db3 : AtsDb)
    (integ2 lu2 : String) (limit2 : Nat) (rd2 : Bool)
    (hids : ∀ r ∈ db.ats_interviews, r.id_ats_interview ≠ "")
    (h1 : InterviewService.getInterviews t db conn integ lu limit rd cursor =
      (db2, .ok page))
    (h2 : page.next_cursor = some nc)
    (h3 : ∀ r ∈ db3.ats_interviews, ¬(r.id_connection = conn ∧ r.id_ats_interview = nc)) :
    (∃ r, (interviewsFetched db conn cursor limit).getLast? = some r ∧
      nc = bufferBase64 r.id_ats_interview) ∧
    InterviewService.getInterviews t2 db3 conn integ2 lu2 limit2 rd2 (some nc) =
      (db3, .error (.referenceError "The provided cursor does not exist!")) := by
  have hex : ∃ r, (interviewsFetched db conn cursor limit).getLast? = some r ∧
      nc = bufferBase64 r.id_ats_interview := by
    obtain ⟨res, hrem, hpg⟩ :=
      getInterviews_ok_elim t db conn integ lu limit rd cursor db2 page h1
    rw [hpg] at h2
    simp only at h2
    unfold interviewsNextCursor at h2
    by_cases hasMore : interviewsHasMore db conn cursor limit = true
    · rw [if_pos hasMore] at h2
      have hne : interviewsFetched db conn cursor limit ≠ [] := by
        intro hnil
        unfold interviewsHasMore at hasMore
        rw [hnil] at hasMore
        simp at hasMore
      obtain ⟨r, hr⟩ := Option.isSome_iff_exists.mp (List.getLast?_isSome.mpr hne)
      refine ⟨r, hr, ?_⟩
      rw [hr] at h2
      exact (Option.some.inj h2).symm
    · rw [if_neg hasMore] at h2
      cases h2
  obtain ⟨r, hr, hnc⟩ := hex
  have hrmem : r ∈ interviewsFetched db conn cursor limit := by
    have hr2 := hr
    rw [List.getLast?_eq_some_iff] at hr2
    obtain ⟨l2, hl2⟩ := hr2
    rw [hl2]
    simp
  have hncne : nc ≠ "" := by
    rw [hnc]
    exact bufferBase64_ne_empty _
      (hids r (interviewsFetched_mem db conn cursor limit r hrmem).1)
  exact ⟨⟨r, hr, hnc⟩,
    getInterviews_cursor_missing t2 db3 conn integ2 lu2 limit2 rd2 nc hncne h3⟩

/-- C3 witness for the corrected claim, applied to the concrete
two-interview database (all ids non-empty): the returned cursor is base64
of "b" and the second call throws. -/
theorem cursor_roundtrip_amended_witness :
    (∃ r, (interviewsFetched atsDb3 "c" none 1).getLast? = some r ∧
      "Yg==" = bufferBase64 r.id_ats_interview) ∧
    InterviewService.getInterviews 9 atsDb3after "c" "i2" "l2" 2 true (some "Yg==") =
      (atsDb3after, .error (.referenceError "The provided cursor does not exist!")) := by
  exact cursor_roundtrip_amended 5 atsDb3 "c" "i" "l" 1 false none atsDb3after atsPage1
    "Yg==" 9 atsDb3after "i2" "l2" 2 true (by decide) rfl rfl (by decide)

/-- Lemma: `chainUpd` on a cons. -/
theorem chainUpd_cons {G R : Type} (o : UpsertOps G R) (g : G) (hs : List G) (r : R) :
    chainUpd o (g :: hs) r = chainUpd o hs (o.upd g r) := rfl

/-- Lemma: updates preserve the key, hence so do update chains. -/
theorem chainUpd_key {G R : Type} (o : UpsertOps G R) (L : UpsertLaws o) (hs : List G) :
    ∀ r, o.keyR (chainUpd o hs r) = o.keyR r := by
  induction hs with
  | nil => intro r; rfl
  | cons g hs ih => intro r; rw [chainUpd_cons, ih, L.key_upd]

/-- Lemma: a found row is a member and carries the searched key. -/
theorem find?_isKey_some {G R : Type} (o : UpsertOps G R) (L : UpsertLaws o)
    {fs : List R} {g : G} {ex : R} (h : fs.find? (o.isKey g) = some ex) :
    ex ∈ fs ∧ o.keyR ex = o.keyG g :=
  ⟨List.mem_of_find?_eq_some h, (L.isKey_iff g ex).mp (List.find?_some h)⟩

/-- Lemma: a failed key lookup means no member carries the key. -/
theorem find?_isKey_none {G R : Type} (o : UpsertOps G R) (L : UpsertLaws o)
    {fs : List R} {g : G} (h : fs.find? (o.isKey g) = none) :
    ∀ r ∈ fs, o.keyR r ≠ o.keyG g := by
  rw [List.find?_eq_none] at h
  intro r hr hk
  exact h r hr ((L.isKey_iff g r).mpr hk)

/-- Lemma: unfolding `histKey` on a cons. -/
theorem histKey_cons {G R : Type} (o : UpsertOps G R) (g : G) (gs : List G)
    (k : String × String) :
    histKey o (g :: gs) k =
      if o.keyG g = k then g :: histKey o gs k else histKey o gs k := by
  unfold histKey
  rw [List.filter_cons]
  by_cases h : o.keyG g = k
  · rw [if_pos h, if_pos (by simpa using h)]
  · rw [if_neg h, if_neg (by simpa using h)]

/-- Lemma: under well-formedness, the update-by-primary-id map of the found
row equals the update-by-key map. -/
theorem mapById_eq_mapByKey {G R : Type} (o : UpsertOps G R) (L : UpsertLaws o)
    {fs : List R} {g : G} {ex : R} (hwf : UpsertWf o fs)
    (hfind : fs.find? (o.isKey g) = some ex) :
    fs.map (fun r => if o.idR r == o.idR ex then o.upd g r else r) =
      fs.map (fun r => if o.keyR r == o.keyG g then o.upd g r else r) := by
  obtain ⟨hexmem, hexkey⟩ := find?_isKey_some o L hfind
  apply List.map_congr_left
  intro r hr
  by_cases hid : o.idR r = o.idR ex
  · have hreq : r = ex := List.inj_on_of_nodup_map hwf.1 hr hexmem hid
    subst hreq
    rw [if_pos (by simpa using hid), if_pos (by simpa using hexkey)]
  · rw [if_neg (by simpa using hid)]
    by_cases hk : o.keyR r = o.keyG g
    · have hreq : r = ex :=
        List.inj_on_of_nodup_map hwf.2 hr hexmem (hk.trans hexkey.symm)
      exact absurd (congrArg o.idR hreq) hid
    · rw [if_neg (by simpa using hk)]

/-- Lemma: the update-by-key map preserves the key sequence of the table. -/
theorem mapByKey_keys {G R : Type} (o : UpsertOps G R) (L : UpsertLaws o)
    (fs : List R) (g : G) :
    (fs.map (fun r => if o.keyR r == o.keyG g then o.upd g r else r)).map o.keyR =
      fs.map o.keyR := by
  rw [List.map_map]
  apply List.map_congr_left
  intro r _
  dsimp only [Function.comp]
  split
  · exact L.key_upd g r
  · rfl

/-- Lemma: the update-by-key map preserves the id sequence of the table. -/
theorem mapByKey_ids {G R : Type} (o : UpsertOps G R) (L : UpsertLaws o)
    (fs : List R) (g : G) :
    (fs.map (fun r => if o.keyR r == o.keyG g then o.upd g r else r)).map o.idR =
      fs.map o.idR := by
  rw [List.map_map]
  apply List.map_congr_left
  intro r _
  dsimp only [Function.comp]
  split
  · exact L.id_upd g r
  · rfl

/-- Lemma: well-formedness is preserved by the update-by-key map. -/
theorem wf_mapByKey {G R : Type} (o : UpsertOps G R) (L : UpsertLaws o)
    {fs : List R} (hwf : UpsertWf o fs) (g : G) :
    UpsertWf o (fs.map (fun r => if o.keyR r == o.keyG g then o.upd g r else r)) := by
  constructor
  · rw [mapByKey_ids o L]; exact hwf.1
  · rw [mapByKey_keys o L]; exact hwf.2

/-- Lemma: well-formedness is preserved by appending a freshly created row
for a missing key. -/
theorem wf_append_create {G R : Type} (o : UpsertOps G R) (L : UpsertLaws o)
    {fs : List R} (hwf : UpsertWf o fs) {g : G} (n : Nat)
    (hnone : fs.find? (o.isKey g) = none)
    (hfresh : ∀ r ∈ fs, o.idR r ≠ o.idR (o.create n g)) :
    UpsertWf o (fs ++ [o.create n g]) := by
  constructor
  · rw [List.map_append, List.nodup_append]
    refine ⟨hwf.1, List.nodup_singleton _, ?_⟩
    intro x hx hx2
    simp only [List.map_cons, List.map_nil, List.mem_singleton] at hx2
    rw [List.mem_map] at hx
    obtain ⟨r, hr, hrx⟩ := hx
    exact hfresh r hr (hrx.trans hx2)
  · rw [List.map_append, List.nodup_append]
    refine ⟨hwf.2, List.nodup_singleton _, ?_⟩
    intro x hx hx2
    simp only [List.map_cons, List.map_nil, List.mem_singleton] at hx2
    rw [List.mem_map] at hx
    obtain ⟨r, hr, hrx⟩ := hx
    have hk : o.keyR r = o.keyG g := by rw [hrx, hx2, L.key_create]
    exact find?_isKey_none o L hnone r hr hk

/-- Lemma: a present key stays present through one update-by-id step. -/
theorem presence_mapById {G R : Type} (o : UpsertOps G R) (L : UpsertLaws o)
    {fs : List R} (g : G) (ex : R) {k : String × String}
    (h : ∃ r ∈ fs, o.keyR r = k) :
    ∃ r ∈ fs.map (fun r => if o.idR r == o.idR ex then o.upd g r else r),
      o.keyR r = k := by
  obtain ⟨r, hr, hk⟩ := h
  refine ⟨_, List.mem_map_of_mem _ hr, ?_⟩
  dsimp only
  split
  · rw [L.key_upd]; exact hk
  · exact hk

/-- Lemma: present keys remain present through a save run. -/
theorem saveRun_presence_mono {G R : Type} (o : UpsertOps G R) (L : UpsertLaws o)
    {fs : List R} {gs : List G} {fs2 : List R} {k : String × String}
    (hrun : SaveRun o fs gs fs2) :
    (∃ r ∈ fs, o.keyR r = k) → ∃ r ∈ fs2, o.keyR r = k := by
  induction hrun with
  | nil fs => exact id
  | update fs g gs fs2 ex hfind hrun ih =>
      intro h
      exact ih (presence_mapById o L g ex h)
  | create fs g gs fs2 n hfind hfresh hrun ih =>
      intro h
      obtain ⟨r, hr, hk⟩ := h
      exact ih ⟨r, List.mem_append_left _ hr, hk⟩

/-- Lemma: after a save run, every processed key is present in the table. -/
theorem saveRun_presence_all {G R : Type} (o : UpsertOps G R) (L : UpsertLaws o)
    {fs : List R} {gs : List G} {fs2 : List R} (hrun : SaveRun o fs gs fs2) :
    ∀ g ∈ gs, ∃ r ∈ fs2, o.keyR r = o.keyG g := by
  induction hrun with
  | nil fs => intro g hg; cases hg
  | update fs g gs fs2 ex hfind hrun ih =>
      intro g2 hg2
      rcases List.mem_cons.mp hg2 with heq | hmem
      · subst heq
        obtain ⟨hexmem, hexkey⟩ := find?_isKey_some o L hfind
        exact saveRun_presence_mono o L hrun
          (presence_mapById o L g2 ex ⟨ex, hexmem, hexkey⟩)
      · exact ih g2 hmem
  | create fs g gs fs2 n hfind hfresh hrun ih =>
      intro g2 hg2
      rcases List.mem_cons.mp hg2 with heq | hmem
      · subst heq
        exact saveRun_presence_mono o L hrun
          ⟨o.create n g2, List.mem_append_right _ (List.mem_singleton.mpr rfl),
            L.key_create n g2⟩
      · exact ih g2 hmem

/-- Lemma: well-formedness of the table is preserved by a save run. -/
theorem saveRun_wf {G R : Type} (o : UpsertOps G R) (L : UpsertLaws o)
    {fs : List R} {gs : List G} {fs2 : List R} (hrun : SaveRun o fs gs fs2) :
    UpsertWf o fs → UpsertWf o fs2 := by
  induction hrun with
  | nil fs => exact id
  | update fs g gs fs2 ex hfind hrun ih =>
      intro hwf
      apply ih
      rw [mapById_eq_mapByKey o L hwf hfind]
      exact wf_mapByKey o L hwf g
  | create fs g gs fs2 n hfind hfresh hrun ih =>
      intro hwf
      exact ih (wf_append_create o L hwf n hfind hfresh)

/-- Lemma: a save run in which every processed key is already present is the
pointwise chain of each row's key history. -/
theorem saveRun_update_only {G R : Type} (o : UpsertOps G R) (L : UpsertLaws o)
    {fs : List R} {gs : List G} {fs2 : List R} (hrun : SaveRun o fs gs fs2) :
    UpsertWf o fs → (∀ g ∈ gs, ∃ r ∈ fs, o.keyR r = o.keyG g) →
    fs2 = fs.map (fun r => chainUpd o (histKey o gs (o.keyR r)) r) := by
  induction hrun with
  | nil fs =>
      intro _ _
      symm
      exact (List.map_congr_left (fun r _ => rfl)).trans (List.map_id fs)
  | update fs g gs fs2 ex hfind hrun ih =>
      intro hwf hpres
      have hstep := mapById_eq_mapByKey o L hwf hfind
      have hwf2 : UpsertWf o (fs.map (fun r =>
          if o.idR r == o.idR ex then o.upd g r else r)) := by
        rw [hstep]; exact wf_mapByKey o L hwf g
      have hpres2 : ∀ g2 ∈ gs, ∃ r ∈ fs.map (fun r =>
          if o.idR r == o.idR ex then o.upd g r else r), o.keyR r = o.keyG g2 := by
        intro g2 hg2
        exact presence_mapById o L g ex (hpres g2 (List.mem_cons_of_mem _ hg2))
      rw [ih hwf2 hpres2, hstep, List.map_map]
      apply List.map_congr_left
      intro r hr
      dsimp only [Function.comp]
      by_cases hk : o.keyR r = o.keyG g
      · rw [if_pos (by simpa using hk), histKey_cons, if_pos hk.symm, chainUpd_cons,
          L.key_upd]
      · rw [if_neg (by simpa using hk), histKey_cons, if_neg (fun h => hk h.symm)]
  | create fs g gs fs2 n hfind hfresh hrun ih =>
      intro hwf hpres
      obtain ⟨r, hr, hk⟩ := hpres g (List.mem_cons_self g gs)
      exact absurd hk (find?_isKey_none o L hfind r hr)

/-- Lemma: every row of the table after a save run either descends from an
initial row with the same key through the updates of its key history, or
was created by the first object of its key history (a key absent from the
initial table) and updated by the rest of it. -/
theorem saveRun_row_origin {G R : Type} (o : UpsertOps G R) (L : UpsertLaws o)
    {fs : List R} {gs : List G} {fs2 : List R} (hrun : SaveRun o fs gs fs2) :
    UpsertWf o fs → ∀ r2 ∈ fs2,
      (∃ r0 ∈ fs, o.keyR r0 = o.keyR r2 ∧
        r2 = chainUpd o (histKey o gs (o.keyR r0)) r0) ∨
      (∃ n g0 hs, histKey o gs (o.keyR r2) = g0 :: hs ∧
        r2 = chainUpd o hs (o.create n g0) ∧
        ∀ r0 ∈ fs, o.keyR r0 ≠ o.keyR r2) := by
  induction hrun with
  | nil fs =>
      intro _ r2 hr2
      exact Or.inl ⟨r2, hr2, rfl, rfl⟩
  | update fs g gs fs2 ex hfind hrun ih =>
      intro hwf r2 hr2
      have hstep := mapById_eq_mapByKey o L hwf hfind
      have hwf2 : UpsertWf o (fs.map (fun r =>
          if o.idR r == o.idR ex then o.upd g r else r)) := by
        rw [hstep]; exact wf_mapByKey o L hwf g
      obtain ⟨hexmem, hexkey⟩ := find?_isKey_some o L hfind
      rcases ih hwf2 r2 hr2 with ⟨r0m, hr0m, hkey0, hchain⟩ |
        ⟨n, g0, hs, hhist, hchain, habs⟩
      · rw [hstep, List.mem_map] at hr0m
        obtain ⟨r0, hr0, hr0eq⟩ := hr0m
        left
        by_cases hk : o.keyR r0 = o.keyG g
        · have hr0m_eq : r0m = o.upd g r0 := by
            rw [← hr0eq, if_pos (by simpa using hk)]
          have hkr0m : o.keyR r0m = o.keyR r0 := by rw [hr0m_eq, L.key_upd]
          refine ⟨r0, hr0, by rw [← hkey0, hkr0m], ?_⟩
          rw [histKey_cons, if_pos hk.symm, chainUpd_cons, hchain, hkr0m, hr0m_eq]
        · have hr0m_eq : r0m = r0 := by
            rw [← hr0eq, if_neg (by simpa using hk)]
          subst hr0m_eq
          refine ⟨r0m, hr0, hkey0, ?_⟩
          rw [histKey_cons, if_neg (fun h => hk h.symm)]
          exact hchain
      · right
        have habs2 : ∀ r0 ∈ fs, o.keyR r0 ≠ o.keyR r2 := by
          intro r0 hr0 hkk
          refine habs (if o.keyR r0 == o.keyG g then o.upd g r0 else r0) ?_ ?_
          · rw [hstep]
            exact List.mem_map_of_mem _ hr0
          · split
            · rw [L.key_upd]; exact hkk
            · exact hkk
        have hgne : o.keyG g ≠ o.keyR r2 := fun h => habs2 ex hexmem (hexkey.trans h)
        refine ⟨n, g0, hs, ?_, hchain, habs2⟩
        rw [histKey_cons, if_neg hgne]
        exact hhist
  | create fs g gs fs2 n hfind hfresh hrun ih =>
      intro hwf r2 hr2
      have hwf2 := wf_append_create o L hwf n hfind hfresh
      rcases ih hwf2 r2 hr2 with ⟨r0, hr0, hkey0, hchain⟩ |
        ⟨n2, g0, hs, hhist, hchain, habs⟩
      · rcases List.mem_append.mp hr0 with hr0fs | hr0new
        · left
          have hne : o.keyR r0 ≠ o.keyG g := find?_isKey_none o L hfind r0 hr0fs
          refine ⟨r0, hr0fs, hkey0, ?_⟩
          rw [histKey_cons, if_neg (fun h => hne h.symm)]
          exact hchain
        · rw [List.mem_singleton] at hr0new
          subst hr0new
          right
          have hkr2 : o.keyR r2 = o.keyG g := by rw [← hkey0, L.key_create]
          refine ⟨n, g, histKey o gs (o.keyR r2), ?_, ?_, ?_⟩
          · rw [histKey_cons, if_pos hkr2.symm]
          · have hkeq : o.keyR (o.create n g) = o.keyR r2 := by rw [L.key_create, ← hkr2]
            rw [hkeq] at hchain
            exact hchain
          · intro r0 hr0 h
            exact find?_isKey_none o L hfind r0 hr0 (h.trans hkr2)
      · right
        have habs2 : ∀ r0 ∈ fs, o.keyR r0 ≠ o.keyR r2 :=
          fun r0 hr0 h => habs r0 (List.mem_append_left _ hr0) h
        have hgne : o.keyG g ≠ o.keyR r2 := by
          intro h
          exact habs (o.create n g)
            (List.mem_append_right _ (List.mem_singleton.mpr rfl))
            (by rw [L.key_create]; exact h)
        refine ⟨n2, g0, hs, ?_, hchain, habs2⟩
        rw [histKey_cons, if_neg hgne]
        exact hhist

/-- Lemma: running the same save twice leaves the same table as running it
once, given the two absorption laws of the concrete update/create pair. -/
theorem saveRun_idem {G R : Type} (o : UpsertOps G R) (L : UpsertLaws o)
    (absA : ∀ hs r, chainUpd o hs (chainUpd o hs r) = chainUpd o hs r)
    (absB : ∀ n g hs, chainUpd o (g :: hs) (chainUpd o hs (o.create n g)) =
      chainUpd o hs (o.create n g))
    {fs : List R} {gs : List G} {fs1 fs2 : List R}
    (h1 : SaveRun o fs gs fs1) (h2 : SaveRun o fs1 gs fs2)
    (hwf : UpsertWf o fs) : fs2 = fs1 := by
  have hwf1 := saveRun_wf o L h1 hwf
  have hpres := saveRun_presence_all o L h1
  rw [saveRun_update_only o L h2 hwf1 hpres]
  have hfix : ∀ r ∈ fs1, chainUpd o (histKey o gs (o.keyR r)) r = r := by
    intro r hr
    rcases saveRun_row_origin o L h1 hwf r hr with ⟨r0, _, hkey0, hchain⟩ |
      ⟨n, g0, hs, hhist, hchain, _⟩
    · rw [← hkey0]
      conv_lhs => rw [hchain]
      rw [← hchain]
      conv_lhs => rw [hchain]
      rw [absA, ← hchain]
    · rw [hhist]
      conv_lhs => rw [hchain]
      rw [absB, ← hchain]
  exact (List.map_congr_left hfix).trans (List.map_id fs1)

/-- Lemma: a keep-last-match fold ignores its initial value once some
element matches. -/
theorem selFold_indep {G α : Type} (cond : G → Bool) (val : G → α) :
    ∀ (hs : List G), (∃ g ∈ hs, cond g = true) → ∀ a b : α,
      hs.foldl (fun x g => if cond g then val g else x) a =
        hs.foldl (fun x g => if cond g then val g else x) b := by
  intro hs
  induction hs with
  | nil => intro h; obtain ⟨g, hg, _⟩ := h; cases hg
  | cons h hs ih =>
      intro hex a b
      by_cases hc : cond h = true
      · rw [List.foldl_cons, List.foldl_cons, if_pos hc, if_pos hc]
      · rw [List.foldl_cons, List.foldl_cons, if_neg hc, if_neg hc]
        apply ih
        obtain ⟨g, hg, hcg⟩ := hex
        rcases List.mem_cons.mp hg with heq | hmem
        · exact absurd (heq ▸ hcg) hc
        · exact ⟨g, hmem, hcg⟩

/-- Lemma: a keep-last-match fold over unmatched elements is the identity. -/
theorem selFold_skip {G α : Type} (cond : G → Bool) (val : G → α) :
    ∀ (hs : List G), (∀ g ∈ hs, cond g = false) → ∀ a : α,
      hs.foldl (fun x g => if cond g then val g else x) a = a := by
  intro hs
  induction hs with
  | nil => intro _ a; rfl
  | cons h hs ih =>
      intro hall a
      rw [List.foldl_cons, if_neg (by simp [hall h (List.mem_cons_self h hs)])]
      exact ih (fun g hg => hall g (List.mem_cons_of_mem h hg)) a

/-- Lemma: a keep-last-match fold is absorbing. -/
theorem selFold_absorb {G α : Type} (cond : G → Bool) (val : G → α)
    (hs : List G) (a : α) :
    hs.foldl (fun x g => if cond g then val g else x)
        (hs.foldl (fun x g => if cond g then val g else x) a) =
      hs.foldl (fun x g => if cond g then val g else x) a := by
  by_cases hex : ∃ g ∈ hs, cond g = true
  · exact selFold_indep cond val hs hex _ _
  · have hall : ∀ g ∈ hs, cond g = false := by
      intro g hg
      by_contra hc
      exact hex ⟨g, hg, by simpa using hc⟩
    rw [selFold_skip cond val hs hall]

/-- Lemma: a keep-last fold over a nonempty list ignores its initial value. -/
theorem lastFold_indep {G α : Type} (val : G → α) :
    ∀ (hs : List G), hs ≠ [] → ∀ a b : α,
      hs.foldl (fun _ g => val g) a = hs.foldl (fun _ g => val g) b := by
  intro hs
  induction hs with
  | nil => intro h; exact absurd rfl h
  | cons h hs ih =>
      intro _ a b
      rw [List.foldl_cons, List.foldl_cons]

/-- Helper: extensionality for `fs_groups` rows. -/
theorem fsGroupRow_ext {a b : FsGroupRow}
    (h1 : a.id_fs_group = b.id_fs_group) (h2 : a.created_at = b.created_at)
    (h3 : a.modified_at = b.modified_at) (h4 : a.remote_id = b.remote_id)
    (h5 : a.id_connection = b.id_connection) (h6 : a.name = b.name)
    (h7 : a.users = b.users) (h8 : a.remote_was_deleted = b.remote_was_deleted) :
    a = b := by
  cases a; cases b; simp_all

/-- Lemma: field-wise characterization of a chain of group updates. -/
theorem chainGroup_fields (t : Nat) (conn : String) (hs : List UnifiedGroupOutput) :
    ∀ r : FsGroupRow,
      (chainUpd (groupOps t conn) hs r).id_fs_group = r.id_fs_group ∧
      (chainUpd (groupOps t conn) hs r).created_at = r.created_at ∧
      (chainUpd (groupOps t conn) hs r).remote_id = r.remote_id ∧
      (chainUpd (groupOps t conn) hs r).id_connection = r.id_connection ∧
      (chainUpd (groupOps t conn) hs r).name =
        hs.foldl (fun x g => if jsTruthyStr g.name then g.name else x) r.name ∧
      (chainUpd (groupOps t conn) hs r).users =
        hs.foldl (fun x g => if g.users.isSome then g.users else x) r.users ∧
      (chainUpd (groupOps t conn) hs r).remote_was_deleted =
        hs.foldl (fun x g => if g.remote_was_deleted == some true then true else x)
          r.remote_was_deleted ∧
      (chainUpd (groupOps t conn) hs r).modified_at =
        hs.foldl (fun _ (_ : UnifiedGroupOutput) => t) r.modified_at := by
  induction hs with
  | nil => intro r; exact ⟨rfl, rfl, rfl, rfl, rfl, rfl, rfl, rfl⟩
  | cons g hs ih =>
      intro r
      have H := ih (applyGroupUpdate t g r)
      refine ⟨?_, ?_, ?_, ?_, ?_, ?_, ?_, ?_⟩ <;>
        simp only [chainUpd_cons, List.foldl_cons]
      · exact H.1
      · exact H.2.1
      · exact H.2.2.1
      · exact H.2.2.2.1
      · exact H.2.2.2.2.1
      · exact H.2.2.2.2.2.1
      · exact H.2.2.2.2.2.2.1
      · exact H.2.2.2.2.2.2.2

/-- Lemma: absorbing a create-then-update seed into a keep-last-match fold. -/
theorem selFold_createB {G α : Type} (cond : G → Bool) (val : G → α)
    (hs : List G) (g : G) (d x : α)
    (hxval : x = hs.foldl (fun y g2 => if cond g2 then val g2 else y)
      (if cond g then val g else d)) :
    hs.foldl (fun y g2 => if cond g2 then val g2 else y)
      (if cond g then val g else x) = x := by
  by_cases hex : ∃ g2 ∈ hs, cond g2 = true
  · rw [hxval]
    exact selFold_indep cond val hs hex _ _
  · have hall : ∀ g2 ∈ hs, cond g2 = false := by
      intro g2 hg2
      by_contra hc
      exact hex ⟨g2, hg2, by simpa using hc⟩
    rw [selFold_skip cond val hs hall]
    rw [selFold_skip cond val hs hall] at hxval
    by_cases hc : cond g = true
    · rw [if_pos hc]; rw [hxval, if_pos hc]
    · rw [if_neg hc]

/-- Lemma: a keep-last fold only depends on its initial value when the list
is empty. -/
theorem lastFold_congr_init {G α : Type} (val : G → α) (hs : List G) (a b : α)
    (h : hs = [] → a = b) :
    hs.foldl (fun _ g => val g) a = hs.foldl (fun _ g => val g) b := by
  cases hs with
  | nil => exact h rfl
  | cons g hs2 => exact lastFold_indep val (g :: hs2) (by simp) a b

/-- Lemma: absorption of a repeated chain of group updates. -/
theorem chainGroup_absorbA (t : Nat) (conn : String) (hs : List UnifiedGroupOutput)
    (r : FsGroupRow) :
    chainUpd (groupOps t conn) hs (chainUpd (groupOps t conn) hs r) =
      chainUpd (groupOps t conn) hs r := by
  have H1 := chainGroup_fields t conn hs (chainUpd (groupOps t conn) hs r)
  have H2 := chainGroup_fields t conn hs r
  apply fsGroupRow_ext
  · exact H1.1
  · exact H1.2.1
  · rw [H1.2.2.2.2.2.2.2, H2.2.2.2.2.2.2.2]
    apply lastFold_congr_init
    intro hnil
    subst hnil
    rfl
  · exact H1.2.2.1
  · exact H1.2.2.2.1
  · rw [H1.2.2.2.2.1, H2.2.2.2.2.1]
    exact selFold_absorb (fun g => jsTruthyStr g.name) (fun g => g.name) hs r.name
  · rw [H1.2.2.2.2.2.1, H2.2.2.2.2.2.1]
    exact selFold_absorb (fun g => g.users.isSome) (fun g => g.users) hs r.users
  · rw [H1.2.2.2.2.2.2.1, H2.2.2.2.2.2.2.1]
    exact selFold_absorb (fun g => g.remote_was_deleted == some true) (fun _ => true)
      hs r.remote_was_deleted

/-- Lemma: absorption of the creating object's update over a created-then
-updated group row. -/
theorem chainGroup_absorbB (t : Nat) (conn : String) (n : Nat)
    (g : UnifiedGroupOutput) (hs : List UnifiedGroupOutput) :
    chainUpd (groupOps t conn) (g :: hs)
        (chainUpd (groupOps t conn) hs ((groupOps t conn).create n g)) =
      chainUpd (groupOps t conn) hs ((groupOps t conn).create n g) := by
  rw [chainUpd_cons]
  have H1 := chainGroup_fields t conn hs
    ((groupOps t conn).upd g (chainUpd (groupOps t conn) hs ((groupOps t conn).create n g)))
  have HX := chainGroup_fields t conn hs ((groupOps t conn).create n g)
  apply fsGroupRow_ext
  · exact H1.1
  · exact H1.2.1
  · rw [H1.2.2.2.2.2.2.2, HX.2.2.2.2.2.2.2]
    apply lastFold_congr_init
    intro hnil
    subst hnil
    rfl
  · exact H1.2.2.1
  · exact H1.2.2.2.1
  · rw [H1.2.2.2.2.1]
    exact selFold_createB (fun g2 => jsTruthyStr g2.name) (fun g2 => g2.name) hs g
      none _ HX.2.2.2.2.1
  · rw [H1.2.2.2.2.2.1]
    exact selFold_createB (fun g2 => g2.users.isSome) (fun g2 => g2.users) hs g
      none _ HX.2.2.2.2.2.1
  · rw [H1.2.2.2.2.2.2.1]
    exact selFold_createB (fun g2 => g2.remote_was_deleted == some true) (fun _ => true)
      hs g false _ HX.2.2.2.2.2.2.1

/-- Lemma: the abstract operation laws hold for the group instance. -/
theorem groupLaws (t : Nat) (conn : String) : UpsertLaws (groupOps t conn) := by
  constructor
  · intro g r
    simp [groupOps, Bool.and_eq_true, beq_iff_eq, Prod.mk.injEq]
  · intro g r; rfl
  · intro g r; rfl
  · intro n g; rfl

/-- Helper: extensionality for `ats_candidate_attachments` rows. -/
theorem atsAttachmentRow_ext {a b : AtsAttachmentRow}
    (h1 : a.id_ats_candidate_attachment = b.id_ats_candidate_attachment)
    (h2 : a.id_ats_attachment = b.id_ats_attachment)
    (h3 : a.created_at = b.created_at) (h4 : a.modified_at = b.modified_at)
    (h5 : a.remote_id = b.remote_id) (h6 : a.id_connection = b.id_connection)
    (h7 : a.file_url = b.file_url) (h8 : a.file_name = b.file_name)
    (h9 : a.file_type = b.file_type) (h10 : a.remote_created_at = b.remote_created_at)
    (h11 : a.remote_modified_at = b.remote_modified_at)
    (h12 : a.candidate_id = b.candidate_id) : a = b := by
  cases a; cases b; simp_all

/-- Lemma: field-wise characterization of a chain of attachment updates. -/
theorem chainAttachment_fields (t : Nat) (conn : String) (cand : Option String)
    (hs : List UnifiedAttachmentOutput) :
    ∀ r : AtsAttachmentRow,
      (chainUpd (attachmentOps t conn cand) hs r).id_ats_candidate_attachment =
        r.id_ats_candidate_attachment ∧
      (chainUpd (attachmentOps t conn cand) hs r).id_ats_attachment =
        r.id_ats_attachment ∧
      (chainUpd (attachmentOps t conn cand) hs r).created_at = r.created_at ∧
      (chainUpd (attachmentOps t conn cand) hs r).remote_id = r.remote_id ∧
      (chainUpd (attachmentOps t conn cand) hs r).id_connection = r.id_connection ∧
      (chainUpd (attachmentOps t conn cand) hs r).file_url =
        hs.foldl (fun _ a => a.file_url) r.file_url ∧
      (chainUpd (attachmentOps t conn cand) hs r).file_name =
        hs.foldl (fun _ a => a.file_name) r.file_name ∧
      (chainUpd (attachmentOps t conn cand) hs r).file_type =
        hs.foldl (fun _ a => a.file_type) r.file_type ∧
      (chainUpd (attachmentOps t conn cand) hs r).remote_created_at =
        hs.foldl (fun _ a => a.remote_created_at) r.remote_created_at ∧
      (chainUpd (attachmentOps t conn cand) hs r).remote_modified_at =
        hs.foldl (fun _ a => a.remote_modified_at) r.remote_modified_at ∧
      (chainUpd (attachmentOps t conn cand) hs r).candidate_id =
        hs.foldl (fun x (_ : UnifiedAttachmentOutput) => cand) r.candidate_id ∧
      (chainUpd (attachmentOps t conn cand) hs r).modified_at =
        hs.foldl (fun _ (_ : UnifiedAttachmentOutput) => t) r.modified_at := by
  induction hs with
  | nil =>
      intro r
      exact ⟨rfl, rfl, rfl, rfl, rfl, rfl, rfl, rfl, rfl, rfl, rfl, rfl⟩
  | cons a hs ih =>
      intro r
      have H := ih (applyAttachmentUpdate t cand a r)
      refine ⟨?_, ?_, ?_, ?_, ?_, ?_, ?_, ?_, ?_, ?_, ?_, ?_⟩ <;>
        simp only [chainUpd_cons, List.foldl_cons]
      · exact H.1
      · exact H.2.1
      · exact H.2.2.1
      · exact H.2.2.2.1
      · exact H.2.2.2.2.1
      · exact H.2.2.2.2.2.1
      · exact H.2.2.2.2.2.2.1
      · exact H.2.2.2.2.2.2.2.1
      · exact H.2.2.2.2.2.2.2.2.1
      · exact H.2.2.2.2.2.2.2.2.2.1
      · exact H.2.2.2.2.2.2.2.2.2.2.1
      · exact H.2.2.2.2.2.2.2.2.2.2.2

/-- Lemma: absorption of a repeated chain of attachment updates. -/
theorem chainAttachment_absorbA (t : Nat) (conn : String) (cand : Option String)
    (hs : List UnifiedAttachmentOutput) (r : AtsAttachmentRow) :
    chainUpd (attachmentOps t conn cand) hs
        (chainUpd (attachmentOps t conn cand) hs r) =
      chainUpd (attachmentOps t conn cand) hs r := by
  have H1 := chainAttachment_fields t conn cand hs
    (chainUpd (attachmentOps t conn cand) hs r)
  have H2 := chainAttachment_fields t conn cand hs r
  apply atsAttachmentRow_ext
  · exact H1.1
  · exact H1.2.1
  · exact H1.2.2.1
  · rw [H1.2.2.2.2.2.2.2.2.2.2.2, H2.2.2.2.2.2.2.2.2.2.2.2]
    apply lastFold_congr_init
    intro hnil
    subst hnil
    rfl
  · exact H1.2.2.2.1
  · exact H1.2.2.2.2.1
  · rw [H1.2.2.2.2.2.1, H2.2.2.2.2.2.1]
    apply lastFold_congr_init
    intro hnil
    subst hnil
    rfl
  · rw [H1.2.2.2.2.2.2.1, H2.2.2.2.2.2.2.1]
    apply lastFold_congr_init
    intro hnil
    subst hnil
    rfl
  · rw [H1.2.2.2.2.2.2.2.1, H2.2.2.2.2.2.2.2.1]
    apply lastFold_congr_init
    intro hnil
    subst hnil
    rfl
  · rw [H1.2.2.2.2.2.2.2.2.1, H2.2.2.2.2.2.2.2.2.1]
    apply lastFold_congr_init
    intro hnil
    subst hnil
    rfl
  · rw [H1.2.2.2.2.2.2.2.2.2.1, H2.2.2.2.2.2.2.2.2.2.1]
    apply lastFold_congr_init
    intro hnil
    subst hnil
    rfl
  · rw [H1.2.2.2.2.2.2.2.2.2.2.1, H2.2.2.2.2.2.2.2.2.2.2.1]
    apply lastFold_congr_init
    intro hnil
    subst hnil
    rfl

/-- Lemma: absorption of the creating object's update over a created-then
-updated attachment row. -/
theorem chainAttachment_absorbB (t : Nat) (conn : String) (cand : Option String)
    (n : Nat) (a : UnifiedAttachmentOutput) (hs : List UnifiedAttachmentOutput) :
    chainUpd (attachmentOps t conn cand) (a :: hs)
        (chainUpd (attachmentOps t conn cand) hs
          ((attachmentOps t conn cand).create n a)) =
      chainUpd (attachmentOps t conn cand) hs
        ((attachmentOps t conn cand).create n a) := by
  rw [chainUpd_cons]
  have H1 := chainAttachment_fields t conn cand hs
    ((attachmentOps t conn cand).upd a
      (chainUpd (attachmentOps t conn cand) hs ((attachmentOps t conn cand).create n a)))
  have HX := chainAttachment_fields t conn cand hs
    ((attachmentOps t conn cand).create n a)
  apply atsAttachmentRow_ext
  · exact H1.1
  · exact H1.2.1
  · exact H1.2.2.1
  · rw [H1.2.2.2.2.2.2.2.2.2.2.2, HX.2.2.2.2.2.2.2.2.2.2.2]
    apply lastFold_congr_init
    intro hnil
    subst hnil
    rfl
  · exact H1.2.2.2.1
  · exact H1.2.2.2.2.1
  · rw [H1.2.2.2.2.2.1, HX.2.2.2.2.2.1]
    apply lastFold_congr_init
    intro hnil
    subst hnil
    rfl
  · rw [H1.2.2.2.2.2.2.1, HX.2.2.2.2.2.2.1]
    apply lastFold_congr_init
    intro hnil
    subst hnil
    rfl
  · rw [H1.2.2.2.2.2.2.2.1, HX.2.2.2.2.2.2.2.1]
    apply lastFold_congr_init
    intro hnil
    subst hnil
    rfl
  · rw [H1.2.2.2.2.2.2.2.2.1, HX.2.2.2.2.2.2.2.2.1]
    apply lastFold_congr_init
    intro hnil
    subst hnil
    rfl
  · rw [H1.2.2.2.2.2.2.2.2.2.1, HX.2.2.2.2.2.2.2.2.2.1]
    apply lastFold_congr_init
    intro hnil
    subst hnil
    rfl
  · rw [H1.2.2.2.2.2.2.2.2.2.2.1, HX.2.2.2.2.2.2.2.2.2.2.1]
    apply lastFold_congr_init
    intro hnil
    subst hnil
    rfl

/-- Lemma: the abstract operation laws hold for the attachment instance. -/
theorem attachmentLaws (t : Nat) (conn : String) (cand : Option String) :
    UpsertLaws (attachmentOps t conn cand) := by
  constructor
  · intro a r
    simp [attachmentOps, Bool.and_eq_true, beq_iff_eq, Prod.mk.injEq]
  · intro a r; rfl
  · intro a r; rfl
  · intro n a; rfl

/-- Frame lemma: one field-mapping iteration only appends a `value` row and
bumps the counter. -/
theorem processOneFieldMapping_frame (lu src eid : String) (s : FsState)
    (kv : String × String) :
    (processOneFieldMapping lu src eid s kv).fs_groups = s.fs_groups ∧
    s.nextUuid ≤ (processOneFieldMapping lu src eid s kv).nextUuid ∧
    (processOneFieldMapping lu src eid s kv).events = s.events ∧
    (processOneFieldMapping lu src eid s kv).webhooks = s.webhooks ∧
    (processOneFieldMapping lu src eid s kv).connections = s.connections ∧
    (processOneFieldMapping lu src eid s kv).users = s.users ∧
    (processOneFieldMapping lu src eid s kv).projects = s.projects ∧
    (processOneFieldMapping lu src eid s kv).linked_users = s.linked_users := by
  unfold processOneFieldMapping
  cases s.attributes.find? (fun a =>
      a.slug == kv.1 && a.source == src && a.id_consumer == lu) with
  | none => exact ⟨rfl, Nat.le_refl _, rfl, rfl, rfl, rfl, rfl, rfl⟩
  | some attr => exact ⟨rfl, Nat.le_succ _, rfl, rfl, rfl, rfl, rfl, rfl⟩

/-- Frame lemma: the field-mapping loop only appends `value` rows and bumps
the counter. -/
theorem pgfmFold_frame (lu src eid : String) :
    ∀ (fm : List (String × String)) (s : FsState),
    (fm.foldl (processOneFieldMapping lu src eid) s).fs_groups = s.fs_groups ∧
    s.nextUuid ≤ (fm.foldl (processOneFieldMapping lu src eid) s).nextUuid ∧
    (fm.foldl (processOneFieldMapping lu src eid) s).events = s.events ∧
    (fm.foldl (processOneFieldMapping lu src eid) s).webhooks = s.webhooks ∧
    (fm.foldl (processOneFieldMapping lu src eid) s).connections = s.connections ∧
    (fm.foldl (processOneFieldMapping lu src eid) s).users = s.users ∧
    (fm.foldl (processOneFieldMapping lu src eid) s).projects = s.projects ∧
    (fm.foldl (processOneFieldMapping lu src eid) s).linked_users = s.linked_users := by
  intro fm
  induction fm with
  | nil => intro s; exact ⟨rfl, Nat.le_refl _, rfl, rfl, rfl, rfl, rfl, rfl⟩
  | cons kv fm ih =>
      intro s
      have h1 := processOneFieldMapping_frame lu src eid s kv
      have h2 := ih (processOneFieldMapping lu src eid s kv)
      rw [List.foldl_cons]
      exact ⟨h2.1.trans h1.1, h1.2.1.trans h2.2.1, h2.2.2.1.trans h1.2.2.1,
        h2.2.2.2.1.trans h1.2.2.2.1, h2.2.2.2.2.1.trans h1.2.2.2.2.1,
        h2.2.2.2.2.2.1.trans h1.2.2.2.2.2.1, h2.2.2.2.2.2.2.1.trans h1.2.2.2.2.2.2.1,
        h2.2.2.2.2.2.2.2.trans h1.2.2.2.2.2.2.2⟩

/-- Frame lemma for the whole field-mapping block. -/
theorem processGroupFieldMappings_frame (lu src owner : String)
    (fm : List (String × String)) (st : FsState) :
    (processGroupFieldMappings lu src owner fm st).fs_groups = st.fs_groups ∧
    st.nextUuid ≤ (processGroupFieldMappings lu src owner fm st).nextUuid ∧
    (processGroupFieldMappings lu src owner fm st).events = st.events ∧
    (processGroupFieldMappings lu src owner fm st).webhooks = st.webhooks ∧
    (processGroupFieldMappings lu src owner fm st).connections = st.connections ∧
    (processGroupFieldMappings lu src owner fm st).users = st.users ∧
    (processGroupFieldMappings lu src owner fm st).projects = st.projects ∧
    (processGroupFieldMappings lu src owner fm st).linked_users = st.linked_users := by
  unfold processGroupFieldMappings
  by_cases h : fm.length > 0
  · rw [if_pos h]
    have hf := pgfmFold_frame lu src (uuidv4 st.nextUuid) fm
      { st with
        entities := st.entities ++ [⟨uuidv4 st.nextUuid, owner⟩]
        nextUuid := st.nextUuid + 1 }
    exact ⟨hf.1, Nat.le_of_lt (Nat.lt_of_lt_of_le (Nat.lt_succ_self _) hf.2.1),
      hf.2.2.1, hf.2.2.2.1, hf.2.2.2.2.1, hf.2.2.2.2.2.1, hf.2.2.2.2.2.2.1,
      hf.2.2.2.2.2.2.2⟩
  · rw [if_neg h]
    exact ⟨rfl, Nat.le_refl _, rfl, rfl, rfl, rfl, rfl, rfl⟩

/-- Frame lemma for `upsertRemoteData`. -/
theorem upsertRemoteData_frame (t : Nat) (owner ds : String) (st : FsState) :
    (upsertRemoteData t owner ds st).fs_groups = st.fs_groups ∧
    st.nextUuid ≤ (upsertRemoteData t owner ds st).nextUuid ∧
    (upsertRemoteData t owner ds st).events = st.events ∧
    (upsertRemoteData t owner ds st).webhooks = st.webhooks ∧
    (upsertRemoteData t owner ds st).connections = st.connections ∧
    (upsertRemoteData t owner ds st).users = st.users ∧
    (upsertRemoteData t owner ds st).projects = st.projects ∧
    (upsertRemoteData t owner ds st).linked_users = st.linked_users := by
  unfold upsertRemoteData
  by_cases h : (st.remote_data.find? (fun r => r.ressource_owner_id == owner)).isSome
  · rw [if_pos h]
    exact ⟨rfl, Nat.le_refl _, rfl, rfl, rfl, rfl, rfl, rfl⟩
  · rw [if_neg h]
    exact ⟨rfl, Nat.le_succ _, rfl, rfl, rfl, rfl, rfl, rfl⟩

/-- Frame and table shape of one `saveGroupsInDb` iteration. -/
theorem saveGroupStep_spec (σ : Type) (strf : σ → String) (t : Nat)
    (conn lu src : String) (st : FsState) (g : UnifiedGroupOutput) (rd : Option σ) :
    ((match st.fs_groups.find? (fun r =>
        r.remote_id == g.remote_id.getD "" && r.id_connection == conn) with
      | some ex =>
          (saveGroupStep σ strf t conn lu src st g rd).1.fs_groups =
            st.fs_groups.map (fun r =>
              if r.id_fs_group == ex.id_fs_group then applyGroupUpdate t g r else r) ∧
          (saveGroupStep σ strf t conn lu src st g rd).2 = applyGroupUpdate t g ex ∧
          st.nextUuid ≤ (saveGroupStep σ strf t conn lu src st g rd).1.nextUuid
      | none =>
          (saveGroupStep σ strf t conn lu src st g rd).1.fs_groups =
            st.fs_groups ++ [createGroupRow t (uuidv4 st.nextUuid) conn g] ∧
          (saveGroupStep σ strf t conn lu src st g rd).2 =
            createGroupRow t (uuidv4 st.nextUuid) conn g ∧
          st.nextUuid + 1 ≤ (saveGroupStep σ strf t conn lu src st g rd).1.nextUuid)) ∧
    (saveGroupStep σ strf t conn lu src st g rd).1.events = st.events ∧
    (saveGroupStep σ strf t conn lu src st g rd).1.webhooks = st.webhooks ∧
    (saveGroupStep σ strf t conn lu src st g rd).1.connections = st.connections ∧
    (saveGroupStep σ strf t conn lu src st g rd).1.users = st.users ∧
    (saveGroupStep σ strf t conn lu src st g rd).1.projects = st.projects ∧
    (saveGroupStep σ strf t conn lu src st g rd).1.linked_users = st.linked_users := by
  unfold saveGroupStep
  cases hfind : st.fs_groups.find? (fun r =>
      r.remote_id == g.remote_id.getD "" && r.id_connection == conn) with
  | some ex =>
      have h1 := processGroupFieldMappings_frame lu src
        (applyGroupUpdate t g ex).id_fs_group g.field_mappings
        { st with fs_groups := st.fs_groups.map (fun r =>
            if r.id_fs_group == ex.id_fs_group then applyGroupUpdate t g r else r) }
      have h2 := upsertRemoteData_frame t (applyGroupUpdate t g ex).id_fs_group
        (rd.elim "undefined" strf)
        (processGroupFieldMappings lu src (applyGroupUpdate t g ex).id_fs_group
          g.field_mappings
          { st with fs_groups := st.fs_groups.map (fun r =>
              if r.id_fs_group == ex.id_fs_group then applyGroupUpdate t g r else r) })
      refine ⟨⟨h2.1.trans h1.1, rfl, h1.2.1.trans h2.2.1⟩, h2.2.2.1.trans h1.2.2.1,
        h2.2.2.2.1.trans h1.2.2.2.1, h2.2.2.2.2.1.trans h1.2.2.2.2.1,
        h2.2.2.2.2.2.1.trans h1.2.2.2.2.2.1, h2.2.2.2.2.2.2.1.trans h1.2.2.2.2.2.2.1,
        h2.2.2.2.2.2.2.2.trans h1.2.2.2.2.2.2.2⟩
  | none =>
      have h1 := processGroupFieldMappings_frame lu src (uuidv4 st.nextUuid)
        g.field_mappings
        { st with
          fs_groups := st.fs_groups ++ [createGroupRow t (uuidv4 st.nextUuid) conn g]
          nextUuid := st.nextUuid + 1 }
      have h2 := upsertRemoteData_frame t (uuidv4 st.nextUuid)
        (rd.elim "undefined" strf)
        (processGroupFieldMappings lu src (uuidv4 st.nextUuid) g.field_mappings
          { st with
            fs_groups := st.fs_groups ++
              [createGroupRow t (uuidv4 st.nextUuid) conn g]
            nextUuid := st.nextUuid + 1 })
      refine ⟨⟨h2.1.trans h1.1, rfl, Nat.le_trans h1.2.1 h2.2.1⟩,
        h2.2.2.1.trans h1.2.2.1, h2.2.2.2.1.trans h1.2.2.2.1,
        h2.2.2.2.2.1.trans h1.2.2.2.2.1, h2.2.2.2.2.2.1.trans h1.2.2.2.2.2.1,
        h2.2.2.2.2.2.2.1.trans h1.2.2.2.2.2.2.1,
        h2.2.2.2.2.2.2.2.trans h1.2.2.2.2.2.2.2⟩

/-- Lemma: one `saveGroupsInDb` iteration preserves well-formedness. -/
theorem saveGroupStep_wf (σ : Type) (strf : σ → String) (t : Nat)
    (conn lu src : String) (st : FsState) (g : UnifiedGroupOutput) (rd : Option σ)
    (hwf : GroupWf st) : GroupWf (saveGroupStep σ strf t conn lu src st g rd).1 := by
  have hspec := saveGroupStep_spec σ strf t conn lu src st g rd
  have hwfU : UpsertWf (groupOps t conn) st.fs_groups := ⟨hwf.1, hwf.2.1⟩
  cases hfind : st.fs_groups.find? (fun r =>
      r.remote_id == g.remote_id.getD "" && r.id_connection == conn) with
  | some ex =>
      rw [hfind] at hspec
      obtain ⟨⟨hfs, _, hctr⟩, _⟩ := hspec
      have hfindG : st.fs_groups.find? ((groupOps t conn).isKey g) = some ex := hfind
      have hkey := mapById_eq_mapByKey (groupOps t conn) (groupLaws t conn) hwfU hfindG
      have hwf2 : UpsertWf (groupOps t conn)
          (saveGroupStep σ strf t conn lu src st g rd).1.fs_groups := by
        rw [hfs]
        have := wf_mapByKey (groupOps t conn) (groupLaws t conn) hwfU g
        rw [← hkey] at this
        exact this
      refine ⟨hwf2.1, hwf2.2, ?_⟩
      intro r hr m hm
      rw [hfs] at hr
      rw [List.mem_map] at hr
      obtain ⟨r0, hr0, hr0eq⟩ := hr
      have hid : r.id_fs_group = r0.id_fs_group := by
        rw [← hr0eq]
        by_cases hc : (r0.id_fs_group == ex.id_fs_group) = true
        · rw [if_pos hc]; rfl
        · rw [if_neg hc]
      rw [hid]
      exact hwf.2.2 r0 hr0 m (Nat.le_trans hctr hm)
  | none =>
      rw [hfind] at hspec
      obtain ⟨⟨hfs, _, hctr⟩, _⟩ := hspec
      have hfindG : st.fs_groups.find? ((groupOps t conn).isKey g) = none := hfind
      have hfresh : ∀ r ∈ st.fs_groups,
          (groupOps t conn).idR r ≠
            (groupOps t conn).idR ((groupOps t conn).create st.nextUuid g) := by
        intro r hr
        exact hwf.2.2 r hr st.nextUuid (Nat.le_refl _)
      have hwf2 := wf_append_create (groupOps t conn) (groupLaws t conn) hwfU
        st.nextUuid hfindG hfresh
      refine ⟨by rw [hfs]; exact hwf2.1, by rw [hfs]; exact hwf2.2, ?_⟩
      intro r hr m hm
      rw [hfs] at hr
      rcases List.mem_append.mp hr with hr0 | hrnew
      · exact hwf.2.2 r hr0 m (Nat.le_trans (Nat.le_succ _) (Nat.le_trans hctr hm))
      · rw [List.mem_singleton] at hrnew
        subst hrnew
        intro hcontra
        have := uuidv4_injective hcontra
        omega

/-- Lemma: the `saveGroupsInDb` loop, when every group has a truthy
`remote_id`, realises a `SaveRun` on `fs_groups`, preserves well-formedness
and does not touch the other tables. -/
theorem saveGroupsGo_saveRun (σ : Type) (strf : σ → String) (t : Nat)
    (conn lu src : String) :
    ∀ (gs : List UnifiedGroupOutput) (st : FsState) (rds : List σ)
      (acc : List FsGroupRow),
    GroupWf st → (∀ g ∈ gs, jsTruthyStr g.remote_id = true) →
    SaveRun (groupOps t conn) st.fs_groups gs
      (saveGroupsGo σ strf t conn lu src st gs rds acc).1.fs_groups ∧
    GroupWf (saveGroupsGo σ strf t conn lu src st gs rds acc).1 ∧
    (saveGroupsGo σ strf t conn lu src st gs rds acc).1.events = st.events ∧
    (saveGroupsGo σ strf t conn lu src st gs rds acc).1.webhooks = st.webhooks ∧
    (saveGroupsGo σ strf t conn lu src st gs rds acc).1.connections = st.connections ∧
    (saveGroupsGo σ strf t conn lu src st gs rds acc).1.users = st.users ∧
    (saveGroupsGo σ strf t conn lu src st gs rds acc).1.projects = st.projects ∧
    (saveGroupsGo σ strf t conn lu src st gs rds acc).1.linked_users =
      st.linked_users := by
  intro gs
  induction gs with
  | nil =>
      intro st rds acc hwf _
      exact ⟨SaveRun.nil _, hwf, rfl, rfl, rfl, rfl, rfl, rfl⟩
  | cons g gs ih =>
      intro st rds acc hwf hgood
      have hg := hgood g (List.mem_cons_self g gs)
      show (SaveRun (groupOps t conn) st.fs_groups (g :: gs)
        (saveGroupsGo σ strf t conn lu src st (g :: gs) rds acc).1.fs_groups) ∧ _
      simp only [saveGroupsGo, if_pos hg]
      have hspec := saveGroupStep_spec σ strf t conn lu src st g rds.head?
      have hwf1 := saveGroupStep_wf σ strf t conn lu src st g rds.head? hwf
      obtain ⟨hrun, hwf2, hev, hwh, hco, hus, hpr, hlu⟩ :=
        ih (saveGroupStep σ strf t conn lu src st g rds.head?).1 rds.tail
          (acc ++ [(saveGroupStep σ strf t conn lu src st g rds.head?).2]) hwf1
          (fun g2 hg2 => hgood g2 (List.mem_cons_of_mem g hg2))
      obtain ⟨hbr, hev1, hwh1, hco1, hus1, hpr1, hlu1⟩ := hspec
      refine ⟨?_, hwf2, hev.trans hev1, hwh.trans hwh1, hco.trans hco1,
        hus.trans hus1, hpr.trans hpr1, hlu.trans hlu1⟩
      cases hfind : st.fs_groups.find? (fun r =>
          r.remote_id == g.remote_id.getD "" && r.id_connection == conn) with
      | some ex =>
          rw [hfind] at hbr
          apply SaveRun.update _ _ _ _ ex hfind
          show SaveRun (groupOps t conn)
            (st.fs_groups.map (fun r =>
              if r.id_fs_group == ex.id_fs_group then applyGroupUpdate t g r else r))
            gs _
          rw [← hbr.1]
          exact hrun
      | none =>
          rw [hfind] at hbr
          apply SaveRun.create _ _ _ _ st.nextUuid hfind
          · intro r hr
            exact hwf.2.2 r hr st.nextUuid (Nat.le_refl _)
          · show SaveRun (groupOps t conn)
              (st.fs_groups ++ [createGroupRow t (uuidv4 st.nextUuid) conn g]) gs _
            rw [← hbr.1]
            exact hrun

/-- Table shape of one `saveToDb` iteration. -/
theorem saveAttachmentStep_spec (ω ρ : Type) (env : IngestEnv ω ρ) (t : Nat)
    (conn lu src : String) (cand : Option String) (st : AtsSaveState ω)
    (a : UnifiedAttachmentOutput) (rd : Option ρ) :
    match st.ats_candidate_attachments.find? (fun r =>
        r.remote_id == a.remote_id.getD "" && r.id_connection == conn) with
    | some ex =>
        (saveAttachmentStep ω ρ env t conn lu src cand st a rd).1.ats_candidate_attachments
            = st.ats_candidate_attachments.map (fun r =>
              if r.id_ats_candidate_attachment == ex.id_ats_candidate_attachment
              then applyAttachmentUpdate t cand a r else r) ∧
        (saveAttachmentStep ω ρ env t conn lu src cand st a rd).2 =
          applyAttachmentUpdate t cand a ex ∧
        (saveAttachmentStep ω ρ env t conn lu src cand st a rd).1.nextUuid = st.nextUuid
    | none =>
        (saveAttachmentStep ω ρ env t conn lu src cand st a rd).1.ats_candidate_attachments
            = st.ats_candidate_attachments ++
              [createAttachmentRow t (uuidv4 st.nextUuid) (uuidv4 (st.nextUuid + 1))
                conn cand a] ∧
        (saveAttachmentStep ω ρ env t conn lu src cand st a rd).2 =
          createAttachmentRow t (uuidv4 st.nextUuid) (uuidv4 (st.nextUuid + 1))
            conn cand a ∧
        (saveAttachmentStep ω ρ env t conn lu src cand st a rd).1.nextUuid =
          st.nextUuid + 2 := by
  unfold saveAttachmentStep
  cases hfind : st.ats_candidate_attachments.find? (fun r =>
      r.remote_id == a.remote_id.getD "" && r.id_connection == conn) with
  | some ex => exact ⟨rfl, rfl, rfl⟩
  | none => exact ⟨rfl, rfl, rfl⟩

/-- Lemma: one `saveToDb` iteration preserves well-formedness. -/
theorem saveAttachmentStep_wf (ω ρ : Type) (env : IngestEnv ω ρ) (t : Nat)
    (conn lu src : String) (cand : Option String) (st : AtsSaveState ω)
    (a : UnifiedAttachmentOutput) (rd : Option ρ) (hwf : AttachmentWf ω st) :
    AttachmentWf ω (saveAttachmentStep ω ρ env t conn lu src cand st a rd).1 := by
  have hspec := saveAttachmentStep_spec ω ρ env t conn lu src cand st a rd
  have hwfU : UpsertWf (attachmentOps t conn cand) st.ats_candidate_attachments :=
    ⟨hwf.1, hwf.2.1⟩
  cases hfind : st.ats_candidate_attachments.find? (fun r =>
      r.remote_id == a.remote_id.getD "" && r.id_connection == conn) with
  | some ex =>
      rw [hfind] at hspec
      obtain ⟨hfs, _, hctr⟩ := hspec
      have hfindG : st.ats_candidate_attachments.find?
          ((attachmentOps t conn cand).isKey a) = some ex := hfind
      have hkey := mapById_eq_mapByKey (attachmentOps t conn cand)
        (attachmentLaws t conn cand) hwfU hfindG
      have hwf2 : UpsertWf (attachmentOps t conn cand)
          (saveAttachmentStep ω ρ env t conn lu src cand st a rd).1.ats_candidate_attachments := by
        rw [hfs]
        have := wf_mapByKey (attachmentOps t conn cand) (attachmentLaws t conn cand)
          hwfU a
        rw [← hkey] at this
        exact this
      refine ⟨hwf2.1, hwf2.2, ?_⟩
      intro r hr m hm
      rw [hfs] at hr
      rw [List.mem_map] at hr
      obtain ⟨r0, hr0, hr0eq⟩ := hr
      have hid : r.id_ats_candidate_attachment = r0.id_ats_candidate_attachment := by
        rw [← hr0eq]
        by_cases hc : (r0.id_ats_candidate_attachment ==
            ex.id_ats_candidate_attachment) = true
        · rw [if_pos hc]; rfl
        · rw [if_neg hc]
      rw [hid]
      rw [hctr] at hm
      exact hwf.2.2 r0 hr0 m hm
  | none =>
      rw [hfind] at hspec
      obtain ⟨hfs, _, hctr⟩ := hspec
      have hfindG : st.ats_candidate_attachments.find?
          ((attachmentOps t conn cand).isKey a) = none := hfind
      have hfresh : ∀ r ∈ st.ats_candidate_attachments,
          (attachmentOps t conn cand).idR r ≠
            (attachmentOps t conn cand).idR
              ((attachmentOps t conn cand).create st.nextUuid a) := by
        intro r hr
        exact hwf.2.2 r hr st.nextUuid (Nat.le_refl _)
      have hwf2 := wf_append_create (attachmentOps t conn cand)
        (attachmentLaws t conn cand) hwfU st.nextUuid hfindG hfresh
      refine ⟨by rw [hfs]; exact hwf2.1, by rw [hfs]; exact hwf2.2, ?_⟩
      intro r hr m hm
      rw [hctr] at hm
      rw [hfs] at hr
      rcases List.mem_append.mp hr with hr0 | hrnew
      · exact hwf.2.2 r hr0 m (by omega)
      · rw [List.mem_singleton] at hrnew
        subst hrnew
        intro hcontra
        have := uuidv4_injective hcontra
        omega

/-- Lemma: the `saveToDb` loop, when every attachment has a truthy
`remote_id`, realises a `SaveRun` on `ats_candidate_attachments` and
preserves well-formedness. -/
theorem saveToDbGo_saveRun (ω ρ : Type) (env : IngestEnv ω ρ) (t : Nat)
    (conn lu src : String) (cand : Option String) :
    ∀ (as2 : List UnifiedAttachmentOutput) (st : AtsSaveState ω) (rds : List ρ)
      (acc : List AtsAttachmentRow),
    AttachmentWf ω st → (∀ a ∈ as2, jsTruthyStr a.remote_id = true) →
    SaveRun (attachmentOps t conn cand) st.ats_candidate_attachments as2
      (saveToDbGo ω ρ env t conn lu src cand st as2 rds acc).1.ats_candidate_attachments ∧
    AttachmentWf ω (saveToDbGo ω ρ env t conn lu src cand st as2 rds acc).1 := by
  intro as2
  induction as2 with
  | nil =>
      intro st rds acc hwf _
      exact ⟨SaveRun.nil _, hwf⟩
  | cons a as2 ih =>
      intro st rds acc hwf hgood
      have ha := hgood a (List.mem_cons_self a as2)
      show (SaveRun (attachmentOps t conn cand) st.ats_candidate_attachments (a :: as2)
        (saveToDbGo ω ρ env t conn lu src cand st (a :: as2) rds
          acc).1.ats_candidate_attachments) ∧ _
      simp only [saveToDbGo, if_pos ha]
      have hspec := saveAttachmentStep_spec ω ρ env t conn lu src cand st a rds.head?
      have hwf1 := saveAttachmentStep_wf ω ρ env t conn lu src cand st a rds.head? hwf
      obtain ⟨hrun, hwf2⟩ :=
        ih (saveAttachmentStep ω ρ env t conn lu src cand st a rds.head?).1 rds.tail
          (acc ++ [(saveAttachmentStep ω ρ env t conn lu src cand st a rds.head?).2])
          hwf1 (fun a2 ha2 => hgood a2 (List.mem_cons_of_mem a ha2))
      refine ⟨?_, hwf2⟩
      cases hfind : st.ats_candidate_attachments.find? (fun r =>
          r.remote_id == a.remote_id.getD "" && r.id_connection == conn) with
      | some ex =>
          rw [hfind] at hspec
          apply SaveRun.update _ _ _ _ ex hfind
          show SaveRun (attachmentOps t conn cand)
            (st.ats_candidate_attachments.map (fun r =>
              if r.id_ats_candidate_attachment == ex.id_ats_candidate_attachment
              then applyAttachmentUpdate t cand a r else r)) as2 _
          rw [← hspec.1]
          exact hrun
      | none =>
          rw [hfind] at hspec
          apply SaveRun.create _ _ _ _ st.nextUuid hfind
          · intro r hr
            exact hwf.2.2 r hr st.nextUuid (Nat.le_refl _)
          · show SaveRun (attachmentOps t conn cand)
              (st.ats_candidate_attachments ++
                [createAttachmentRow t (uuidv4 st.nextUuid) (uuidv4 (st.nextUuid + 1))
                  conn cand a]) as2 _
            rw [← hspec.1]
            exact hrun

/-- Helper: the empty filestorage state is well-formed. -/
theorem groupWf_empty : GroupWf fsStateEmpty :=
  ⟨List.nodup_nil, List.nodup_nil, fun r hr => absurd hr (List.not_mem_nil r)⟩

/-- Helper: the empty attachment save state is well-formed. -/
theorem attachmentWf_empty : AttachmentWf Unit atsSaveEmpty :=
  ⟨List.nodup_nil, List.nodup_nil, fun r hr => absurd hr (List.not_mem_nil r)⟩

/-- C1: for every list of unified groups (respectively attachments) whose
elements all have a non-empty `remote_id`, the save upserts by
`(remote_id, id_connection)`: an existing row with the key is updated in
place (same primary-id sequence, other rows untouched, the updated row
present) and no row is created, a missing key creates exactly one new row
carrying that key; consequently running the same save twice leaves the same
rows as running it once, and at most one row per key exists afterwards. -/
theorem save_upsert_by_key_idempotent
    (σ ω ρ : Type) (strf : σ → String) (env : IngestEnv ω ρ) (t : Nat)
    (conn lu src : String) (st : FsState) (gs : List UnifiedGroupOutput)
    (rds : List σ) (ast : AtsSaveState ω) (atts : List UnifiedAttachmentOutput)
    (ards : List ρ) (cand : Option String)
    (hg : ∀ g ∈ gs, jsTruthyStr g.remote_id = true)
    (ha : ∀ a ∈ atts, jsTruthyStr a.remote_id = true)
    (hwg : GroupWf st) (hwa : AttachmentWf ω ast) :
    (∀ (st2 : FsState) (g : UnifiedGroupOutput) (rd : Option σ),
      (match st2.fs_groups.find? (fun r =>
          r.remote_id == g.remote_id.getD "" && r.id_connection == conn) with
       | some ex =>
          ((saveGroupStep σ strf t conn lu src st2 g rd).1.fs_groups.map
              (fun r => r.id_fs_group)) =
            st2.fs_groups.map (fun r => r.id_fs_group) ∧
          (∀ r ∈ st2.fs_groups, r.id_fs_group ≠ ex.id_fs_group →
            r ∈ (saveGroupStep σ strf t conn lu src st2 g rd).1.fs_groups) ∧
          applyGroupUpdate t g ex ∈
            (saveGroupStep σ strf t conn lu src st2 g rd).1.fs_groups
       | none =>
          (saveGroupStep σ strf t conn lu src st2 g rd).1.fs_groups =
            st2.fs_groups ++ [createGroupRow t (uuidv4 st2.nextUuid) conn g] ∧
          (createGroupRow t (uuidv4 st2.nextUuid) conn g).remote_id =
            g.remote_id.getD "" ∧
          (createGroupRow t (uuidv4 st2.nextUuid) conn g).id_connection = conn)) ∧
    (SyncService.saveGroupsInDb σ strf t
        (SyncService.saveGroupsInDb σ strf t st conn lu gs src rds).1
        conn lu gs src rds).1.fs_groups =
      (SyncService.saveGroupsInDb σ strf t st conn lu gs src rds).1.fs_groups ∧
    ((SyncService.saveGroupsInDb σ strf t st conn lu gs src rds).1.fs_groups.map
      (fun r => (r.remote_id, r.id_connection))).Nodup ∧
    (∀ (st3 : AtsSaveState ω) (a : UnifiedAttachmentOutput) (rd : Option ρ),
      (match st3.ats_candidate_attachments.find? (fun r =>
          r.remote_id == a.remote_id.getD "" && r.id_connection == conn) with
       | some ex =>
          ((saveAttachmentStep ω ρ env t conn lu src cand st3 a
              rd).1.ats_candidate_attachments.map
              (fun r => r.id_ats_candidate_attachment)) =
            st3.ats_candidate_attachments.map
              (fun r => r.id_ats_candidate_attachment) ∧
          (∀ r ∈ st3.ats_candidate_attachments,
            r.id_ats_candidate_attachment ≠ ex.id_ats_candidate_attachment →
            r ∈ (saveAttachmentStep ω ρ env t conn lu src cand st3 a
              rd).1.ats_candidate_attachments) ∧
          applyAttachmentUpdate t cand a ex ∈
            (saveAttachmentStep ω ρ env t conn lu src cand st3 a
              rd).1.ats_candidate_attachments
       | none =>
          (saveAttachmentStep ω ρ env t conn lu src cand st3 a
              rd).1.ats_candidate_attachments =
            st3.ats_candidate_attachments ++
              [createAttachmentRow t (uuidv4 st3.nextUuid)
                (uuidv4 (st3.nextUuid + 1)) conn cand a] ∧
          (createAttachmentRow t (uuidv4 st3.nextUuid) (uuidv4 (st3.nextUuid + 1))
            conn cand a).remote_id = a.remote_id.getD "" ∧
          (createAttachmentRow t (uuidv4 st3.nextUuid) (uuidv4 (st3.nextUuid + 1))
            conn cand a).id_connection = conn)) ∧
    (SyncService.saveToDb ω ρ env t
        (SyncService.saveToDb ω ρ env t ast conn lu atts src ards cand).1
        conn lu atts src ards cand).1.ats_candidate_attachments =
      (SyncService.saveToDb ω ρ env t ast conn lu atts src ards
        cand).1.ats_candidate_attachments ∧
    ((SyncService.saveToDb ω ρ env t ast conn lu atts src ards
        cand).1.ats_candidate_attachments.map
      (fun r => (r.remote_id, r.id_connection))).Nodup := by
  obtain ⟨hrun1, hwf1, _⟩ := saveGroupsGo_saveRun σ strf t conn lu src gs st rds [] hwg hg
  obtain ⟨hrun2, _⟩ := saveGroupsGo_saveRun σ strf t conn lu src gs
    (saveGroupsGo σ strf t conn lu src st gs rds []).1 rds [] hwf1 hg
  obtain ⟨harun1, hawf1⟩ := saveToDbGo_saveRun ω ρ env t conn lu src cand atts ast ards
    [] hwa ha
  obtain ⟨harun2, _⟩ := saveToDbGo_saveRun ω ρ env t conn lu src cand atts
    (saveToDbGo ω ρ env t conn lu src cand ast atts ards []).1 ards [] hawf1 ha
  refine ⟨?_, ?_, hwf1.2.1, ?_, ?_, hawf1.2.1⟩
  · intro st2 g rd
    have hspec := saveGroupStep_spec σ strf t conn lu src st2 g rd
    cases hfind : st2.fs_groups.find? (fun r =>
        r.remote_id == g.remote_id.getD "" && r.id_connection == conn) with
    | some ex =>
        rw [hfind] at hspec
        obtain ⟨⟨hfs, _, _⟩, _⟩ := hspec
        have hexmem : ex ∈ st2.fs_groups := List.mem_of_find?_eq_some hfind
        refine ⟨?_, ?_, ?_⟩
        · rw [hfs, List.map_map]
          apply List.map_congr_left
          intro r _
          dsimp only [Function.comp]
          split
          · rfl
          · rfl
        · intro r hr hne
          rw [hfs]
          have : (if r.id_fs_group == ex.id_fs_group then applyGroupUpdate t g r
              else r) = r := by
            rw [if_neg (by simpa using hne)]
          rw [← this]
          exact List.mem_map_of_mem _ hr
        · rw [hfs]
          have : (if ex.id_fs_group == ex.id_fs_group then applyGroupUpdate t g ex
              else ex) = applyGroupUpdate t g ex := by
            rw [if_pos (by simp)]
          rw [← this]
          exact List.mem_map_of_mem _ hexmem
    | none =>
        rw [hfind] at hspec
        exact ⟨hspec.1.1, rfl, rfl⟩
  · exact saveRun_idem (groupOps t conn) (groupLaws t conn)
      (chainGroup_absorbA t conn) (chainGroup_absorbB t conn) hrun1 hrun2
      ⟨hwg.1, hwg.2.1⟩
  · intro st3 a rd
    have hspec := saveAttachmentStep_spec ω ρ env t conn lu src cand st3 a rd
    cases hfind : st3.ats_candidate_attachments.find? (fun r =>
        r.remote_id == a.remote_id.getD "" && r.id_connection == conn) with
    | some ex =>
        rw [hfind] at hspec
        obtain ⟨hfs, _, _⟩ := hspec
        have hexmem : ex ∈ st3.ats_candidate_attachments :=
          List.mem_of_find?_eq_some hfind
        refine ⟨?_, ?_, ?_⟩
        · rw [hfs, List.map_map]
          apply List.map_congr_left
          intro r _
          dsimp only [Function.comp]
          split
          · rfl
          · rfl
        · intro r hr hne
          rw [hfs]
          have : (if r.id_ats_candidate_attachment == ex.id_ats_candidate_attachment
              then applyAttachmentUpdate t cand a r else r) = r := by
            rw [if_neg (by simpa using hne)]
          rw [← this]
          exact List.mem_map_of_mem _ hr
        · rw [hfs]
          have : (if ex.id_ats_candidate_attachment == ex.id_ats_candidate_attachment
              then applyAttachmentUpdate t cand a ex else ex) =
              applyAttachmentUpdate t cand a ex := by
            rw [if_pos (by simp)]
          rw [← this]
          exact List.mem_map_of_mem _ hexmem
    | none =>
        rw [hfind] at hspec
        exact ⟨hspec.1, rfl, rfl⟩
  · exact saveRun_idem (attachmentOps t conn cand) (attachmentLaws t conn cand)
      (chainAttachment_absorbA t conn cand) (chainAttachment_absorbB t conn cand)
      harun1 harun2 ⟨hwa.1, hwa.2.1⟩

/-- C1 witness: the theorem applied to a duplicate-key group list and an
attachment list over empty tables. -/
theorem save_upsert_by_key_idempotent_witness :
    (SyncService.saveGroupsInDb String (fun s => s) 7
        (SyncService.saveGroupsInDb String (fun s => s) 7 fsStateEmpty "c1" "lu"
          [groupW, groupW] "src" ["r1", "r2"]).1
        "c1" "lu" [groupW, groupW] "src" ["r1", "r2"]).1.fs_groups =
      (SyncService.saveGroupsInDb String (fun s => s) 7 fsStateEmpty "c1" "lu"
        [groupW, groupW] "src" ["r1", "r2"]).1.fs_groups ∧
    (SyncService.saveToDb Unit String ingestEnvW 7
        (SyncService.saveToDb Unit String ingestEnvW 7 atsSaveEmpty "c1" "lu"
          [attachmentW] "src" ["x"] none).1
        "c1" "lu" [attachmentW] "src" ["x"] none).1.ats_candidate_attachments =
      (SyncService.saveToDb Unit String ingestEnvW 7 atsSaveEmpty "c1" "lu"
        [attachmentW] "src" ["x"] none).1.ats_candidate_attachments := by
  have h := save_upsert_by_key_idempotent String Unit String (fun s => s) ingestEnvW 7
    "c1" "lu" "src" fsStateEmpty [groupW, groupW] ["r1", "r2"] atsSaveEmpty
    [attachmentW] ["x"] none (by decide) (by decide) groupWf_empty attachmentWf_empty
  exact ⟨h.2.1, h.2.2.2.2.1⟩

/-- Lemma: head and tail of a `take (j+1)` prefix. -/
theorem take_succ_head_tail {σ : Type} (rds : List σ) (j : Nat) :
    (rds.take (j + 1)).head? = rds.head? ∧ (rds.take (j + 1)).tail = rds.tail.take j := by
  cases rds with
  | nil => simp
  | cons r rs => exact ⟨rfl, rfl⟩

/-- Lemma: the `saveGroupsInDb` loop stops with a `ReferenceError` at the
first falsy `remote_id`, in the state reached by saving the preceding
prefix. -/
theorem saveGroupsGo_error (σ : Type) (strf : σ → String) (t : Nat)
    (conn lu src : String) :
    ∀ (j : Nat) (gs : List UnifiedGroupOutput) (st : FsState) (rds : List σ)
      (acc : List FsGroupRow) (gbad : UnifiedGroupOutput)
      (rest : List UnifiedGroupOutput),
    (∀ g ∈ gs.take j, jsTruthyStr g.remote_id = true) →
    gs.drop j = gbad :: rest → jsTruthyStr gbad.remote_id = false →
    saveGroupsGo σ strf t conn lu src st gs rds acc =
      ((saveGroupsGo σ strf t conn lu src st (gs.take j) (rds.take j) acc).1,
       .error (.referenceError
         ("Origin id not there, found " ++ jsShowOptStr gbad.remote_id))) := by
  intro j
  induction j with
  | zero =>
      intro gs st rds acc gbad rest _ hdrop hbad
      rw [List.drop_zero] at hdrop
      subst hdrop
      rw [List.take_zero]
      simp only [saveGroupsGo, hbad, Bool.false_eq_true, if_false]
  | succ j ih =>
      intro gs st rds acc gbad rest hgood hdrop hbad
      cases gs with
      | nil => cases hdrop
      | cons g gs2 =>
          have hg : jsTruthyStr g.remote_id = true := by
            apply hgood
            rw [List.take_succ_cons]
            exact List.mem_cons_self g _
          rw [List.take_succ_cons]
          have hht := take_succ_head_tail rds j
          simp only [saveGroupsGo, if_pos hg, hht.1, hht.2]
          have hgood2 : ∀ g2 ∈ gs2.take j, jsTruthyStr g2.remote_id = true := by
            intro g2 hg2
            apply hgood
            rw [List.take_succ_cons]
            exact List.mem_cons_of_mem g hg2
          have hdrop2 : gs2.drop j = gbad :: rest := by
            rw [List.drop_succ_cons] at hdrop
            exact hdrop
          exact ih gs2 (saveGroupStep σ strf t conn lu src st g rds.head?).1 rds.tail
            (acc ++ [(saveGroupStep σ strf t conn lu src st g rds.head?).2]) gbad rest
            hgood2 hdrop2 hbad

/-- Lemma: the `saveToDb` loop stops with a `ReferenceError` at the first
falsy `remote_id`, in the state reached by saving the preceding prefix. -/
theorem saveToDbGo_error (ω ρ : Type) (env : IngestEnv ω ρ) (t : Nat)
    (conn lu src : String) (cand : Option String) :
    ∀ (j : Nat) (as2 : List UnifiedAttachmentOutput) (st : AtsSaveState ω)
      (rds : List ρ) (acc : List AtsAttachmentRow) (abad : UnifiedAttachmentOutput)
      (rest : List UnifiedAttachmentOutput),
    (∀ a ∈ as2.take j, jsTruthyStr a.remote_id = true) →
    as2.drop j = abad :: rest → jsTruthyStr abad.remote_id = false →
    saveToDbGo ω ρ env t conn lu src cand st as2 rds acc =
      ((saveToDbGo ω ρ env t conn lu src cand st (as2.take j) (rds.take j) acc).1,
       .error (.referenceError
         ("Origin id not there, found " ++ jsShowOptStr abad.remote_id))) := by
  intro j
  induction j with
  | zero =>
      intro as2 st rds acc abad rest _ hdrop hbad
      rw [List.drop_zero] at hdrop
      subst hdrop
      rw [List.take_zero]
      simp only [saveToDbGo, hbad, Bool.false_eq_true, if_false]
  | succ j ih =>
      intro as2 st rds acc abad rest hgood hdrop hbad
      cases as2 with
      | nil => cases hdrop
      | cons a as3 =>
          have ha : jsTruthyStr a.remote_id = true := by
            apply hgood
            rw [List.take_succ_cons]
            exact List.mem_cons_self a _
          rw [List.take_succ_cons]
          have hht := take_succ_head_tail rds j
          simp only [saveToDbGo, if_pos ha, hht.1, hht.2]
          have hgood2 : ∀ a2 ∈ as3.take j, jsTruthyStr a2.remote_id = true := by
            intro a2 ha2
            apply hgood
            rw [List.take_succ_cons]
            exact List.mem_cons_of_mem a ha2
          have hdrop2 : as3.drop j = abad :: rest := by
            rw [List.drop_succ_cons] at hdrop
            exact hdrop
          exact ih as3 (saveAttachmentStep ω ρ env t conn lu src cand st a rds.head?).1
            rds.tail
            (acc ++ [(saveAttachmentStep ω ρ env t conn lu src cand st a rds.head?).2])
            abad rest hgood2 hdrop2 hbad

/-- C10: `saveGroupsInDb` and `saveToDb` throw a `ReferenceError` on
reaching the first element whose `remote_id` is null, undefined or empty,
and at that point every earlier element of the list has already been
persisted (a row with its key exists): the save is not atomic on this
error. -/
theorem save_throws_on_falsy_remote_id
    (σ ω ρ : Type) (strf : σ → String) (env : IngestEnv ω ρ) (t : Nat)
    (conn lu src : String) (st : FsState) (gs : List UnifiedGroupOutput)
    (rds : List σ) (ast : AtsSaveState ω) (atts : List UnifiedAttachmentOutput)
    (ards : List ρ) (cand : Option String)
    (j : Nat) (gbad : UnifiedGroupOutput) (rest : List UnifiedGroupOutput)
    (hgood : ∀ g ∈ gs.take j, jsTruthyStr g.remote_id = true)
    (hsplit : gs.drop j = gbad :: rest)
    (hbad : jsTruthyStr gbad.remote_id = false)
    (hwg : GroupWf st)
    (j2 : Nat) (abad : UnifiedAttachmentOutput) (rest2 : List UnifiedAttachmentOutput)
    (hagood : ∀ a ∈ atts.take j2, jsTruthyStr a.remote_id = true)
    (hasplit : atts.drop j2 = abad :: rest2)
    (habad : jsTruthyStr abad.remote_id = false)
    (hwa : AttachmentWf ω ast) :
    SyncService.saveGroupsInDb σ strf t st conn lu gs src rds =
      ((SyncService.saveGroupsInDb σ strf t st conn lu (gs.take j) src
          (rds.take j)).1,
       .error (.referenceError
         ("Origin id not there, found " ++ jsShowOptStr gbad.remote_id))) ∧
    (∀ g ∈ gs.take j,
      ∃ r ∈ (SyncService.saveGroupsInDb σ strf t st conn lu gs src rds).1.fs_groups,
        r.remote_id = g.remote_id.getD "" ∧ r.id_connection = conn) ∧
    SyncService.saveToDb ω ρ env t ast conn lu atts src ards cand =
      ((SyncService.saveToDb ω ρ env t ast conn lu (atts.take j2) src
          (ards.take j2) cand).1,
       .error (.referenceError
         ("Origin id not there, found " ++ jsShowOptStr abad.remote_id))) ∧
    (∀ a ∈ atts.take j2,
      ∃ r ∈ (SyncService.saveToDb ω ρ env t ast conn lu atts src ards
          cand).1.ats_candidate_attachments,
        r.remote_id = a.remote_id.getD "" ∧ r.id_connection = conn) := by
  have herr := saveGroupsGo_error σ strf t conn lu src j gs st rds [] gbad rest
    hgood hsplit hbad
  have haerr := saveToDbGo_error ω ρ env t conn lu src cand j2 atts ast ards []
    abad rest2 hagood hasplit habad
  refine ⟨herr, ?_, haerr, ?_⟩
  · intro g hg
    obtain ⟨hrun, _⟩ := saveGroupsGo_saveRun σ strf t conn lu src (gs.take j) st
      (rds.take j) [] hwg hgood
    obtain ⟨r, hr, hkey⟩ := saveRun_presence_all (groupOps t conn) (groupLaws t conn)
      hrun g hg
    have hstate : (SyncService.saveGroupsInDb σ strf t st conn lu gs src rds).1 =
        (saveGroupsGo σ strf t conn lu src st (gs.take j) (rds.take j) []).1 := by
      show (saveGroupsGo σ strf t conn lu src st gs rds []).1 = _
      rw [herr]
    rw [hstate]
    refine ⟨r, hr, ?_, ?_⟩
    · exact congrArg Prod.fst hkey
    · exact congrArg Prod.snd hkey
  · intro a ha
    obtain ⟨hrun, _⟩ := saveToDbGo_saveRun ω ρ env t conn lu src cand (atts.take j2)
      ast (ards.take j2) [] hwa hagood
    obtain ⟨r, hr, hkey⟩ := saveRun_presence_all (attachmentOps t conn cand)
      (attachmentLaws t conn cand) hrun a ha
    have hstate : (SyncService.saveToDb ω ρ env t ast conn lu atts src ards cand).1 =
        (saveToDbGo ω ρ env t conn lu src cand ast (atts.take j2) (ards.take j2)
          []).1 := by
      show (saveToDbGo ω ρ env t conn lu src cand ast atts ards []).1 = _
      rw [haerr]
    rw [hstate]
    refine ⟨r, hr, ?_, ?_⟩
    · exact congrArg Prod.fst hkey
    · exact congrArg Prod.snd hkey

/-- C10 witness: a concrete list whose second group has an empty remote id
and a concrete attachment list whose first element has no remote id. -/
theorem save_throws_on_falsy_remote_id_witness :
    SyncService.saveGroupsInDb String (fun s => s) 7 fsStateEmpty "c1" "lu"
        [groupW, groupBad] "src" ["r1", "r2"] =
      ((SyncService.saveGroupsInDb String (fun s => s) 7 fsStateEmpty "c1" "lu"
          [groupW] "src" ["r1"]).1,
       .error (.referenceError "Origin id not there, found ")) ∧
    SyncService.saveToDb Unit String ingestEnvW 7 atsSaveEmpty "c1" "lu"
        [attachmentBad] "src" ["x"] none =
      (atsSaveEmpty,
       .error (.referenceError "Origin id not there, found undefined")) := by
  have h := save_throws_on_falsy_remote_id String Unit String (fun s => s) ingestEnvW
    7 "c1" "lu" "src" fsStateEmpty [groupW, groupBad] ["r1", "r2"] atsSaveEmpty
    [attachmentBad] ["x"] none 1 groupBad [] (by decide) (by decide) (by decide)
    groupWf_empty 0 attachmentBad [] (by decide) (by decide) (by decide)
    attachmentWf_empty
  exact ⟨h.1, h.2.2.1⟩

/-- C5: when the linked user has a filestorage connection for the provider,
a successful `syncGroupsForLinkedUser` run calls `saveGroupsInDb` on the
unified groups and then appends one `filestorage.group.pulled` success
event and one webhook whose payload is exactly the rows returned by the
save; the groups persisted by the save are present in the final state.
When no such connection exists the call returns with the state unchanged:
no group, event or webhook is added. -/
theorem syncGroupsForLinkedUser_spec (σ : Type) (env : FsSyncEnv σ) (t : Nat)
    (st : FsState) (pr lu pj : String) :
    (st.connections.find? (fun c => c.id_linked_user == lu &&
        c.provider_slug == pr && c.vertical == "filestorage") = none →
      SyncService.syncGroupsForLinkedUser σ env t st pr lu pj = (st, .ok ())) ∧
    (∀ conn, st.connections.find? (fun c => c.id_linked_user == lu &&
        c.provider_slug == pr && c.vertical == "filestorage") = some conn →
      ∀ st2, SyncService.syncGroupsForLinkedUser σ env t st pr lu pj =
          (st2, .ok ()) →
      ∃ svc st1 groups_data,
        env.getService pr = some svc ∧
        SyncService.saveGroupsInDb σ env.stringify t st conn.id_connection lu
          (env.unify (svc.syncGroups lu
              ((env.getCustomFieldMappings pr lu "filestorage.group").map
                (fun m => m.remote_id))).data
            (env.getCustomFieldMappings pr lu "filestorage.group"))
          pr (svc.syncGroups lu
              ((env.getCustomFieldMappings pr lu "filestorage.group").map
                (fun m => m.remote_id))).data = (st1, .ok groups_data) ∧
        st2.fs_groups = st1.fs_groups ∧
        st2.events = st1.events ++
          [{ id_event := uuidv4 st1.nextUuid, status := "success"
             type := "filestorage.group.pulled", method := "PULL", url := "/pull"
             provider := pr, direction := "0", timestamp := t
             id_linked_user := lu }] ∧
        st2.webhooks = st1.webhooks ++
          [{ payload := groups_data, eventType := "filestorage.group.pulled"
             projectId := pj, eventId := uuidv4 st1.nextUuid }] ∧
        (GroupWf st →
          (∀ g ∈ env.unify (svc.syncGroups lu
              ((env.getCustomFieldMappings pr lu "filestorage.group").map
                (fun m => m.remote_id))).data
            (env.getCustomFieldMappings pr lu "filestorage.group"),
            jsTruthyStr g.remote_id = true) →
          ∀ g ∈ env.unify (svc.syncGroups lu
              ((env.getCustomFieldMappings pr lu "filestorage.group").map
                (fun m => m.remote_id))).data
            (env.getCustomFieldMappings pr lu "filestorage.group"),
            ∃ r ∈ st2.fs_groups, r.remote_id = g.remote_id.getD "" ∧
              r.id_connection = conn.id_connection)) := by
  constructor
  · intro h
    unfold SyncService.syncGroupsForLinkedUser
    rw [h]
  · intro conn hconn st2 hrun
    unfold SyncService.syncGroupsForLinkedUser at hrun
    rw [hconn] at hrun
    dsimp only at hrun
    cases hsvc : env.getService pr with
    | none =>
        rw [hsvc] at hrun
        exact absurd (congrArg Prod.snd hrun) (by simp)
    | some svc =>
        rw [hsvc] at hrun
        dsimp only at hrun
        cases hsave : SyncService.saveGroupsInDb σ env.stringify t st
            conn.id_connection lu
            (env.unify (svc.syncGroups lu
                ((env.getCustomFieldMappings pr lu "filestorage.group").map
                  (fun m => m.remote_id))).data
              (env.getCustomFieldMappings pr lu "filestorage.group"))
            pr (svc.syncGroups lu
                ((env.getCustomFieldMappings pr lu "filestorage.group").map
                  (fun m => m.remote_id))).data with
        | mk st1 res =>
            rw [hsave] at hrun
            cases res with
            | error e => exact absurd (congrArg Prod.snd hrun) (by simp)
            | ok groups_data =>
                have hst2 := (congrArg Prod.fst hrun).symm
                subst hst2
                refine ⟨svc, st1, groups_data, rfl, hsave, rfl, rfl, rfl, ?_⟩
                intro hwf htr g hg
                obtain ⟨hrunrel, _⟩ := saveGroupsGo_saveRun σ env.stringify t
                  conn.id_connection lu pr
                  (env.unify (svc.syncGroups lu
                      ((env.getCustomFieldMappings pr lu "filestorage.group").map
                        (fun m => m.remote_id))).data
                    (env.getCustomFieldMappings pr lu "filestorage.group"))
                  st
                  (svc.syncGroups lu
                      ((env.getCustomFieldMappings pr lu "filestorage.group").map
                        (fun m => m.remote_id))).data
                  [] hwf htr
                have hfs : (saveGroupsGo σ env.stringify t conn.id_connection lu pr
                    st
                    (env.unify (svc.syncGroups lu
                        ((env.getCustomFieldMappings pr lu "filestorage.group").map
                          (fun m => m.remote_id))).data
                      (env.getCustomFieldMappings pr lu "filestorage.group"))
                    (svc.syncGroups lu
                        ((env.getCustomFieldMappings pr lu "filestorage.group").map
                          (fun m => m.remote_id))).data
                    []).1 = st1 := congrArg Prod.fst hsave
                rw [hfs] at hrunrel
                obtain ⟨r, hr, hkey⟩ := saveRun_presence_all
                  (groupOps t conn.id_connection)
                  (groupLaws t conn.id_connection) hrunrel g hg
                exact ⟨r, hr, congrArg Prod.fst hkey, congrArg Prod.snd hkey⟩

/-- C5 witness: with no connection the state is returned unchanged; with the
fixture connection the run succeeds and the final state decomposes as the
save followed by the event and the webhook. -/
theorem syncGroupsForLinkedUser_spec_witness :
    (fsStateEmpty.connections.find? (fun c => c.id_linked_user == "lu" &&
        c.provider_slug == "box" && c.vertical == "filestorage") = none ∧
      SyncService.syncGroupsForLinkedUser String fsSyncEnvW 7 fsStateEmpty
        "box" "lu" "pj" = (fsStateEmpty, .ok ())) ∧
    (fsStateConnW.connections.find? (fun c => c.id_linked_user == "lu" &&
        c.provider_slug == "box" && c.vertical == "filestorage") = some fsConnW ∧
      ∃ svc st1 groups_data,
        fsSyncEnvW.getService "box" = some svc ∧
        SyncService.saveGroupsInDb String fsSyncEnvW.stringify 7 fsStateConnW
          fsConnW.id_connection "lu"
          (fsSyncEnvW.unify (svc.syncGroups "lu"
              ((fsSyncEnvW.getCustomFieldMappings "box" "lu"
                "filestorage.group").map (fun m => m.remote_id))).data
            (fsSyncEnvW.getCustomFieldMappings "box" "lu" "filestorage.group"))
          "box" (svc.syncGroups "lu"
              ((fsSyncEnvW.getCustomFieldMappings "box" "lu"
                "filestorage.group").map (fun m => m.remote_id))).data =
          (st1, .ok groups_data) ∧
        (SyncService.syncGroupsForLinkedUser String fsSyncEnvW 7 fsStateConnW
          "box" "lu" "pj").1.fs_groups = st1.fs_groups ∧
        (SyncService.syncGroupsForLinkedUser String fsSyncEnvW 7 fsStateConnW
          "box" "lu" "pj").1.events = st1.events ++
          [{ id_event := uuidv4 st1.nextUuid, status := "success"
             type := "filestorage.group.pulled", method := "PULL", url := "/pull"
             provider := "box", direction := "0", timestamp := 7
             id_linked_user := "lu" }] ∧
        (SyncService.syncGroupsForLinkedUser String fsSyncEnvW 7 fsStateConnW
          "box" "lu" "pj").1.webhooks = st1.webhooks ++
          [{ payload := groups_data, eventType := "filestorage.group.pulled"
             projectId := "pj", eventId := uuidv4 st1.nextUuid }] ∧
        (GroupWf fsStateConnW →
          (∀ g ∈ fsSyncEnvW.unify (svc.syncGroups "lu"
              ((fsSyncEnvW.getCustomFieldMappings "box" "lu"
                "filestorage.group").map (fun m => m.remote_id))).data
            (fsSyncEnvW.getCustomFieldMappings "box" "lu" "filestorage.group"),
            jsTruthyStr g.remote_id = true) →
          ∀ g ∈ fsSyncEnvW.unify (svc.syncGroups "lu"
              ((fsSyncEnvW.getCustomFieldMappings "box" "lu"
                "filestorage.group").map (fun m => m.remote_id))).data
            (fsSyncEnvW.getCustomFieldMappings "box" "lu" "filestorage.group"),
            ∃ r ∈ (SyncService.syncGroupsForLinkedUser String fsSyncEnvW 7
                fsStateConnW "box" "lu" "pj").1.fs_groups,
              r.remote_id = g.remote_id.getD "" ∧
              r.id_connection = fsConnW.id_connection)) := by
  constructor
  · exact ⟨rfl, (syncGroupsForLinkedUser_spec String fsSyncEnvW 7 fsStateEmpty
      "box" "lu" "pj").1 rfl⟩
  · exact ⟨rfl, (syncGroupsForLinkedUser_spec String fsSyncEnvW 7 fsStateConnW
      "box" "lu" "pj").2 fsConnW rfl _ rfl⟩

/-- Lemma: the `saveGroupsInDb` loop never touches the `users`, `projects`
or `linked_users` tables, also on the error path. -/
theorem saveGroupsGo_tables (σ : Type) (strf : σ → String) (t : Nat)
    (conn lu src : String) :
    ∀ (gs : List UnifiedGroupOutput) (st : FsState) (rds : List σ)
      (acc : List FsGroupRow),
    (saveGroupsGo σ strf t conn lu src st gs rds acc).1.users = st.users ∧
    (saveGroupsGo σ strf t conn lu src st gs rds acc).1.projects = st.projects ∧
    (saveGroupsGo σ strf t conn lu src st gs rds acc).1.linked_users =
      st.linked_users := by
  intro gs
  induction gs with
  | nil => intro st rds acc; exact ⟨rfl, rfl, rfl⟩
  | cons g gs ih =>
      intro st rds acc
      by_cases hg : jsTruthyStr g.remote_id = true
      · simp only [saveGroupsGo, if_pos hg]
        obtain ⟨h1, h2, h3⟩ := ih (saveGroupStep σ strf t conn lu src st g
          rds.head?).1 rds.tail
          (acc ++ [(saveGroupStep σ strf t conn lu src st g rds.head?).2])
        have hs := saveGroupStep_spec σ strf t conn lu src st g rds.head?
        exact ⟨h1.trans hs.2.2.2.2.1, h2.trans hs.2.2.2.2.2.1,
          h3.trans hs.2.2.2.2.2.2⟩
      · simp only [saveGroupsGo, if_neg hg]
        exact ⟨trivial, trivial, trivial⟩

/-- Lemma: one `syncGroupsForLinkedUser` call never touches the `users`,
`projects` or `linked_users` tables, on any path. -/
theorem syncGroupsForLinkedUser_tables (σ : Type) (env : FsSyncEnv σ) (t : Nat)
    (st : FsState) (pr lu pj : String) :
    (SyncService.syncGroupsForLinkedUser σ env t st pr lu pj).1.users =
      st.users ∧
    (SyncService.syncGroupsForLinkedUser σ env t st pr lu pj).1.projects =
      st.projects ∧
    (SyncService.syncGroupsForLinkedUser σ env t st pr lu pj).1.linked_users =
      st.linked_users := by
  unfold SyncService.syncGroupsForLinkedUser
  cases hc : st.connections.find? (fun c => c.id_linked_user == lu &&
      c.provider_slug == pr && c.vertical == "filestorage") with
  | none => exact ⟨rfl, rfl, rfl⟩
  | some conn =>
      dsimp only
      cases hsvc : env.getService pr with
      | none => exact ⟨rfl, rfl, rfl⟩
      | some svc =>
          dsimp only
          cases hsave : SyncService.saveGroupsInDb σ env.stringify t st
              conn.id_connection lu
              (env.unify (svc.syncGroups lu
                  ((env.getCustomFieldMappings pr lu "filestorage.group").map
                    (fun m => m.remote_id))).data
                (env.getCustomFieldMappings pr lu "filestorage.group"))
              pr (svc.syncGroups lu
                  ((env.getCustomFieldMappings pr lu "filestorage.group").map
                    (fun m => m.remote_id))).data with
          | mk st1 res =>
              have hfst : (SyncService.saveGroupsInDb σ env.stringify t st
                  conn.id_connection lu
                  (env.unify (svc.syncGroups lu
                      ((env.getCustomFieldMappings pr lu "filestorage.group").map
                        (fun m => m.remote_id))).data
                    (env.getCustomFieldMappings pr lu "filestorage.group"))
                  pr (svc.syncGroups lu
                      ((env.getCustomFieldMappings pr lu "filestorage.group").map
                        (fun m => m.remote_id))).data).1 = st1 :=
                congrArg Prod.fst hsave
              cases res with
              | error e =>
                  refine ⟨?_, ?_, ?_⟩
                  · show st1.users = st.users
                    rw [← hfst]
                    exact (saveGroupsGo_tables σ env.stringify t
                      conn.id_connection lu pr _ st _ []).1
                  · show st1.projects = st.projects
                    rw [← hfst]
                    exact (saveGroupsGo_tables σ env.stringify t
                      conn.id_connection lu pr _ st _ []).2.1
                  · show st1.linked_users = st.linked_users
                    rw [← hfst]
                    exact (saveGroupsGo_tables σ env.stringify t
                      conn.id_connection lu pr _ st _ []).2.2
              | ok gd =>
                  refine ⟨?_, ?_, ?_⟩
                  · show st1.users = st.users
                    rw [← hfst]
                    exact (saveGroupsGo_tables σ env.stringify t
                      conn.id_connection lu pr _ st _ []).1
                  · show st1.projects = st.projects
                    rw [← hfst]
                    exact (saveGroupsGo_tables σ env.stringify t
                      conn.id_connection lu pr _ st _ []).2.1
                  · show st1.linked_users = st.linked_users
                    rw [← hfst]
                    exact (saveGroupsGo_tables σ env.stringify t
                      conn.id_connection lu pr _ st _ []).2.2

/-- Lemma: one `syncAttachmentsForLinkedUser` call only acts on the
ingestion component, never on the fan-out tables. -/
theorem syncAttachmentsForLinkedUser_tables (ω υ : Type) (env : AtsSyncEnv ω υ)
    (st : AtsSyncState ω) (pr lu : String) :
    (SyncService.syncAttachmentsForLinkedUser ω υ env st pr lu).1.users =
      st.users ∧
    (SyncService.syncAttachmentsForLinkedUser ω υ env st pr lu).1.projects =
      st.projects ∧
    (SyncService.syncAttachmentsForLinkedUser ω υ env st pr lu).1.linked_users =
      st.linked_users := by
  unfold SyncService.syncAttachmentsForLinkedUser
  split
  · exact ⟨rfl, rfl, rfl⟩
  · exact ⟨rfl, rfl, rfl⟩

/-- Lemma: when every leaf call succeeds, the provider loop invokes the leaf
once per provider, in order. -/
theorem fanoutProviders_trace (τ : Type)
    (leaf : τ → String → String → String → τ × Except JsErr Unit)
    (hok : ∀ s p l pj, (leaf s p l pj).2 = .ok ()) :
    ∀ (ps : List String) (lu pj : String) (st : τ),
    (fanoutProviders τ leaf ps lu pj st).2 = ps.map (fun p => (p, lu, pj)) := by
  intro ps
  induction ps with
  | nil => intro lu pj st; rfl
  | cons p ps ih =>
      intro lu pj st
      unfold fanoutProviders
      cases hl : leaf st p lu pj with
      | mk st1 res =>
          have h2 : res = .ok () := by
            have h3 := hok st p lu pj
            rw [hl] at h3
            exact h3
          subst h2
          dsimp only
          rw [ih lu pj st1, List.map_cons]

/-- Lemma: the provider loop preserves any state view the leaf preserves,
also on the error path. -/
theorem fanoutProviders_view (τ α : Type)
    (leaf : τ → String → String → String → τ × Except JsErr Unit) (f : τ → α)
    (hf : ∀ s p l pj, f (leaf s p l pj).1 = f s) :
    ∀ (ps : List String) (lu pj : String) (st : τ),
    f (fanoutProviders τ leaf ps lu pj st).1 = f st := by
  intro ps
  induction ps with
  | nil => intro lu pj st; rfl
  | cons p ps ih =>
      intro lu pj st
      unfold fanoutProviders
      cases hl : leaf st p lu pj with
      | mk st1 res =>
          have hfs : f st1 = f st := by
            have h3 := hf st p lu pj
            rw [hl] at h3
            exact h3
          cases res with
          | error e => exact hfs
          | ok u => exact (ih lu pj st1).trans hfs

/-- Lemma: when every leaf call succeeds, the linked-user loop invokes the
leaf once per linked user and provider. -/
theorem fanoutLinkedUsers_trace (τ : Type)
    (leaf : τ → String → String → String → τ × Except JsErr Unit)
    (providers : List String)
    (hok : ∀ s p l pj, (leaf s p l pj).2 = .ok ()) :
    ∀ (ls : List LinkedUserRow) (pj : String) (st : τ),
    (fanoutLinkedUsers τ leaf providers ls pj st).2 =
      ls.flatMap (fun l => providers.map (fun pr =>
        (pr, l.id_linked_user, pj))) := by
  intro ls
  induction ls with
  | nil => intro pj st; rfl
  | cons l ls ih =>
      intro pj st
      unfold fanoutLinkedUsers
      dsimp only
      rw [fanoutProviders_trace τ leaf hok providers l.id_linked_user pj st,
        ih pj (fanoutProviders τ leaf providers l.id_linked_user pj st).1,
        List.flatMap_cons]

/-- Lemma: the linked-user loop preserves any state view the leaf
preserves. -/
theorem fanoutLinkedUsers_view (τ α : Type)
    (leaf : τ → String → String → String → τ × Except JsErr Unit)
    (providers : List String) (f : τ → α)
    (hf : ∀ s p l pj, f (leaf s p l pj).1 = f s) :
    ∀ (ls : List LinkedUserRow) (pj : String) (st : τ),
    f (fanoutLinkedUsers τ leaf providers ls pj st).1 = f st := by
  intro ls
  induction ls with
  | nil => intro pj st; rfl
  | cons l ls ih =>
      intro pj st
      unfold fanoutLinkedUsers
      dsimp only
      exact (ih pj _).trans
        (fanoutProviders_view τ α leaf f hf providers l.id_linked_user pj st)

/-- Lemma: when every leaf call succeeds, the project loop invokes the leaf
once per project, linked user of the project and provider; the linked users
observed are those of the entry state. -/
theorem fanoutProjects_trace (τ : Type)
    (leaf : τ → String → String → String → τ × Except JsErr Unit)
    (providers : List String) (linkedOf : τ → String → List LinkedUserRow)
    (hok : ∀ s p l pj, (leaf s p l pj).2 = .ok ())
    (hlv : ∀ s p l pj, linkedOf (leaf s p l pj).1 = linkedOf s) :
    ∀ (ps : List ProjectRow) (st : τ),
    (fanoutProjects τ leaf providers linkedOf ps st).2 =
      ps.flatMap (fun p => (linkedOf st p.id_project).flatMap (fun l =>
        providers.map (fun pr => (pr, l.id_linked_user, p.id_project)))) := by
  intro ps
  induction ps with
  | nil => intro st; rfl
  | cons p ps ih =>
      intro st
      unfold fanoutProjects
      dsimp only
      rw [fanoutLinkedUsers_trace τ leaf providers hok
          (linkedOf st p.id_project) p.id_project st,
        ih (fanoutLinkedUsers τ leaf providers (linkedOf st p.id_project)
          p.id_project st).1,
        fanoutLinkedUsers_view τ (String → List LinkedUserRow) leaf providers
          linkedOf hlv (linkedOf st p.id_project) p.id_project st,
        List.flatMap_cons]

/-- Lemma: the project loop preserves any state view the leaf preserves. -/
theorem fanoutProjects_view (τ α : Type)
    (leaf : τ → String → String → String → τ × Except JsErr Unit)
    (providers : List String) (linkedOf : τ → String → List LinkedUserRow)
    (f : τ → α) (hf : ∀ s p l pj, f (leaf s p l pj).1 = f s) :
    ∀ (ps : List ProjectRow) (st : τ),
    f (fanoutProjects τ leaf providers linkedOf ps st).1 = f st := by
  intro ps
  induction ps with
  | nil => intro st; rfl
  | cons p ps ih =>
      intro st
      unfold fanoutProjects
      dsimp only
      exact (ih _).trans (fanoutLinkedUsers_view τ α leaf providers f hf
        (linkedOf st p.id_project) p.id_project st)

/-- Lemma: when every leaf call succeeds, the user loop invokes the leaf
once per user, project of the user, linked user of the project and provider,
with the project and linked-user tables observed at the entry state. -/
theorem fanoutUsers_trace (τ : Type)
    (leaf : τ → String → String → String → τ × Except JsErr Unit)
    (providers : List String) (linkedOf : τ → String → List LinkedUserRow)
    (projectsOf : τ → String → List ProjectRow)
    (hok : ∀ s p l pj, (leaf s p l pj).2 = .ok ())
    (hlv : ∀ s p l pj, linkedOf (leaf s p l pj).1 = linkedOf s)
    (hpv : ∀ s p l pj, projectsOf (leaf s p l pj).1 = projectsOf s) :
    ∀ (us : List FsUserRow) (st : τ),
    (fanoutUsers τ leaf providers linkedOf projectsOf us st).2 =
      us.flatMap (fun u => (projectsOf st u.id_user).flatMap (fun p =>
        (linkedOf st p.id_project).flatMap (fun l =>
          providers.map (fun pr => (pr, l.id_linked_user, p.id_project))))) := by
  intro us
  induction us with
  | nil => intro st; rfl
  | cons u us ih =>
      intro st
      unfold fanoutUsers
      dsimp only
      rw [fanoutProjects_trace τ leaf providers linkedOf hok hlv
          (projectsOf st u.id_user) st,
        ih (fanoutProjects τ leaf providers linkedOf
          (projectsOf st u.id_user) st).1,
        fanoutProjects_view τ (String → List LinkedUserRow) leaf providers
          linkedOf linkedOf hlv (projectsOf st u.id_user) st,
        fanoutProjects_view τ (String → List ProjectRow) leaf providers
          linkedOf projectsOf hpv (projectsOf st u.id_user) st,
        List.flatMap_cons]

/-- Lemma: with pairwise-distinct user, project and linked-user ids and
distinct providers, the canonical invocation list has no duplicate
triple. -/
theorem canonicalSyncCalls_nodup (users : List FsUserRow)
    (projects : List ProjectRow) (linked : List LinkedUserRow)
    (providers : List String)
    (hu : (users.map (fun u => u.id_user)).Nodup)
    (hp : (projects.map (fun p => p.id_project)).Nodup)
    (hl : (linked.map (fun l => l.id_linked_user)).Nodup)
    (hpr : providers.Nodup) :
    (canonicalSyncCalls users projects linked providers).Nodup := by
  have huP : users.Pairwise (fun a b => a.id_user ≠ b.id_user) :=
    List.pairwise_map.mp hu
  have hpP : projects.Pairwise (fun a b => a.id_project ≠ b.id_project) :=
    List.pairwise_map.mp hp
  have hlP : linked.Pairwise (fun a b =>
      a.id_linked_user ≠ b.id_linked_user) := List.pairwise_map.mp hl
  have hpInj : ∀ x ∈ projects, ∀ y ∈ projects,
      x.id_project = y.id_project → x = y := List.inj_on_of_nodup_map hp
  have hthird : ∀ (p : ProjectRow) (x : SyncCall),
      x ∈ (linked.filter (fun l => l.id_project == p.id_project)).flatMap
        (fun l => providers.map (fun pr =>
          (pr, l.id_linked_user, p.id_project))) →
      x.2.2 = p.id_project := by
    intro p x hx
    obtain ⟨l1, _, hx2⟩ := List.mem_flatMap.mp hx
    obtain ⟨pr1, _, hxe⟩ := List.mem_map.mp hx2
    rw [← hxe]
  unfold canonicalSyncCalls
  rw [List.nodup_flatMap]
  constructor
  · intro u hu2
    rw [List.nodup_flatMap]
    constructor
    · intro p hp2
      rw [List.nodup_flatMap]
      constructor
      · intro l hl2
        refine List.Nodup.map ?_ hpr
        intro a b hab
        exact congrArg Prod.fst hab
      · have hsub := List.Pairwise.sublist
          ((List.filter_sublist linked :
            ((linked.filter (fun l => l.id_project == p.id_project)).Sublist
              linked))) hlP
        refine hsub.imp ?_
        intro a b hne x hx1 hx2
        obtain ⟨pr1, _, hx1e⟩ := List.mem_map.mp hx1
        obtain ⟨pr2, _, hx2e⟩ := List.mem_map.mp hx2
        exact hne (congrArg (fun q => q.2.1) (hx1e.trans hx2e.symm))
    · have hsub := List.Pairwise.sublist
        ((List.filter_sublist projects :
          ((projects.filter (fun p2 => p2.id_user == u.id_user)).Sublist
            projects))) hpP
      refine hsub.imp ?_
      intro a b hne x hx1 hx2
      have h1 := hthird a x hx1
      have h2 := hthird b x hx2
      exact hne (h1.symm.trans h2)
  · refine huP.imp ?_
    intro u1 u2 hne x hx1 hx2
    obtain ⟨p1, hp1, hx1i⟩ := List.mem_flatMap.mp hx1
    obtain ⟨p2, hp2, hx2i⟩ := List.mem_flatMap.mp hx2
    have h1 := hthird p1 x hx1i
    have h2 := hthird p2 x hx2i
    obtain ⟨hp1m, hp1b⟩ := List.mem_filter.mp hp1
    obtain ⟨hp2m, hp2b⟩ := List.mem_filter.mp hp2
    have hpe : p1 = p2 := hpInj p1 hp1m p2 hp2m (h1.symm.trans h2)
    have hu1 : p1.id_user = u1.id_user := eq_of_beq hp1b
    have hu2e : p2.id_user = u2.id_user := eq_of_beq hp2b
    exact hne (hu1.symm.trans ((congrArg (fun q => q.id_user) hpe).trans hu2e))

/-- Counting an element of a duplicate-free list under any lawful `BEq`
instance. -/
theorem count_le_one_of_nodup_lawful {α : Type} [BEq α] [LawfulBEq α]
    {l : List α} (hn : l.Nodup) (a : α) : l.count a ≤ 1 := by
  induction l with
  | nil => exact Nat.le_of_lt Nat.one_pos
  | cons x xs ih =>
      rw [List.count_cons]
      obtain ⟨hx1, hx2⟩ := List.nodup_cons.mp hn
      by_cases hxa : (x == a) = true
      · have hax : x = a := eq_of_beq hxa
        have hz : xs.count a = 0 := List.count_eq_zero.mpr (hax ▸ hx1)
        rw [if_pos hxa, hz]
      · rw [if_neg hxa]
        have := ih hx2
        omega

/-- An element of a duplicate-free list is counted exactly once, under any
lawful `BEq` instance. -/
theorem count_eq_one_of_mem_lawful {α : Type} [BEq α] [LawfulBEq α]
    {l : List α} (hn : l.Nodup) {a : α} (hm : a ∈ l) : l.count a = 1 := by
  have h1 := count_le_one_of_nodup_lawful hn a
  have h2 := List.count_pos_iff.mpr hm
  omega

/-- C7: when every per-linked-user call succeeds, `syncGroups` with no
`user_id` invokes `syncGroupsForLinkedUser` once per (provider, linked user,
project) triple of the full user → project → linked-user → provider fan-out,
and with a `user_id` only that user's projects and linked users are
traversed; `syncAttachments` behaves identically over its providers; with
pairwise-distinct ids the invocation count of every expected triple is
exactly one. -/
theorem sync_fanout_exactly_once (σ ω υ : Type) (envg : FsSyncEnv σ)
    (enva : AtsSyncEnv ω υ) (t : Nat) (provG provA : List String)
    (st : FsState) (ast : AtsSyncState ω)
    (hokG : ∀ (s : FsState) (p l pj : String),
      (SyncService.syncGroupsForLinkedUser σ envg t s p l pj).2 = .ok ())
    (hokA : ∀ (s : AtsSyncState ω) (p l : String),
      (SyncService.syncAttachmentsForLinkedUser ω υ enva s p l).2 = .ok ()) :
    (SyncService.syncGroups σ envg t provG st none).2.1 =
      canonicalSyncCalls st.users st.projects st.linked_users provG ∧
    (∀ uid u, st.users.find? (fun x => x.id_user == uid) = some u →
      (SyncService.syncGroups σ envg t provG st (some uid)).2.1 =
        canonicalSyncCalls [u] st.projects st.linked_users provG) ∧
    (SyncService.syncAttachments ω υ enva provA ast none).2.1 =
      canonicalSyncCalls ast.users ast.projects ast.linked_users provA ∧
    (∀ uid u, ast.users.find? (fun x => x.id_user == uid) = some u →
      (SyncService.syncAttachments ω υ enva provA ast (some uid)).2.1 =
        canonicalSyncCalls [u] ast.projects ast.linked_users provA) ∧
    ((st.users.map (fun u => u.id_user)).Nodup →
      (st.projects.map (fun p => p.id_project)).Nodup →
      (st.linked_users.map (fun l => l.id_linked_user)).Nodup → provG.Nodup →
      ∀ c ∈ canonicalSyncCalls st.users st.projects st.linked_users provG,
        (SyncService.syncGroups σ envg t provG st none).2.1.count c = 1) ∧
    ((ast.users.map (fun u => u.id_user)).Nodup →
      (ast.projects.map (fun p => p.id_project)).Nodup →
      (ast.linked_users.map (fun l => l.id_linked_user)).Nodup → provA.Nodup →
      ∀ c ∈ canonicalSyncCalls ast.users ast.projects ast.linked_users provA,
        (SyncService.syncAttachments ω υ enva provA ast none).2.1.count c
          = 1) := by
  have hlvG : ∀ (s : FsState) (p l pj : String),
      (fun (s2 : FsState) (pj2 : String) =>
        s2.linked_users.filter (fun x => x.id_project == pj2))
        (SyncService.syncGroupsForLinkedUser σ envg t s p l pj).1 =
      (fun (s2 : FsState) (pj2 : String) =>
        s2.linked_users.filter (fun x => x.id_project == pj2)) s := by
    intro s p l pj
    funext pj2
    show (SyncService.syncGroupsForLinkedUser σ envg t s p l
        pj).1.linked_users.filter (fun x => x.id_project == pj2) =
      s.linked_users.filter (fun x => x.id_project == pj2)
    rw [(syncGroupsForLinkedUser_tables σ envg t s p l pj).2.2]
  have hpvG : ∀ (s : FsState) (p l pj : String),
      (fun (s2 : FsState) (uid2 : String) =>
        s2.projects.filter (fun x => x.id_user == uid2))
        (SyncService.syncGroupsForLinkedUser σ envg t s p l pj).1 =
      (fun (s2 : FsState) (uid2 : String) =>
        s2.projects.filter (fun x => x.id_user == uid2)) s := by
    intro s p l pj
    funext uid2
    show (SyncService.syncGroupsForLinkedUser σ envg t s p l
        pj).1.projects.filter (fun x => x.id_user == uid2) =
      s.projects.filter (fun x => x.id_user == uid2)
    rw [(syncGroupsForLinkedUser_tables σ envg t s p l pj).2.1]
  have hlvA : ∀ (s : AtsSyncState ω) (p l pj : String),
      (fun (s2 : AtsSyncState ω) (pj2 : String) =>
        s2.linked_users.filter (fun x => x.id_project == pj2))
        (SyncService.syncAttachmentsForLinkedUser ω υ enva s p l).1 =
      (fun (s2 : AtsSyncState ω) (pj2 : String) =>
        s2.linked_users.filter (fun x => x.id_project == pj2)) s := by
    intro s p l pj
    funext pj2
    show (SyncService.syncAttachmentsForLinkedUser ω υ enva s p
        l).1.linked_users.filter (fun x => x.id_project == pj2) =
      s.linked_users.filter (fun x => x.id_project == pj2)
    rw [(syncAttachmentsForLinkedUser_tables ω υ enva s p l).2.2]
  have hpvA : ∀ (s : AtsSyncState ω) (p l pj : String),
      (fun (s2 : AtsSyncState ω) (uid2 : String) =>
        s2.projects.filter (fun x => x.id_user == uid2))
        (SyncService.syncAttachmentsForLinkedUser ω υ enva s p l).1 =
      (fun (s2 : AtsSyncState ω) (uid2 : String) =>
        s2.projects.filter (fun x => x.id_user == uid2)) s := by
    intro s p l pj
    funext uid2
    show (SyncService.syncAttachmentsForLinkedUser ω υ enva s p
        l).1.projects.filter (fun x => x.id_user == uid2) =
      s.projects.filter (fun x => x.id_user == uid2)
    rw [(syncAttachmentsForLinkedUser_tables ω υ enva s p l).2.1]
  have hg_none : (SyncService.syncGroups σ envg t provG st none).2.1 =
      canonicalSyncCalls st.users st.projects st.linked_users provG :=
    fanoutUsers_trace FsState
      (fun s p l pj => SyncService.syncGroupsForLinkedUser σ envg t s p l pj)
      provG
      (fun s pj => s.linked_users.filter (fun l => l.id_project == pj))
      (fun s uid2 => s.projects.filter (fun p => p.id_user == uid2))
      hokG hlvG hpvG st.users st
  have ha_none : (SyncService.syncAttachments ω υ enva provA ast none).2.1 =
      canonicalSyncCalls ast.users ast.projects ast.linked_users provA :=
    fanoutUsers_trace (AtsSyncState ω)
      (fun s p l _ => SyncService.syncAttachmentsForLinkedUser ω υ enva s p l)
      provA
      (fun s pj => s.linked_users.filter (fun l => l.id_project == pj))
      (fun s uid2 => s.projects.filter (fun p => p.id_user == uid2))
      (fun s p l pj => hokA s p l) hlvA hpvA ast.users ast
  refine ⟨hg_none, ?_, ha_none, ?_, ?_, ?_⟩
  · intro uid u hfind
    show (SyncService.syncGroups σ envg t provG st (some uid)).2.1 = _
    unfold SyncService.syncGroups
    dsimp only
    rw [hfind]
    dsimp only
    exact fanoutUsers_trace FsState
      (fun s p l pj => SyncService.syncGroupsForLinkedUser σ envg t s p l pj)
      provG
      (fun s pj => s.linked_users.filter (fun l => l.id_project == pj))
      (fun s uid2 => s.projects.filter (fun p => p.id_user == uid2))
      hokG hlvG hpvG [u] st
  · intro uid u hfind
    show (SyncService.syncAttachments ω υ enva provA ast (some uid)).2.1 = _
    unfold SyncService.syncAttachments
    dsimp only
    rw [hfind]
    dsimp only
    exact fanoutUsers_trace (AtsSyncState ω)
      (fun s p l _ => SyncService.syncAttachmentsForLinkedUser ω υ enva s p l)
      provA
      (fun s pj => s.linked_users.filter (fun l => l.id_project == pj))
      (fun s uid2 => s.projects.filter (fun p => p.id_user == uid2))
      (fun s p l pj => hokA s p l) hlvA hpvA [u] ast
  · intro h1 h2 h3 h4 c hc
    rw [hg_none]
    exact count_eq_one_of_mem_lawful
      (canonicalSyncCalls_nodup st.users st.projects st.linked_users provG
        h1 h2 h3 h4) hc
  · intro h1 h2 h3 h4 c hc
    rw [ha_none]
    exact count_eq_one_of_mem_lawful
      (canonicalSyncCalls_nodup ast.users ast.projects ast.linked_users provA
        h1 h2 h3 h4) hc

/-- C7 witness: one user with one project and one linked user; a single
filestorage provider and a single ats provider, with leaves that always
succeed. -/
theorem sync_fanout_exactly_once_witness :
    (SyncService.syncGroups String fsSyncEnvN 7 ["box"] fsStateFanW none).2.1 =
      canonicalSyncCalls fsStateFanW.users fsStateFanW.projects
        fsStateFanW.linked_users ["box"] ∧
    (∀ uid u, fsStateFanW.users.find? (fun x => x.id_user == uid) = some u →
      (SyncService.syncGroups String fsSyncEnvN 7 ["box"] fsStateFanW
          (some uid)).2.1 =
        canonicalSyncCalls [u] fsStateFanW.projects fsStateFanW.linked_users
          ["box"]) ∧
    (SyncService.syncAttachments Unit Unit atsSyncEnvN ["zoho"] atsSyncStateW
        none).2.1 =
      canonicalSyncCalls atsSyncStateW.users atsSyncStateW.projects
        atsSyncStateW.linked_users ["zoho"] ∧
    (∀ uid u, atsSyncStateW.users.find? (fun x => x.id_user == uid) = some u →
      (SyncService.syncAttachments Unit Unit atsSyncEnvN ["zoho"] atsSyncStateW
          (some uid)).2.1 =
        canonicalSyncCalls [u] atsSyncStateW.projects
          atsSyncStateW.linked_users ["zoho"]) ∧
    ((fsStateFanW.users.map (fun u => u.id_user)).Nodup →
      (fsStateFanW.projects.map (fun p => p.id_project)).Nodup →
      (fsStateFanW.linked_users.map (fun l => l.id_linked_user)).Nodup →
      (["box"] : List String).Nodup →
      ∀ c ∈ canonicalSyncCalls fsStateFanW.users fsStateFanW.projects
          fsStateFanW.linked_users ["box"],
        (SyncService.syncGroups String fsSyncEnvN 7 ["box"] fsStateFanW
          none).2.1.count c = 1) ∧
    ((atsSyncStateW.users.map (fun u => u.id_user)).Nodup →
      (atsSyncStateW.projects.map (fun p => p.id_project)).Nodup →
      (atsSyncStateW.linked_users.map (fun l => l.id_linked_user)).Nodup →
      (["zoho"] : List String).Nodup →
      ∀ c ∈ canonicalSyncCalls atsSyncStateW.users atsSyncStateW.projects
          atsSyncStateW.linked_users ["zoho"],
        (SyncService.syncAttachments Unit Unit atsSyncEnvN ["zoho"]
          atsSyncStateW none).2.1.count c = 1) :=
  sync_fanout_exactly_once String Unit Unit fsSyncEnvN atsSyncEnvN 7 ["box"]
    ["zoho"] fsStateFanW atsSyncStateW
    (by
      intro s p l pj
      unfold SyncService.syncGroupsForLinkedUser
      cases hc : s.connections.find? (fun c => c.id_linked_user == l &&
          c.provider_slug == p && c.vertical == "filestorage") with
      | none => rfl
      | some conn => rfl)
    (fun s p l => rfl)
